import Mathlib

/-!
Verification development for onecloud.

Shallow embedding of selected functions of the compute models, the AWS host
driver, the OVN convergence helper and the proxy-setting model, together with
theorems about them.

Go errors are embedded as the error case of `Except`; a Go `int` argument is
embedded as `Int` and a row count as `Nat` (only order comparisons are made on
them); a nil slice is the empty list.
-/

namespace Onecloud

/-! ## pkg/compute/hostdrivers/aws.go -/

/-- Storage-type constants of package `models` referred to by the AWS host
driver.  Their declarations lie outside the embedded sources, so the values are
parameters of the embedding. -/
structure StorageTypes where
  STORAGE_GP2_SSD : String
  STORAGE_IO1_SSD : String
  STORAGE_ST1_HDD : String
  STORAGE_SC1_SSD : String
  STORAGE_STANDARD_SSD : String

/-- The part of `models.SStorage` read by the host driver. -/
structure SStorage where
  StorageType : String

/-- Embedding of `utils.IsInStringArray`: linear membership test. -/
def IsInStringArray (s : String) : List String → Bool
  | [] => false
  | a :: rest => if a = s then true else IsInStringArray s rest

/-- Embedding of `SAwsHostDriver.ValidateDiskSize`: `Except.ok ()` stands for
the `nil` error. -/
def ValidateDiskSize (c : StorageTypes) (storage : SStorage) (sizeGb : Int) :
    Except String Unit :=
  if storage.StorageType = c.STORAGE_GP2_SSD then
    if sizeGb < 1 ∨ sizeGb > 16384 then
      .error ("The " ++ storage.StorageType ++ " disk size must be in the range of 1G ~ 16384GB")
    else .ok ()
  else if storage.StorageType = c.STORAGE_IO1_SSD then
    if sizeGb < 4 ∨ sizeGb > 16384 then
      .error ("The " ++ storage.StorageType ++ " disk size must be in the range of 4G ~ 16384GB")
    else .ok ()
  else if IsInStringArray storage.StorageType [c.STORAGE_ST1_HDD, c.STORAGE_SC1_SSD] then
    if sizeGb < 500 ∨ sizeGb > 16384 then
      .error ("The " ++ storage.StorageType ++ " disk size must be in the range of 500G ~ 16384GB")
    else .ok ()
  else if storage.StorageType = c.STORAGE_STANDARD_SSD then
    if sizeGb < 1 ∨ sizeGb > 1024 then
      .error ("The " ++ storage.StorageType ++ " disk size must be in the range of 1G ~ 1024GB")
    else .ok ()
  else
    .error ("Not support create " ++ storage.StorageType ++ " disk")

/-- The storage-type names used by the AWS provider. -/
def awsStorageTypes : StorageTypes :=
  { STORAGE_GP2_SSD := "gp2", STORAGE_IO1_SSD := "io1", STORAGE_ST1_HDD := "st1",
    STORAGE_SC1_SSD := "sc1", STORAGE_STANDARD_SSD := "standard" }

/-- The size/type condition under which a disk request is acceptable. -/
def DiskSizeAccepted (c : StorageTypes) (storage : SStorage) (sizeGb : Int) : Prop :=
  (storage.StorageType = c.STORAGE_GP2_SSD ∧ 1 ≤ sizeGb ∧ sizeGb ≤ 16384) ∨
  (storage.StorageType = c.STORAGE_IO1_SSD ∧ 4 ≤ sizeGb ∧ sizeGb ≤ 16384) ∨
  ((storage.StorageType = c.STORAGE_ST1_HDD ∨ storage.StorageType = c.STORAGE_SC1_SSD) ∧
      500 ≤ sizeGb ∧ sizeGb ≤ 16384) ∨
  (storage.StorageType = c.STORAGE_STANDARD_SSD ∧ 1 ≤ sizeGb ∧ sizeGb ≤ 1024)

/-! ## pkg/vpcagent/ovn/cmp.go -/

/-- The operations of package `ovnutil` (and the package-level constant
`externalKeyOcVersion`) that `cmp` calls.  They are declared outside the
embedded sources and are parameters of the embedding.  `Row` stands for
`ovnutil.IRow`; `asLogicalSwitchPort` is the type switch
`irow.(type) == *ovnutil.LogicalSwitchPort`, yielding `row.Name`;
`newLogicalSwitchPort n` is `&ovnutil.LogicalSwitchPort{Name: n}`. -/
structure OVNNorthbound (Row : Type) where
  FindOneMatchNonZeros : Row → Option Row
  asLogicalSwitchPort : Row → Option String
  newLogicalSwitchPort : String → Row
  OvnNbctlArgsDestroy : List Row → List String
  externalKeyOcVersion : String

/-- One call `row.OvnSetExternalIds(key, value)`. -/
structure SetExternalIdsCall (Row : Type) where
  row : Row
  key : String
  value : String
deriving DecidableEq, Repr

/-- The two slices built by the first loop of `cmp`, with the queries that the
loop has passed to `db.FindOneMatchNonZeros`, in call order. -/
structure CmpScan (Row : Type) where
  irowsFound : List Row
  irowsDiff : List Row
  lookups : List Row

/-- Body of the first loop of `cmp` for one requested row. -/
def cmpScanStep {Row : Type} (db : OVNNorthbound Row) (st : CmpScan Row) (irow : Row) :
    CmpScan Row :=
  match db.FindOneMatchNonZeros irow with
  | some irowFound =>
    { st with irowsFound := st.irowsFound ++ [irowFound], lookups := st.lookups ++ [irow] }
  | none =>
    match db.asLogicalSwitchPort irow with
    | some name =>
      match db.FindOneMatchNonZeros (db.newLogicalSwitchPort name) with
      | some irow2 =>
        { st with irowsDiff := st.irowsDiff ++ [irow2],
                  lookups := st.lookups ++ [irow, db.newLogicalSwitchPort name] }
      | none => { st with lookups := st.lookups ++ [irow, db.newLogicalSwitchPort name] }
    | none => { st with lookups := st.lookups ++ [irow] }

/-- Body of the second loop of `cmp`: the call made on one found row, appended
to the calls made so far. -/
def cmpMarkStep {Row : Type} (db : OVNNorthbound Row) (ocver : String)
    (calls : List (SetExternalIdsCall Row)) (irowFound : Row) :
    List (SetExternalIdsCall Row) :=
  calls ++ [{ row := irowFound, key := db.externalKeyOcVersion, value := ocver }]

/-- Result of `cmp`: its two return values (a nil slice is the empty list), the
`OvnSetExternalIds` calls it made, in order, and the queries it passed to
`db.FindOneMatchNonZeros`, in order. -/
structure CmpResult (Row : Type) where
  allFound : Bool
  args : List String
  marks : List (SetExternalIdsCall Row)
  lookups : List Row

/-- Embedding of `cmp`. -/
def cmp {Row : Type} (db : OVNNorthbound Row) (ocver : String) (irows : List Row) :
    CmpResult Row :=
  let st := irows.foldl (cmpScanStep db) { irowsFound := [], irowsDiff := [], lookups := [] }
  let marks := st.irowsFound.foldl (cmpMarkStep db ocver) []
  if st.irowsFound.length = irows.length then
    { allFound := true, args := [], marks := marks, lookups := st.lookups }
  else
    { allFound := false,
      args := db.OvnNbctlArgsDestroy st.irowsFound ++ db.OvnNbctlArgsDestroy st.irowsDiff,
      marks := marks, lookups := st.lookups }

/-- The rows found by exact match for the requested rows, in request order. -/
def exactMatches {Row : Type} (db : OVNNorthbound Row) (irows : List Row) : List Row :=
  irows.filterMap db.FindOneMatchNonZeros

/-- The row found by name alone for a requested logical switch port that has no
exact match. -/
def nameMatch {Row : Type} (db : OVNNorthbound Row) (irow : Row) : Option Row :=
  match db.FindOneMatchNonZeros irow with
  | some _ => none
  | none => (db.asLogicalSwitchPort irow).bind
      (fun name => db.FindOneMatchNonZeros (db.newLogicalSwitchPort name))

/-- The rows found by name alone, in request order. -/
def nameMatches {Row : Type} (db : OVNNorthbound Row) (irows : List Row) : List Row :=
  irows.filterMap (nameMatch db)

/-- A two-table sample of northbound rows: logical switch ports and logical
switches, with an empty string as the zero value of a column. -/
inductive SampleRow where
  | LogicalSwitchPort (uuid name addresses : String)
  | LogicalSwitch (uuid name : String)
deriving DecidableEq, Repr

/-- A column of the query matches when it is zero or equal. -/
def colMatch (q v : String) : Bool := q = "" || q = v

/-- Whether table row `r` matches the non-zero columns of query `q`. -/
def SampleRow.MatchNonZeros : SampleRow → SampleRow → Bool
  | .LogicalSwitchPort u n a, .LogicalSwitchPort qu qn qa =>
      colMatch qu u && colMatch qn n && colMatch qa a
  | .LogicalSwitch u n, .LogicalSwitch qu qn => colMatch qu u && colMatch qn n
  | _, _ => false

/-- Destroy arguments of the sample rows: one `destroy` command per row. -/
def SampleRow.destroyArgs : List SampleRow → List String
  | [] => []
  | .LogicalSwitchPort u _ _ :: rest =>
      ["--", "--if-exists", "destroy", "Logical_Switch_Port", u] ++ SampleRow.destroyArgs rest
  | .LogicalSwitch u _ :: rest =>
      ["--", "--if-exists", "destroy", "Logical_Switch", u] ++ SampleRow.destroyArgs rest

/-- A sample northbound database over a list of rows. -/
def sampleDb (rows : List SampleRow) : OVNNorthbound SampleRow :=
  { FindOneMatchNonZeros := fun q => rows.find? (fun r => r.MatchNonZeros q)
    asLogicalSwitchPort := fun r =>
      match r with
      | .LogicalSwitchPort _ n _ => some n
      | .LogicalSwitch _ _ => none
    newLogicalSwitchPort := fun n => .LogicalSwitchPort "" n ""
    OvnNbctlArgsDestroy := SampleRow.destroyArgs
    externalKeyOcVersion := "oc-version" }

/-! ## Errors -/

/-- Classes of errors built by package `httperrors`. -/
inductive HttpErrClass where
  | InternalServerError
  | NotEmptyError
  | ProtectedResourceError
  | ConflictError
  | ResourceBusyError
  | InputParameterError
deriving DecidableEq, Repr

/-- Go error values: plain errors (`fmt.Errorf`, errors of lower layers),
`httperrors` errors with their class, `errors.Wrap`, and the sentinel
`sql.ErrNoRows`, which the code tells from other errors by identity. -/
inductive Err where
  | plain (msg : String)
  | http (cls : HttpErrClass) (msg : String)
  | wrap (msg : String) (cause : Err)
  | noRows
deriving DecidableEq, Repr

/-- The text of an error, `err.Error()`. -/
def Err.Error : Err → String
  | .plain m => m
  | .http _ m => m
  | .wrap m c => m ++ ": " ++ c.Error
  | .noRows => "sql: no rows in result set"

/-- The root cause of an error, `errors.Cause(err)`: the error under its
`errors.Wrap` layers. -/
def Err.Cause : Err → Err
  | .wrap _ c => c.Cause
  | .plain m => .plain m
  | .http cls m => .http cls m
  | .noRows => .noRows

/-- The sentinel `sql.ErrNoRows`. -/
def ErrNoRows : Err := .noRows

/-! ## pkg/compute/models/vpcs.go -/

/-- The columns of `SVpc` (with those of its embedded bases) that the embedded
functions read or write. -/
structure SVpc where
  Id : String
  Name : String
  ExternalId : String
  ManagerId : String
  Status : String
  Enabled : Bool
  IsEmulated : Bool
  IsDefault : Bool
  CidrBlock : String
  CloudregionId : String
  GlobalvpcId : String
deriving DecidableEq, Repr

/-- The values an externally observed VPC (`cloudprovider.ICloudVpc`) reports
through its getters, as they are after `Refresh()`. -/
structure ICloudVpc where
  GlobalId : String
  Name : String
  Status : String
  CidrBlock : String
  IsDefault : Bool
  IsEmulated : Bool
deriving DecidableEq, Repr

/-- The columns of `SCloudregion` that are read, with the answer of its
driver to `IsVpcBelongGlobalVpc`. -/
structure SCloudregion where
  Id : String
  Name : String
  ExternalId : String
  vpcBelongGlobalVpc : Bool
deriving DecidableEq, Repr

/-- The columns of `SCloudprovider` that are read. -/
structure SCloudprovider where
  Id : String
  Name : String
deriving DecidableEq, Repr

/-- The column of `SHost` that `NewVpcForClassicNetwork` reads, with the region
and the cloud provider that `host.GetRegion()` and `host.GetCloudprovider()`
yield for the host; the function dereferences both without a nil check. -/
structure SHost where
  ManagerId : String
  region : SCloudregion
  cloudprovider : SCloudprovider
deriving DecidableEq, Repr

/-- The columns of `SWire` that are read. -/
structure SWire where
  Id : String
  VpcId : String
deriving DecidableEq, Repr

/-- The columns of `SNatGateway` that are read. -/
structure SNatGateway where
  Id : String
  VpcId : String
deriving DecidableEq, Repr

/-- The columns of `SRouteTable` that are read. -/
structure SRouteTable where
  Id : String
  VpcId : String
deriving DecidableEq, Repr

/-- The columns of `SGlobalVpc` that are written. -/
structure SGlobalVpc where
  Id : String
  Name : String
  Enabled : Bool
  Status : String
deriving DecidableEq, Repr

/-- Modelled from the spec: the failure tally `compare.SyncResult` of the
DiffResult (section 3), whose declaration lies outside the embedded sources: per
category the count of entities whose apply succeeded and the count of those
whose apply failed, with the errors met. -/
structure SyncResult where
  AddCnt : Nat
  AddErrCnt : Nat
  UpdateCnt : Nat
  UpdateErrCnt : Nat
  DelCnt : Nat
  DelErrCnt : Nat
  errors : List Err
deriving DecidableEq, Repr

/-- The zero value `compare.SyncResult{}`. -/
def SyncResult.zero : SyncResult :=
  { AddCnt := 0, AddErrCnt := 0, UpdateCnt := 0, UpdateErrCnt := 0,
    DelCnt := 0, DelErrCnt := 0, errors := [] }

/-- Modelled from the spec: `SyncResult.Error`, recording an error. -/
def SyncResult.Error (r : SyncResult) (err : Err) : SyncResult :=
  { r with errors := r.errors ++ [err] }

/-- Modelled from the spec: `SyncResult.Add`, one more successful add. -/
def SyncResult.Add (r : SyncResult) : SyncResult := { r with AddCnt := r.AddCnt + 1 }

/-- Modelled from the spec: `SyncResult.AddError`, one more failed add. -/
def SyncResult.AddError (r : SyncResult) (err : Err) : SyncResult :=
  { r with AddErrCnt := r.AddErrCnt + 1, errors := r.errors ++ [err] }

/-- Modelled from the spec: `SyncResult.Update`, one more successful update. -/
def SyncResult.Update (r : SyncResult) : SyncResult := { r with UpdateCnt := r.UpdateCnt + 1 }

/-- Modelled from the spec: `SyncResult.UpdateError`, one more failed update. -/
def SyncResult.UpdateError (r : SyncResult) (err : Err) : SyncResult :=
  { r with UpdateErrCnt := r.UpdateErrCnt + 1, errors := r.errors ++ [err] }

/-- Modelled from the spec: `SyncResult.Delete`, one more successful delete. -/
def SyncResult.Delete (r : SyncResult) : SyncResult := { r with DelCnt := r.DelCnt + 1 }

/-- Modelled from the spec: `SyncResult.DeleteError`, one more failed delete. -/
def SyncResult.DeleteError (r : SyncResult) (err : Err) : SyncResult :=
  { r with DelErrCnt := r.DelErrCnt + 1, errors := r.errors ++ [err] }

/-- The output slices of `compare.CompareSets`; `commondb[i]` and
`commonext[i]` are kept as one list of pairs. -/
structure Partition where
  removed : List SVpc
  common : List (SVpc × ICloudVpc)
  added : List ICloudVpc
deriving DecidableEq, Repr

/-- The operations of the persistence layer, the task manager and sibling
models that the embedded functions of `vpcs.go` call, over a store state `σ`,
with the constants of package `api` they use.  Their code lies outside the
embedded sources; they are parameters of the embedding.  An operation that
mutates its receiver returns the receiver as left by the call. -/
structure VpcOps (σ : Type) where
  DEFAULT_VPC_ID : String
  VPC_STATUS_UNKNOWN : String
  VPC_STATUS_DELETED : String
  GLOBAL_VPC_STATUS_AVAILABLE : String
  /-- Stands for `db.FetchModelObjects(manager, manager.Query(), &vpcs)`: the rows of the table. -/
  FetchVpcs : σ → Except Err (List SVpc)
  /-- Stands for `taskman.TaskManager.IsInTask`. -/
  IsInTask : SVpc → σ → Bool
  /-- Stands for `compare.CompareSets`. -/
  CompareSets : List SVpc → List ICloudVpc → Except Err Partition
  /-- Stands for `self.getNetworkQuery().CountWithError()`, a row count. -/
  GetNetworkCount : SVpc → σ → Except Err Nat
  /-- Stands for `self.getNatgatewayQuery().CountWithError()`, a row count. -/
  GetNatgatewayCount : SVpc → σ → Except Err Nat
  /-- Stands for `SEnabledStatusStandaloneResourceBase.ValidateDeleteCondition`. -/
  baseValidateDeleteCondition : SVpc → σ → Except Err Unit
  /-- Stands for `self.GetWires()`; `none` is the nil slice returned on a query error. -/
  GetWires : SVpc → σ → Option (List SWire)
  /-- Stands for `SWire.markNetworkUnknown`. -/
  markNetworkUnknown : SWire → σ → σ
  /-- Stands for `SEnabledStatusStandaloneResourceBase.PerformDisable`. -/
  PerformDisable : SVpc → σ → Except Err Unit × SVpc × σ
  /-- Stands for `SStatusStandaloneResourceBase.SetStatus(userCred, status, reason)`. -/
  SetStatus : SVpc → String → String → σ → Except Err Unit × SVpc × σ
  /-- Stands for `db.OpsLog.LogEvent(model, action, notes, userCred)`. -/
  LogEvent : SVpc → String → σ → σ
  /-- Stands for `db.OpsLog.LogSyncUpdate(model, diff, userCred)`. -/
  LogSyncUpdate : SVpc → List String → σ → σ
  /-- Stands for `self.GetRouteTables()`. -/
  GetRouteTables : SVpc → σ → List SRouteTable
  /-- Stands for `SRouteTable.RealDelete`. -/
  routeTableRealDelete : SRouteTable → σ → Except Err Unit × σ
  /-- Stands for `db.FetchModelObjects(NatGatewayManager, self.getNatgatewayQuery(), &nats)`. -/
  GetNatgateways : SVpc → σ → Except Err (List SNatGateway)
  /-- Stands for `SNatGateway.RealDelete`. -/
  natGatewayRealDelete : SNatGateway → σ → Except Err Unit × σ
  /-- Stands for `SEnabledStatusStandaloneResourceBase.Delete`. -/
  baseDelete : SVpc → σ → Except Err Unit × σ
  /-- Stands for `db.UpdateWithLock(ctx, self, mutator)`: receiver before and after the
  mutator; yields the names of the changed columns. -/
  UpdateWithLock : SVpc → SVpc → σ → Except Err (List String) × σ
  /-- Stands for `db.Update(self, mutator)`: receiver before and after the mutator. -/
  Update : SVpc → SVpc → σ → Except Err Unit × σ
  /-- Stands for `db.GenerateName(VpcManager, userCred, hint)`. -/
  GenerateName : String → σ → Except Err String
  /-- Stands for `VpcManager.TableSpec().Insert(&vpc)`: yields the row as inserted. -/
  Insert : SVpc → σ → Except Err SVpc × σ
  /-- Stands for `syncMetadata(ctx, userCred, model, remote)`. -/
  syncMetadata : SVpc → ICloudVpc → σ → σ
  /-- Stands for `CloudregionManager.FetchById(self.CloudregionId)`. -/
  GetRegion : SVpc → σ → Except Err SCloudregion
  /-- The query of `SyncGlobalVpc` for VPCs of the same manager that have a
  global VPC and whose external id ends with the given string. -/
  FetchGlobalVpcSiblings : SVpc → String → σ → Except Err (List SVpc)
  /-- Stands for `db.GenerateName(GlobalVpcManager, userCred, hint)`. -/
  GenerateGlobalVpcName : String → σ → Except Err String
  /-- Stands for `GlobalVpcManager.TableSpec().Insert(gv)`: yields the row as inserted. -/
  InsertGlobalVpc : SGlobalVpc → σ → Except Err SGlobalVpc × σ
  /-- Stands for `api.VPC_STATUS_UNAVAILABLE`. -/
  VPC_STATUS_UNAVAILABLE : String
  /-- Stands for `db.FetchByExternalId(manager, externalId)`. -/
  FetchByExternalId : String → σ → Except Err SVpc

section VpcFunctions

variable {σ : Type}

/-- Embedding of `SVpc.ValidateDeleteCondition`. -/
def SVpc.ValidateDeleteCondition (ops : VpcOps σ) (self : SVpc) (s : σ) : Except Err Unit :=
  match ops.GetNetworkCount self s with
  | .error err => .error (.http .InternalServerError ("GetNetworkCount fail " ++ err.Error))
  | .ok cnt =>
    if cnt > 0 then
      .error (.http .NotEmptyError "VPC not empty, please delete network first")
    else
      match ops.GetNatgatewayCount self s with
      | .error err => .error (.http .InternalServerError ("GetNatgatewayCount fail " ++ err.Error))
      | .ok cnt =>
        if cnt > 0 then
          .error (.http .NotEmptyError "VPC not empty, please delete nat gateway first")
        else if self.Id = ops.DEFAULT_VPC_ID then
          .error (.http .ProtectedResourceError "not allow to delete default vpc")
        else
          ops.baseValidateDeleteCondition self s

/-- Embedding of `SVpcManager.getVpcExternalIdForClassicNetwork`. -/
def getVpcExternalIdForClassicNetwork (regionId cloudproviderId : String) : String :=
  regionId ++ "-" ++ cloudproviderId

/-- Embedding of `SVpcManager.getVpcsByRegion`. -/
def getVpcsByRegion (ops : VpcOps σ) (region : SCloudregion) (provider : Option SCloudprovider)
    (s : σ) : Except Err (List SVpc) :=
  match ops.FetchVpcs s with
  | .error err => .error err
  | .ok rows =>
    .ok (rows.filter (fun v =>
      decide (v.CloudregionId = region.Id) &&
        (match provider with
         | some p => decide (v.ManagerId = p.Id)
         | none => true)))

/-- Embedding of `SVpc.markAllNetworksUnknown`. -/
def SVpc.markAllNetworksUnknown (ops : VpcOps σ) (self : SVpc) (s : σ) : σ :=
  match ops.GetWires self s with
  | none => s
  | some wires => wires.foldl (fun st w => ops.markNetworkUnknown w st) s

/-- Loop of `RealDelete` over the route tables: stops at the first failure. -/
def deleteRouteTables (ops : VpcOps σ) : List SRouteTable → σ → Except Err Unit × σ
  | [], s => (.ok (), s)
  | r :: rest, s =>
    match ops.routeTableRealDelete r s with
    | (.error err, s1) => (.error (.wrap ("delete route table " ++ r.Id ++ " failed") err), s1)
    | (.ok _, s1) => deleteRouteTables ops rest s1

/-- Loop of `RealDelete` over the NAT gateways: stops at the first failure. -/
def deleteNatgateways (ops : VpcOps σ) : List SNatGateway → σ → Except Err Unit × σ
  | [], s => (.ok (), s)
  | n :: rest, s =>
    match ops.natGatewayRealDelete n s with
    | (.error err, s1) => (.error (.wrap ("delete natgateway " ++ n.Id ++ " failed") err), s1)
    | (.ok _, s1) => deleteNatgateways ops rest s1

/-- Embedding of `SVpc.RealDelete`. -/
def SVpc.RealDelete (ops : VpcOps σ) (self : SVpc) (s : σ) : Except Err Unit × σ :=
  match ops.SetStatus self ops.VPC_STATUS_DELETED "real delete"
      (ops.LogEvent self "delocate" s) with
  | (_, self1, s2) =>
    match deleteRouteTables ops (ops.GetRouteTables self1 s2) s2 with
    | (.error err, s3) => (.error err, s3)
    | (.ok _, s3) =>
      match ops.GetNatgateways self1 s3 with
      | .error err => (.error (.wrap "fetch natgateways failed" err), s3)
      | .ok natgateways =>
        match deleteNatgateways ops natgateways s3 with
        | (.error err, s4) => (.error err, s4)
        | (.ok _, s4) => ops.baseDelete self1 s4

/-- The methods `syncRemoveCloudVpc` invokes on the VPC, in the order of the
calls. -/
inductive RemoveCall where
  | ValidateDeleteCondition
  | markAllNetworksUnknown
  | PerformDisable
  | SetStatus (status reason : String)
  | RealDelete
deriving DecidableEq, Repr

/-- Embedding of `SVpc.syncRemoveCloudVpc`: the returned error, the store and
the calls made on the VPC. -/
def SVpc.syncRemoveCloudVpc (ops : VpcOps σ) (self : SVpc) (s : σ) :
    Except Err Unit × σ × List RemoveCall :=
  if getVpcExternalIdForClassicNetwork self.CloudregionId self.ManagerId = self.ExternalId then
    (.ok (), s, [])
  else
    match self.ValidateDeleteCondition ops s with
    | .error _ =>
      let s1 := self.markAllNetworksUnknown ops s
      match ops.PerformDisable self s1 with
      | (.ok _, self1, s2) =>
        match ops.SetStatus self1 ops.VPC_STATUS_UNKNOWN "sync to delete" s2 with
        | (err, _, s3) =>
          (err, s3, [.ValidateDeleteCondition, .markAllNetworksUnknown, .PerformDisable,
            .SetStatus ops.VPC_STATUS_UNKNOWN "sync to delete"])
      | (.error err, _, s2) =>
        (.error err, s2, [.ValidateDeleteCondition, .markAllNetworksUnknown, .PerformDisable])
    | .ok _ =>
      match self.RealDelete ops s with
      | (err, s1) => (err, s1, [.ValidateDeleteCondition, .RealDelete])

/-- The global VPC name derived from a VPC name: the part before the first
`(` when that part is not empty. -/
def globalVpcNameOf (name : String) : String :=
  let pre := name.toList.takeWhile (fun ch => ch != '(')
  if pre.length < name.toList.length ∧ 0 < pre.length then String.mk pre else name

/-- Embedding of `SVpc.SyncGlobalVpc`. -/
def SVpc.SyncGlobalVpc (ops : VpcOps σ) (self : SVpc) (s : σ) : Except Err Unit × σ :=
  if self.GlobalvpcId.length > 0 then (.ok (), s)
  else
    match ops.GetRegion self s with
    | .error err => (.error (.wrap "GetRegion" err), s)
    | .ok region =>
      if region.vpcBelongGlobalVpc then
        let externalId := self.ExternalId.replace (region.ExternalId ++ "/") ""
        match ops.FetchGlobalVpcSiblings self externalId s with
        | .error err => (.error (.wrap "db.FetchModelObjects" err), s)
        | .ok (v :: _) => ops.Update self { self with GlobalvpcId := v.GlobalvpcId } s
        | .ok [] =>
          match ops.GenerateGlobalVpcName (globalVpcNameOf self.Name) s with
          | .error err => (.error (.wrap "db.GenerateName" err), s)
          | .ok gvName =>
            match ops.InsertGlobalVpc
                { Id := "", Name := gvName, Enabled := true,
                  Status := ops.GLOBAL_VPC_STATUS_AVAILABLE } s with
            | (.error err, s1) => (.error (.wrap "GlobalVpcManager.Insert" err), s1)
            | (.ok gv, s1) => ops.Update self { self with GlobalvpcId := gv.Id } s1
      else (.ok (), s)

/-- Embedding of `SVpc.SyncWithCloudVpc`: the returned error, the receiver as
left by the call, and the store. -/
def SVpc.SyncWithCloudVpc (ops : VpcOps σ) (self : SVpc) (extVPC : ICloudVpc) (s : σ) :
    Except Err Unit × SVpc × σ :=
  let self1 : SVpc :=
    { self with
      Status := extVPC.Status, CidrBlock := extVPC.CidrBlock, IsDefault := extVPC.IsDefault,
      ExternalId := extVPC.GlobalId, IsEmulated := extVPC.IsEmulated }
  match ops.UpdateWithLock self self1 s with
  | (.error err, s1) => (.error err, self1, s1)
  | (.ok diff, s1) => (.ok (), self1, ops.LogSyncUpdate self1 diff s1)

/-- Embedding of `SVpcManager.newFromCloudVpc`. -/
def newFromCloudVpc (ops : VpcOps σ) (extVPC : ICloudVpc) (provider : SCloudprovider)
    (region : SCloudregion) (s : σ) : Except Err SVpc × σ :=
  match ops.GenerateName extVPC.Name s with
  | .error err => (.error err, s)
  | .ok newName =>
    let vpc : SVpc :=
      { Id := "", Name := newName, ExternalId := extVPC.GlobalId, ManagerId := provider.Id,
        Status := extVPC.Status, Enabled := false, IsEmulated := extVPC.IsEmulated,
        IsDefault := extVPC.IsDefault, CidrBlock := extVPC.CidrBlock,
        CloudregionId := region.Id, GlobalvpcId := "" }
    match ops.Insert vpc s with
    | (.error err, s1) => (.error err, s1)
    | (.ok vpc1, s1) => (.ok vpc1, ops.LogEvent vpc1 "create" s1)

/-- The per-entity callbacks `SyncVPCs` invokes. -/
inductive SyncCall where
  | syncRemoveCloudVpc (vpc : SVpc)
  | SyncWithCloudVpc (vpc : SVpc) (ext : ICloudVpc)
  | newFromCloudVpc (ext : ICloudVpc)
deriving DecidableEq, Repr

/-- The variables of `SyncVPCs` that its three loops update, with the store
and the callbacks invoked so far. -/
structure SyncState (σ : Type) where
  localVPCs : List SVpc
  remoteVPCs : List ICloudVpc
  syncResult : SyncResult
  store : σ
  calls : List SyncCall

/-- Body of the loop of `SyncVPCs` over the removed VPCs. -/
def removeStep (ops : VpcOps σ) (st : SyncState σ) (vpc : SVpc) : SyncState σ :=
  match vpc.syncRemoveCloudVpc ops st.store with
  | (.error err, s1, _) =>
    { st with store := s1, calls := st.calls ++ [.syncRemoveCloudVpc vpc],
              syncResult := st.syncResult.DeleteError err }
  | (.ok _, s1, _) =>
    { st with store := s1, calls := st.calls ++ [.syncRemoveCloudVpc vpc],
              syncResult := st.syncResult.Delete }

/-- Body of the loop of `SyncVPCs` over the common pairs. -/
def updateStep (ops : VpcOps σ) (st : SyncState σ) (pair : SVpc × ICloudVpc) : SyncState σ :=
  match pair.1.SyncWithCloudVpc ops pair.2 st.store with
  | (.error err, _, s1) =>
    { st with store := s1, calls := st.calls ++ [.SyncWithCloudVpc pair.1 pair.2],
              syncResult := st.syncResult.UpdateError err }
  | (.ok _, vpc1, s1) =>
    match vpc1.SyncGlobalVpc ops (ops.syncMetadata vpc1 pair.2 s1) with
    | (_, s3) =>
      { localVPCs := st.localVPCs ++ [vpc1],
        remoteVPCs := st.remoteVPCs ++ [pair.2],
        syncResult := st.syncResult.Update,
        store := s3,
        calls := st.calls ++ [.SyncWithCloudVpc pair.1 pair.2] }

/-- Body of the loop of `SyncVPCs` over the added VPCs. -/
def addStep (ops : VpcOps σ) (provider : SCloudprovider) (region : SCloudregion)
    (st : SyncState σ) (ext : ICloudVpc) : SyncState σ :=
  match newFromCloudVpc ops ext provider region st.store with
  | (.error err, s1) =>
    { st with store := s1, calls := st.calls ++ [.newFromCloudVpc ext],
              syncResult := st.syncResult.AddError err }
  | (.ok newVpc, s1) =>
    match newVpc.SyncGlobalVpc ops (ops.syncMetadata newVpc ext s1) with
    | (_, s3) =>
      { localVPCs := st.localVPCs ++ [newVpc],
        remoteVPCs := st.remoteVPCs ++ [ext],
        syncResult := st.syncResult.Add,
        store := s3,
        calls := st.calls ++ [.newFromCloudVpc ext] }

/-- The three loops of `SyncVPCs` over a computed partition. -/
def applyPartition (ops : VpcOps σ) (provider : SCloudprovider) (region : SCloudregion)
    (p : Partition) (s : σ) : SyncState σ :=
  let st0 : SyncState σ :=
    { localVPCs := [], remoteVPCs := [], syncResult := SyncResult.zero, store := s, calls := [] }
  let st1 := p.removed.foldl (removeStep ops) st0
  let st2 := p.common.foldl (updateStep ops) st1
  p.added.foldl (addStep ops provider region) st2

/-- Embedding of `SVpcManager.SyncVPCs` (for a non-nil provider): the two
returned slices (nil is the empty list), the returned `SyncResult`, the store
and the callbacks invoked. -/
def SyncVPCs (ops : VpcOps σ) (provider : SCloudprovider) (region : SCloudregion)
    (vpcs : List ICloudVpc) (s : σ) : SyncState σ :=
  match getVpcsByRegion ops region (some provider) s with
  | .error err =>
    { localVPCs := [], remoteVPCs := [], syncResult := SyncResult.zero.Error err,
      store := s, calls := [] }
  | .ok dbVPCs =>
    if dbVPCs.any (fun v => ops.IsInTask v s) then
      { localVPCs := [], remoteVPCs := [],
        syncResult := SyncResult.zero.Error (.plain "object in task"),
        store := s, calls := [] }
    else
      match ops.CompareSets dbVPCs vpcs with
      | .error err =>
        { localVPCs := [], remoteVPCs := [], syncResult := SyncResult.zero.Error err,
          store := s, calls := [] }
      | .ok p => applyPartition ops provider region p s

/-- The state in which the three loops of `SyncVPCs` start: empty lists, the
zero `SyncResult`, no callback invoked yet. -/
def startState (s : σ) : SyncState σ :=
  { localVPCs := [], remoteVPCs := [], syncResult := SyncResult.zero, store := s, calls := [] }

/-- The pairs that the loop of `SyncVPCs` over the common pairs appends to
`localVPCs` and `remoteVPCs` when it starts in state `st`: for each common pair
whose `SyncWithCloudVpc` returns nil, in order, the local VPC as the call leaves
it and the external VPC; a pair whose call returns an error adds nothing. -/
def syncedPairs (ops : VpcOps σ) :
    List (SVpc × ICloudVpc) → SyncState σ → List (SVpc × ICloudVpc)
  | [], _ => []
  | pair :: rest, st =>
    match pair.1.SyncWithCloudVpc ops pair.2 st.store with
    | (.error _, _, _) => syncedPairs ops rest (updateStep ops st pair)
    | (.ok _, vpc1, _) => (vpc1, pair.2) :: syncedPairs ops rest (updateStep ops st pair)

/-- The pairs that the loop of `SyncVPCs` over the added VPCs appends to
`localVPCs` and `remoteVPCs` when it starts in state `st`: for each added VPC
whose `newFromCloudVpc` returns nil as error, in order, the new local VPC and
the external VPC; an added VPC whose call returns an error adds nothing. -/
def createdPairs (ops : VpcOps σ) (provider : SCloudprovider) (region : SCloudregion) :
    List ICloudVpc → SyncState σ → List (SVpc × ICloudVpc)
  | [], _ => []
  | ext :: rest, st =>
    match newFromCloudVpc ops ext provider region st.store with
    | (.error _, _) => createdPairs ops provider region rest (addStep ops provider region st ext)
    | (.ok newVpc, _) =>
      (newVpc, ext) :: createdPairs ops provider region rest (addStep ops provider region st ext)

/-- Whether a callback returned nil as its error. -/
def succeeded {α : Type} : Except Err α → Bool
  | .ok _ => true
  | .error _ => false

/-- The errors that the callbacks returned, in order. -/
def failures {α : Type} : List (Except Err α) → List Err
  | [] => []
  | .ok _ :: rest => failures rest
  | .error err :: rest => err :: failures rest

/-- Failure isolation as the spec states it (section 4.2), for the removed VPCs:
`syncRemoveCloudVpc` runs once for each removed VPC, in order, on the store that
the call before it left, whatever that call returned.  Yields what each call
returned and the store after the last call. -/
def runRemoved (ops : VpcOps σ) : List SVpc → σ → List (Except Err Unit) × σ
  | [], s => ([], s)
  | vpc :: rest, s =>
    match vpc.syncRemoveCloudVpc ops s with
    | (r, s1, _) =>
      match runRemoved ops rest s1 with
      | (rs, s2) => (r :: rs, s2)

/-- Failure isolation as the spec states it (section 4.2), for the common pairs:
`SyncWithCloudVpc` runs once for each pair, in order, whatever the call before
it returned; after a call that returned nil the metadata and the global VPC of
the pair are synchronised before the next pair.  Yields what each call returned
and the store after the last pair. -/
def runCommon (ops : VpcOps σ) : List (SVpc × ICloudVpc) → σ → List (Except Err Unit) × σ
  | [], s => ([], s)
  | pair :: rest, s =>
    match pair.1.SyncWithCloudVpc ops pair.2 s with
    | (.error err, _, s1) =>
      match runCommon ops rest s1 with
      | (rs, s2) => (.error err :: rs, s2)
    | (.ok u, vpc1, s1) =>
      match runCommon ops rest (vpc1.SyncGlobalVpc ops (ops.syncMetadata vpc1 pair.2 s1)).2 with
      | (rs, s2) => (.ok u :: rs, s2)

/-- Failure isolation as the spec states it (section 4.2), for the added VPCs:
`newFromCloudVpc` runs once for each added VPC, in order, whatever the call
before it returned; after a call that returned a VPC its metadata and its global
VPC are synchronised before the next one.  Yields what each call returned and
the store after the last one. -/
def runAdded (ops : VpcOps σ) (provider : SCloudprovider) (region : SCloudregion) :
    List ICloudVpc → σ → List (Except Err SVpc) × σ
  | [], s => ([], s)
  | ext :: rest, s =>
    match newFromCloudVpc ops ext provider region s with
    | (.error err, s1) =>
      match runAdded ops provider region rest s1 with
      | (rs, s2) => (.error err :: rs, s2)
    | (.ok newVpc, s1) =>
      match runAdded ops provider region rest
          (newVpc.SyncGlobalVpc ops (ops.syncMetadata newVpc ext s1)).2 with
      | (rs, s2) => (.ok newVpc :: rs, s2)

/-- The partition that `SyncVPCs` computes before its three loops, when it
reaches them. -/
def partitionOf (ops : VpcOps σ) (provider : SCloudprovider) (region : SCloudregion)
    (vpcs : List ICloudVpc) (s : σ) : Option Partition :=
  match getVpcsByRegion ops region (some provider) s with
  | .error _ => none
  | .ok dbVPCs =>
    if dbVPCs.any (fun v => ops.IsInTask v s) then none
    else
      match ops.CompareSets dbVPCs vpcs with
      | .error _ => none
      | .ok p => some p

/-- The VPC that `NewVpcForClassicNetwork` builds for a host and passes to
`Insert`; the columns it does not assign hold their zero value. -/
def classicNetworkVpc (ops : VpcOps σ) (host : SHost) : SVpc :=
  { Id := ""
    Name := "emulated vpc for " ++ host.region.Name ++ " " ++ host.cloudprovider.Name ++
      " classic network"
    ExternalId := getVpcExternalIdForClassicNetwork host.region.Id host.cloudprovider.Id
    ManagerId := host.ManagerId
    Status := ops.VPC_STATUS_UNAVAILABLE
    Enabled := false
    IsEmulated := true
    IsDefault := false
    CidrBlock := ""
    CloudregionId := host.region.Id
    GlobalvpcId := "" }

/-- What a call of `NewVpcForClassicNetwork` yields: its return values, the
store it leaves and the rows it passed to `manager.TableSpec().Insert`, in
order. -/
structure ClassicVpcResult (σ : Type) where
  result : Except Err SVpc
  store : σ
  inserts : List SVpc

/-- Embedding of `SVpcManager.NewVpcForClassicNetwork`. -/
def NewVpcForClassicNetwork (ops : VpcOps σ) (host : SHost) (s : σ) : ClassicVpcResult σ :=
  match ops.FetchByExternalId
      (getVpcExternalIdForClassicNetwork host.region.Id host.cloudprovider.Id) s with
  | .ok _vpc => { result := .ok _vpc, store := s, inserts := [] }
  | .error err =>
    if err.Cause ≠ ErrNoRows then
      { result := .error (.wrap "db.FetchByExternalId" err), store := s, inserts := [] }
    else
      match ops.Insert (classicNetworkVpc ops host) s with
      | (.error err1, s1) =>
        { result := .error (.wrap "Insert vpc for classic network" err1), store := s1,
          inserts := [classicNetworkVpc ops host] }
      | (.ok vpc, s1) => { result := .ok vpc, store := s1, inserts := [classicNetworkVpc ops host] }

end VpcFunctions

/-! ## IdentityMatcher (compare.CompareSets) -/

/-- Modelled from the spec: the matching rule of the IdentityMatcher (section
4.1), whose code `compare.CompareSets` lies outside the embedded sources.  A
local VPC that has an external identifier matches by exact equality of the
external identifier; a local VPC to which no external identifier is assigned
matches by equality of the natural key, its name. -/
def identityMatch (l : SVpc) (e : ICloudVpc) : Bool :=
  if l.ExternalId = "" then decide (l.Name = e.Name) else decide (l.ExternalId = e.GlobalId)

/-- Modelled from the spec: the first external VPC, in listing order, that
matches the local VPC, with the listing left without it (section 4.1: ties are
resolved by taking the first in listing order). -/
def pickExternal (l : SVpc) : List ICloudVpc → Option (ICloudVpc × List ICloudVpc)
  | [] => none
  | e :: rest =>
    if identityMatch l e then some (e, rest)
    else
      match pickExternal l rest with
      | some (m, rest1) => some (m, e :: rest1)
      | none => none

/-- Modelled from the spec: `compare.CompareSets` as the IdentityMatcher of
section 4.1, `match(localSet, externalSet) -> pairs, localOnly, externalOnly`.
The local VPCs are taken in listing order; each is paired with the first
external VPC that matches it and is not yet paired (an external entity matches
at most one local entity), or is local-only; the external VPCs left over are
external-only. -/
def CompareSets : List SVpc → List ICloudVpc → Partition
  | [], exts => { removed := [], common := [], added := exts }
  | l :: ls, exts =>
    match pickExternal l exts with
    | some (e, rest) =>
      let p := CompareSets ls rest
      { p with common := (l, e) :: p.common }
    | none =>
      let p := CompareSets ls exts
      { p with removed := l :: p.removed }

/-- Local VPC `X` of Scenario A, holding external identifier `e1`. -/
def scenarioX : SVpc :=
  { Id := "x", Name := "X", ExternalId := "e1", ManagerId := "m", Status := "available",
    Enabled := true, IsEmulated := false, IsDefault := false, CidrBlock := "10.0.0.0/16",
    CloudregionId := "r", GlobalvpcId := "" }

/-- Local VPC `Y` of Scenario A, holding external identifier `e2`. -/
def scenarioY : SVpc :=
  { Id := "y", Name := "Y", ExternalId := "e2", ManagerId := "m", Status := "available",
    Enabled := true, IsEmulated := false, IsDefault := false, CidrBlock := "10.1.0.0/16",
    CloudregionId := "r", GlobalvpcId := "" }

/-- An external observation with the given global identifier and name. -/
def observed (globalId name : String) : ICloudVpc :=
  { GlobalId := globalId, Name := name, Status := "available", CidrBlock := "10.0.0.0/16",
    IsDefault := false, IsEmulated := false }

/-! ## An in-memory ResourceStore -/

/-- The columns of `SNetwork` that are read or written. -/
structure SNetwork where
  Id : String
  WireId : String
  Status : String
deriving DecidableEq, Repr

/-- Modelled from the spec: the state of the ResourceStore (section 6), whose
code (package `db`) lies outside the embedded sources: the rows of each table
in insertion order, the objects that are in a task and the append-only change
log. -/
structure Store where
  vpcs : List SVpc
  wires : List SWire
  networks : List SNetwork
  natgateways : List SNatGateway
  routetables : List SRouteTable
  globalvpcs : List SGlobalVpc
  cloudregions : List SCloudregion
  tasks : List String
  opslogs : List String
deriving DecidableEq, Repr

/-- Modelled from the spec: the effect of `updateWithDiff` (section 6) on one
row: each column on which the receiver differs before and after the mutator is
set to the receiver's new value. -/
def applyDiff (orig modified row : SVpc) : SVpc :=
  { Id := row.Id
    Name := if orig.Name = modified.Name then row.Name else modified.Name
    ExternalId := if orig.ExternalId = modified.ExternalId then row.ExternalId
      else modified.ExternalId
    ManagerId := if orig.ManagerId = modified.ManagerId then row.ManagerId
      else modified.ManagerId
    Status := if orig.Status = modified.Status then row.Status else modified.Status
    Enabled := if orig.Enabled = modified.Enabled then row.Enabled else modified.Enabled
    IsEmulated := if orig.IsEmulated = modified.IsEmulated then row.IsEmulated
      else modified.IsEmulated
    IsDefault := if orig.IsDefault = modified.IsDefault then row.IsDefault
      else modified.IsDefault
    CidrBlock := if orig.CidrBlock = modified.CidrBlock then row.CidrBlock
      else modified.CidrBlock
    CloudregionId := if orig.CloudregionId = modified.CloudregionId then row.CloudregionId
      else modified.CloudregionId
    GlobalvpcId := if orig.GlobalvpcId = modified.GlobalvpcId then row.GlobalvpcId
      else modified.GlobalvpcId }

/-- Modelled from the spec: the names of the columns on which two values of a
VPC differ, the change set of `updateWithDiff` (section 6). -/
def diffColumns (orig modified : SVpc) : List String :=
  (if orig.Name = modified.Name then [] else ["name"]) ++
  (if orig.ExternalId = modified.ExternalId then [] else ["external_id"]) ++
  (if orig.ManagerId = modified.ManagerId then [] else ["manager_id"]) ++
  (if orig.Status = modified.Status then [] else ["status"]) ++
  (if orig.Enabled = modified.Enabled then [] else ["enabled"]) ++
  (if orig.IsEmulated = modified.IsEmulated then [] else ["is_emulated"]) ++
  (if orig.IsDefault = modified.IsDefault then [] else ["is_default"]) ++
  (if orig.CidrBlock = modified.CidrBlock then [] else ["cidr_block"]) ++
  (if orig.CloudregionId = modified.CloudregionId then [] else ["cloudregion_id"]) ++
  (if orig.GlobalvpcId = modified.GlobalvpcId then [] else ["globalvpc_id"])

/-- The rows of a table with `f` applied to each row that holds identifier
`i`. -/
def mapAt (i : String) (f : SVpc → SVpc) (rows : List SVpc) : List SVpc :=
  rows.map (fun row => if row.Id = i then f row else row)

/-- Modelled from the spec: `updateWithDiff` (section 6) on the VPC table: the
row holding the receiver's identifier takes the changed columns. -/
def Store.updateVpc (s : Store) (orig modified : SVpc) : Store :=
  { s with vpcs := mapAt orig.Id (applyDiff orig modified) s.vpcs }

/-- Modelled from the spec: an append to the change log (section 6). -/
def Store.log (s : Store) (entry : String) : Store :=
  { s with opslogs := s.opslogs ++ [entry] }

/-- Modelled from the spec: a display name that collides with none of the
names in use (section 4.2, step 5): the hint itself, or the hint with the
first free numeric suffix. -/
def generateName (taken : List String) (hint : String) : String :=
  if hint ∈ taken then
    match ((List.range (taken.length + 1)).map
        (fun i => hint ++ "-" ++ toString (i + 1))).find? (fun n => decide (n ∉ taken)) with
    | some n => n
    | none => hint
  else hint

/-- Modelled from the spec: the identifier the store assigns to an inserted row
that brings none, different from every identifier in use (section 3: a local
identifier is assigned at local creation): longer than each of them. -/
def freshId (used : List String) : String :=
  String.mk (List.replicate ((used.map String.length).foldr max 0 + 1) 'i')

/-- Embedding of the filter of `SVpc.getWireQuery` on the wire table (a null
`vpc_id` is the empty string). -/
def wiresOf (defaultVpcId : String) (self : SVpc) (s : Store) : List SWire :=
  if self.Id = defaultVpcId then
    s.wires.filter (fun w => decide (w.VpcId = "") || decide (w.VpcId = self.Id))
  else
    s.wires.filter (fun w => decide (w.VpcId = self.Id))

/-- Embedding of the filter of `SVpc.getNetworkQuery` on the network table. -/
def networksOf (defaultVpcId : String) (self : SVpc) (s : Store) : List SNetwork :=
  s.networks.filter (fun n => decide (n.WireId ∈ (wiresOf defaultVpcId self s).map (·.Id)))

/-- Modelled from the spec: the operations of `vpcs.go` on the in-memory
ResourceStore of section 6 (`get`, `listByScope`, `insert`, `updateWithDiff`,
`delete`, counting of dependents), whose code lies outside the embedded
sources.  No operation of this store fails, except the lookup of a region that
is not in the store. -/
def memOps : VpcOps Store :=
  { DEFAULT_VPC_ID := "default"
    VPC_STATUS_UNKNOWN := "unknown"
    VPC_STATUS_DELETED := "deleted"
    GLOBAL_VPC_STATUS_AVAILABLE := "available"
    FetchVpcs := fun s => .ok s.vpcs
    IsInTask := fun v s => decide (v.Id ∈ s.tasks)
    CompareSets := fun locals exts => .ok (CompareSets locals exts)
    GetNetworkCount := fun v s => .ok (networksOf "default" v s).length
    GetNatgatewayCount := fun v s =>
      .ok (s.natgateways.filter (fun n => decide (n.VpcId = v.Id))).length
    baseValidateDeleteCondition := fun _ _ => .ok ()
    GetWires := fun v s => some (wiresOf "default" v s)
    markNetworkUnknown := fun w s =>
      { s with
        networks := List.map
          (fun n => if n.WireId = w.Id then { n with Status := "unknown" } else n) s.networks }
    PerformDisable := fun v s =>
      if v.Enabled then
        (.ok (), { v with Enabled := false }, s.updateVpc v { v with Enabled := false })
      else (.ok (), v, s)
    SetStatus := fun v status reason s =>
      if v.Status = status then (.ok (), v, s)
      else
        (.ok (), { v with Status := status },
          (s.updateVpc v { v with Status := status }).log
            ("update_status " ++ v.Id ++ " " ++ v.Status ++ "=>" ++ status ++ " " ++ reason))
    LogEvent := fun v action s => s.log (action ++ " " ++ v.Id)
    LogSyncUpdate := fun v diff s =>
      if diff = [] then s else s.log ("sync_update " ++ v.Id ++ " " ++ String.intercalate "," diff)
    GetRouteTables := fun v s => s.routetables.filter (fun r => decide (r.VpcId = v.Id))
    routeTableRealDelete := fun r s =>
      (.ok (), { s with routetables := s.routetables.filter (fun x => decide (x.Id ≠ r.Id)) })
    GetNatgateways := fun v s => .ok (s.natgateways.filter (fun n => decide (n.VpcId = v.Id)))
    natGatewayRealDelete := fun n s =>
      (.ok (), { s with natgateways := s.natgateways.filter (fun x => decide (x.Id ≠ n.Id)) })
    baseDelete := fun v s =>
      (.ok (), { s with vpcs := s.vpcs.filter (fun row => decide (row.Id ≠ v.Id)) })
    UpdateWithLock := fun orig modified s =>
      (.ok (diffColumns orig modified), s.updateVpc orig modified)
    Update := fun orig modified s => (.ok (), s.updateVpc orig modified)
    GenerateName := fun hint s => .ok (generateName (s.vpcs.map (·.Name)) hint)
    Insert := fun vpc s =>
      if vpc.Id = "" then
        (.ok { vpc with Id := freshId (s.vpcs.map (·.Id)) },
          { s with vpcs := s.vpcs ++ [{ vpc with Id := freshId (s.vpcs.map (·.Id)) }] })
      else (.ok vpc, { s with vpcs := s.vpcs ++ [vpc] })
    syncMetadata := fun _ _ s => s
    GetRegion := fun v s =>
      match s.cloudregions.find? (fun r => decide (r.Id = v.CloudregionId)) with
      | some r => .ok r
      | none => .error (.plain "sql: no rows in result set")
    FetchGlobalVpcSiblings := fun v externalId s =>
      .ok (s.vpcs.filter (fun row =>
        decide (row.ManagerId = v.ManagerId) && decide (row.GlobalvpcId ≠ "") &&
          row.ExternalId.endsWith externalId))
    GenerateGlobalVpcName := fun hint s => .ok (generateName (s.globalvpcs.map (·.Name)) hint)
    InsertGlobalVpc := fun gv s =>
      (.ok { gv with Id := freshId (s.globalvpcs.map (·.Id)) },
        { s with
          globalvpcs := s.globalvpcs ++ [{ gv with Id := freshId (s.globalvpcs.map (·.Id)) }] })
    VPC_STATUS_UNAVAILABLE := "unavailable"
    FetchByExternalId := fun externalId s =>
      match s.vpcs.filter (fun row => decide (row.ExternalId = externalId)) with
      | [] => .error ErrNoRows
      | [row] => .ok row
      | _ :: _ :: _ => .error (.plain "duplicate entry") }

/-- The in-memory operations with an insert into the VPC table that fails. -/
def failingInsertOps : VpcOps Store :=
  { memOps with Insert := fun _ s => (.error (.plain "insert failed"), s) }

/-- The in-memory operations with a lookup by external id that fails for
another reason than a missing row. -/
def failingLookupOps : VpcOps Store :=
  { memOps with FetchByExternalId := fun _ _ => .error (.plain "driver: bad connection") }

/-- The in-memory operations with an update of the VPC table that fails and
leaves the store as it was. -/
def failingUpdateOps : VpcOps Store :=
  { memOps with UpdateWithLock := fun _ _ s => (.error (.plain "update failed"), s) }

/-- A host of the scenario region, managed by the scenario provider. -/
def scenarioHost : SHost :=
  { ManagerId := "m"
    region := { Id := "r", Name := "region", ExternalId := "R", vpcBelongGlobalVpc := false }
    cloudprovider := { Id := "m", Name := "manager" } }

/-- A store holding the given VPCs in one region, with nothing else. -/
def storeOf (vpcs : List SVpc) : Store :=
  { vpcs := vpcs, wires := [], networks := [], natgateways := [], routetables := [],
    globalvpcs := [],
    cloudregions := [{ Id := "r", Name := "region", ExternalId := "R",
                       vpcBelongGlobalVpc := false }],
    tasks := [], opslogs := [] }

/-- The region of the scenarios. -/
def scenarioRegion : SCloudregion :=
  { Id := "r", Name := "region", ExternalId := "R", vpcBelongGlobalVpc := false }

/-- The cloud provider of the scenarios. -/
def scenarioProvider : SCloudprovider := { Id := "m", Name := "manager" }

/-- What a loop of `SyncVPCs` may change in the tallies: `d`, `u`, `a` more
entities counted under deletes, updates and adds. -/
def TallyGrows (r r1 : SyncResult) (d u a : Nat) : Prop :=
  r1.DelCnt + r1.DelErrCnt = r.DelCnt + r.DelErrCnt + d ∧
  r1.UpdateCnt + r1.UpdateErrCnt = r.UpdateCnt + r.UpdateErrCnt + u ∧
  r1.AddCnt + r1.AddErrCnt = r.AddCnt + r.AddErrCnt + a

/-- The store of Scenario B: VPC `Y` with one wire carrying one network, beside
VPC `X`. -/
def dependentStore : Store :=
  { storeOf [scenarioX, scenarioY] with
    wires := [{ Id := "w1", VpcId := "y" }]
    networks := [{ Id := "n1", WireId := "w1", Status := "available" }] }

/-! ## Running `SyncVPCs` twice -/

/-- The VPC emulated for a classic network: its external identifier is built
from its region and manager. -/
def Classic (v : SVpc) : Prop :=
  getVpcExternalIdForClassicNetwork v.CloudregionId v.ManagerId = v.ExternalId

instance (v : SVpc) : Decidable (Classic v) := by
  unfold Classic; infer_instance

/-- Whether `syncRemoveCloudVpc` keeps the VPC in the in-memory store: it is
emulated for a classic network, or `ValidateDeleteCondition` refuses it. -/
def retained (s : Store) (v : SVpc) : Bool :=
  decide (Classic v) ||
    (match v.ValidateDeleteCondition memOps s with
     | .ok _ => false
     | .error _ => true)

/-- The VPC with `Enabled` cleared. -/
def SVpc.disabled (v : SVpc) : SVpc := { v with Enabled := false }

/-- The VPC with the given status. -/
def SVpc.withStatus (v : SVpc) (status : String) : SVpc := { v with Status := status }

/-- The VPC with the given global VPC. -/
def SVpc.withGlobalvpc (v : SVpc) (g : String) : SVpc := { v with GlobalvpcId := g }

/-- The row that `syncRemoveCloudVpc` leaves of a VPC it keeps: untouched for
the classic-network VPC, else disabled with the unknown status. -/
def settle (v : SVpc) : SVpc :=
  if Classic v then v else v.disabled.withStatus "unknown"

/-- The receiver of `SyncWithCloudVpc` after the mutator. -/
def syncFields (v : SVpc) (e : ICloudVpc) : SVpc :=
  { v with
    Status := e.Status, CidrBlock := e.CidrBlock, IsDefault := e.IsDefault,
    ExternalId := e.GlobalId, IsEmulated := e.IsEmulated }

/-- The mirrored columns of the local VPC agree with the external VPC. -/
def Synced (v : SVpc) (e : ICloudVpc) : Prop :=
  v.Status = e.Status ∧ v.CidrBlock = e.CidrBlock ∧ v.IsDefault = e.IsDefault ∧
    v.ExternalId = e.GlobalId ∧ v.IsEmulated = e.IsEmulated

/-- The VPC needs no global VPC any more: it has one, or its region is not in
the store, or its region does not group VPCs into global VPCs. -/
def GlobStable (s : Store) (v : SVpc) : Prop :=
  0 < v.GlobalvpcId.length ∨
    ∀ r, memOps.GetRegion v s = .ok r → r.vpcBelongGlobalVpc = false

/-- The VPC is kept as `syncRemoveCloudVpc` leaves it: nothing is left to do on
it. -/
def Settled (s : Store) (v : SVpc) : Prop :=
  Classic v ∨
    ((∃ e, v.ValidateDeleteCondition memOps s = .error e) ∧ v.Enabled = false ∧
      v.Status = "unknown")

/-- Two stores agree on all that the delete preconditions, the region lookup
and the task test read. -/
def DepsEq (s s1 : Store) : Prop :=
  s.wires = s1.wires ∧ s.networks.map (·.WireId) = s1.networks.map (·.WireId) ∧
    s.natgateways = s1.natgateways ∧ s.cloudregions = s1.cloudregions ∧ s.tasks = s1.tasks

/-- The scope filter of `getVpcsByRegion` for a provider. -/
def inScope (provider : SCloudprovider) (region : SCloudregion) (v : SVpc) : Bool :=
  decide (v.CloudregionId = region.Id) && decide (v.ManagerId = provider.Id)

/-- A table `rows1` comes from a table `rows` by replacing or dropping rows in
place, as `R` allows for each row. -/
inductive RowsEvolve (R : SVpc → Option SVpc → Prop) : List SVpc → List SVpc → Prop where
  | nil : RowsEvolve R [] []
  | keep {a b : SVpc} {rows rows1 : List SVpc} :
      R a (some b) → RowsEvolve R rows rows1 → RowsEvolve R (a :: rows) (b :: rows1)
  | drop {a : SVpc} {rows rows1 : List SVpc} :
      R a none → RowsEvolve R rows rows1 → RowsEvolve R (a :: rows) rows1

/-- The row that `newFromCloudVpc` inserts into the in-memory store `s` for an
external VPC. -/
def newRow (ext : ICloudVpc) (provider : SCloudprovider) (region : SCloudregion) (s : Store) :
    SVpc :=
  { Id := freshId (s.vpcs.map (·.Id)), Name := generateName (s.vpcs.map (·.Name)) ext.Name,
    ExternalId := ext.GlobalId, ManagerId := provider.Id, Status := ext.Status,
    Enabled := false, IsEmulated := ext.IsEmulated, IsDefault := ext.IsDefault,
    CidrBlock := ext.CidrBlock, CloudregionId := region.Id, GlobalvpcId := "" }

/-- The rows already handled by a loop are as `Fin` allows; the rows not yet
handled are in place, unchanged. -/
def Pending (Fin : SVpc → Option SVpc → Prop) (done : List SVpc) (row : SVpc)
    (out : Option SVpc) : Prop :=
  (row ∈ done → Fin row out) ∧ (row ∉ done → out = some row)

/-- What the first run of `SyncVPCs` makes of a local VPC of partition `p`, in
the in-memory store `s`: a removed VPC is dropped or settled, a common VPC is
synced with its external VPC and needs no global VPC any more. -/
def FirstRun (p : Partition) (s : Store) (row : SVpc) (out : Option SVpc) : Prop :=
  (row ∈ p.removed ∧ out = (if retained s row then some (settle row) else none)) ∨
  (∃ e c, (row, e) ∈ p.common ∧ out = some c ∧ c.Id = row.Id ∧
    c.CloudregionId = row.CloudregionId ∧ c.ManagerId = row.ManagerId ∧
    Synced c e ∧ GlobStable s c)

/-- A store whose only VPC is the one emulated for the classic network of
region `r` and manager `m`. -/
def classicStore : Store :=
  storeOf [{ Id := "c", Name := "emulated vpc for region manager classic network",
             ExternalId := "r-m", ManagerId := "m", Status := "unavailable", Enabled := false,
             IsEmulated := true, IsDefault := false, CidrBlock := "", CloudregionId := "r",
             GlobalvpcId := "" }]

/-! ## pkg/cloudcommon/db/proxy/proxysetting.go -/

/-- The columns of `SProxySetting`. -/
structure SProxySetting where
  Id : String
  Name : String
  Description : String
  DomainId : String
  HTTPProxy : String
  HTTPSProxy : String
  NoProxy : String
deriving DecidableEq, Repr

/-- The part of `db.IModelManager` used on a registered referrer, over a store
state `σ`: `KeywordPlural()` and the query
`TableSpec().Instance().Query().Equals("proxy_setting_id", id).CountWithError()`,
whose code lies outside the embedded sources. -/
structure IModelManager (σ : Type) where
  KeywordPlural : String
  CountByProxySettingId : String → σ → Except Err Nat

/-- Embedding of `RegisterReferrer` on the package variable `referrersMen`. -/
def RegisterReferrer {σ : Type} (referrersMen : List (IModelManager σ)) (man : IModelManager σ) :
    List (IModelManager σ) :=
  referrersMen ++ [man]

/-- The loop of `SProxySetting.ValidateDeleteCondition` over the referrers:
the returned error and the keywords of the managers whose count was queried. -/
def checkReferrers {σ : Type} (ps : SProxySetting) (s : σ) :
    List (IModelManager σ) → Except Err Unit × List String
  | [] => (.ok (), [])
  | man :: rest =>
    match man.CountByProxySettingId ps.Id s with
    | .error err =>
      (.error (.http .InternalServerError ("get proxysetting refcount fail " ++ err.Error)),
        [man.KeywordPlural])
    | .ok n =>
      if n > 0 then
        (.error (.http .ResourceBusyError
          ("proxysetting " ++ ps.Id ++ " is still referred to by " ++ toString n ++ " " ++
            man.KeywordPlural)),
          [man.KeywordPlural])
      else
        let (err, queried) := checkReferrers ps s rest
        (err, man.KeywordPlural :: queried)

/-- Embedding of `SProxySetting.ValidateDeleteCondition`, for the value
`ProxySettingId_DIRECT` of the constant of package `proxyapi` and the
registered referrers: the returned error and the keywords of the managers whose
count was queried, in order. -/
def SProxySetting.ValidateDeleteCondition {σ : Type} (ProxySettingId_DIRECT : String)
    (referrersMen : List (IModelManager σ)) (ps : SProxySetting) (s : σ) :
    Except Err Unit × List String :=
  if ps.Id = ProxySettingId_DIRECT then
    (.error (.http .ConflictError "DIRECT setting cannot be deleted"), [])
  else checkReferrers ps s referrersMen

/-- Embedding of `SProxySetting.ValidateUpdateData`, for the value
`ProxySettingId_DIRECT` of the constant of package `proxyapi`.  `Input` stands
for `proxyapi.ProxySettingUpdateInput` and `Sanitize` for the call
`data.ProxySetting.Sanitize()` on it, both declared outside the embedded
sources: the error of the call and the input as the call leaves it. -/
def SProxySetting.ValidateUpdateData {Input : Type} (ProxySettingId_DIRECT : String)
    (Sanitize : Input → Except Err Unit × Input) (ps : SProxySetting) (data : Input) :
    Input × Except Err Unit :=
  if ps.Id = ProxySettingId_DIRECT then
    (data, .error (.http .ConflictError "DIRECT setting cannot be changed"))
  else
    match Sanitize data with
    | (.error err, data1) => (data1, .error (.http .InputParameterError err.Error))
    | (.ok _, data1) => (data1, .ok ())

/-- A sample of `Sanitize` on an input that is one proxy URL: a URL without
the scheme `http` is refused, and the input is left as it is. -/
def sampleSanitize (url : String) : Except Err Unit × String :=
  if url.toList.take 4 = "http".toList then (.ok (), url)
  else (.error (.plain ("invalid proxy url " ++ url)), url)

/-- A proxy setting with the given id and nothing else. -/
def sampleSetting (idStr : String) : SProxySetting :=
  { Id := idStr, Name := idStr, Description := "", DomainId := "", HTTPProxy := "",
    HTTPSProxy := "", NoProxy := "" }

/-- The operations of package `db` that `SProxySettingManager.InitializeData`
calls, over a store state `σ`; their code lies outside the embedded sources. -/
structure ProxySettingOps (σ : Type) where
  /-- Stands for `man.FetchById(idStr)`. -/
  FetchById : String → σ → Except Err SProxySetting
  /-- Stands for `db.NewModelObject(man)`. -/
  NewModelObject : σ → Except Err SProxySetting
  /-- Stands for `man.TableSpec().Insert(ps)`. -/
  Insert : SProxySetting → σ → Except Err Unit × σ

/-- What a call of `InitializeData` yields: its returned error, the store it
leaves and the rows it passed to `man.TableSpec().Insert`, in order. -/
structure InitializeResult (σ : Type) where
  err : Except Err Unit
  store : σ
  inserts : List SProxySetting

/-- Embedding of `SProxySettingManager.InitializeData`, for the value
`ProxySettingId_DIRECT` of the constant of package `proxyapi`. -/
def InitializeData {σ : Type} (ProxySettingId_DIRECT : String) (ops : ProxySettingOps σ)
    (s : σ) : InitializeResult σ :=
  match ops.FetchById ProxySettingId_DIRECT s with
  | .ok _ => { err := .ok (), store := s, inserts := [] }
  | .error err =>
    if err ≠ ErrNoRows then { err := .error err, store := s, inserts := [] }
    else
      match ops.NewModelObject s with
      | .error err1 => { err := .error err1, store := s, inserts := [] }
      | .ok m =>
        match ops.Insert
            { m with Id := ProxySettingId_DIRECT, Name := ProxySettingId_DIRECT,
                     Description := "Connect directly" } s with
        | (.error err2, s1) =>
          { err := .error err2, store := s1,
            inserts := [{ m with Id := ProxySettingId_DIRECT, Name := ProxySettingId_DIRECT,
                                 Description := "Connect directly" }] }
        | (.ok _, s1) =>
          { err := .ok (), store := s1,
            inserts := [{ m with Id := ProxySettingId_DIRECT, Name := ProxySettingId_DIRECT,
                                 Description := "Connect directly" }] }

/-- Modelled from the spec: the table of proxy settings as a list of rows in
insertion order (the persistence layer of section 6, whose code lies outside
the embedded sources).  A lookup by id yields the only row with that id and
reports no rows when there is none; a new model object has zero-valued columns;
an insert appends the row and is refused when its id is taken. -/
def memProxyOps : ProxySettingOps (List SProxySetting) :=
  { FetchById := fun idStr rows =>
      match rows.filter (fun row => decide (row.Id = idStr)) with
      | [] => .error ErrNoRows
      | [row] => .ok row
      | _ :: _ :: _ => .error (.plain "duplicate entry")
    NewModelObject := fun _ =>
      .ok { Id := "", Name := "", Description := "", DomainId := "", HTTPProxy := "",
            HTTPSProxy := "", NoProxy := "" }
    Insert := fun ps rows =>
      if ps.Id ∈ rows.map (fun row => row.Id) then (.error (.plain "duplicate entry"), rows)
      else (.ok (), rows ++ [ps]) }

/-- The in-memory operations with a `db.NewModelObject` that fails. -/
def failingNewModelOps : ProxySettingOps (List SProxySetting) :=
  { memProxyOps with NewModelObject := fun _ => .error (.plain "inconsistent data type") }

/-! ## Package fmt: a format without operands -/

/-- The flags of a directive, which the loop `simpleFormat` of `doPrintf`
skips; with no operand left its fast path for a lower-case verb is not taken. -/
def fmtSkipFlags : List Char → List Char
  | [] => []
  | c :: cs =>
    if c = '#' ∨ c = '0' ∨ c = '+' ∨ c = '-' ∨ c = ' ' then fmtSkipFlags cs else c :: cs

/-- Embedding of `parsenum`: whether a number was read and the rest of the
format; a number beyond 1e6 (`tooLarge`) consumes the whole format. -/
def fmtParsenum (num : Nat) (isnum : Bool) : List Char → Bool × List Char
  | [] => (isnum, [])
  | c :: cs =>
    if c.isDigit then
      if num > 1000000 then (false, [])
      else fmtParsenum (num * 10 + (c.toNat - 48)) true cs
    else (isnum, c :: cs)

/-- Embedding of `argNumber` (with `parseArgNumber`) when there is no operand:
`none` when the format does not start with `[`; otherwise the rest of the format
after the index and whether a well-formed index was read.  No index is in range,
so `goodArgNum` is false after it. -/
def fmtArgNumber : List Char → Option (List Char × Bool)
  | [] => none
  | c :: rest =>
    if c = '[' then
      if rest.length < 2 then some (rest, false)
      else if rest.contains ']' then
        match fmtParsenum 0 false (rest.takeWhile (fun x => x != ']')) with
        | (true, []) => some ((rest.dropWhile (fun x => x != ']')).tail, true)
        | _ => some ((rest.dropWhile (fun x => x != ']')).tail, false)
      else some (rest, false)
    else none

/-- The state of `doPrintf` within one directive: the text written for it, the
rest of the format, and the variables `afterIndex` and `p.goodArgNum`. -/
structure FmtState where
  out : List Char
  rest : List Char
  afterIndex : Bool
  goodArgNum : Bool

/-- The step `argNum, i, afterIndex = p.argNumber(...)` of `doPrintf`. -/
def fmtIndex (st : FmtState) : FmtState :=
  match fmtArgNumber st.rest with
  | some (r, found) => { st with rest := r, afterIndex := found, goodArgNum := false }
  | none => { st with afterIndex := false }

/-- The width of a directive: `*` finds no operand and writes `%!(BADWIDTH)`. -/
def fmtWidth (st : FmtState) : FmtState :=
  match st.rest with
  | [] => st
  | c :: r =>
    if c = '*' then
      { st with out := st.out ++ "%!(BADWIDTH)".toList, rest := r, afterIndex := false }
    else
      match fmtParsenum 0 false (c :: r) with
      | (widPresent, r1) =>
        { st with rest := r1, goodArgNum := st.goodArgNum && !(st.afterIndex && widPresent) }

/-- The precision of a directive, read when a `.` is followed by at least one
character (`i+1 < end`); a `.` that ends the format is left to be read as the
verb.  `.*` finds no operand and writes `%!(BADPREC)`. -/
def fmtPrecision (st : FmtState) : FmtState :=
  match st.rest with
  | [] => st
  | c :: r =>
    if c = '.' ∧ r ≠ [] then
      match fmtIndex { st with rest := r, goodArgNum := st.goodArgNum && !st.afterIndex } with
      | st1 =>
        match st1.rest with
        | [] => st1
        | c1 :: r1 =>
          if c1 = '*' then
            { st1 with out := st1.out ++ "%!(BADPREC)".toList, rest := r1, afterIndex := false }
          else { st1 with rest := (fmtParsenum 0 false (c1 :: r1)).2 }
    else st

/-- The verb of a directive: the text written for the directive and the rest of
the format.  `%%` writes a percent sign; another verb finds no operand. -/
def fmtVerb (st : FmtState) : List Char × List Char :=
  match (if st.afterIndex then st else fmtIndex st) with
  | st1 =>
    match st1.rest with
    | [] => (st1.out ++ "%!(NOVERB)".toList, [])
    | verb :: r =>
      if verb = '%' then (st1.out ++ ['%'], r)
      else if st1.goodArgNum then (st1.out ++ "%!".toList ++ [verb] ++ "(MISSING)".toList, r)
      else (st1.out ++ "%!".toList ++ [verb] ++ "(BADINDEX)".toList, r)

/-- One directive of the format, from the character after its `%`. -/
def fmtDirective (cs : List Char) : List Char × List Char :=
  fmtVerb (fmtPrecision (fmtWidth (fmtIndex
    { out := [], rest := fmtSkipFlags cs, afterIndex := false, goodArgNum := true })))

/-- The loop of `doPrintf` over a format with no operand; every round consumes
a character, so a fuel of the length of the format is never used up. -/
def fmtDoPrintf : Nat → List Char → List Char
  | 0, _ => []
  | _ + 1, [] => []
  | fuel + 1, c :: cs =>
    if c = '%' then
      match fmtDirective cs with
      | (out, rest) => out ++ fmtDoPrintf fuel rest
    else c :: fmtDoPrintf fuel cs

/-- Embedding of `fmt.Sprintf(format)` of the Go library called with no operand,
which is the text of the error `fmt.Errorf(format)`. -/
def fmtSprintf (format : String) : String :=
  String.mk (fmtDoPrintf format.length format.toList)

/-! ## pkg/compute/tasks/snapshot_syncstatus_task.go -/

/-- The columns of `models.SSnapshot` that are read or set. -/
structure SSnapshot where
  Id : String
  Name : String
  Status : String
deriving DecidableEq, Repr

/-- The calls that the handlers of `SnapshotSyncstatusTask` make on the
snapshot, the task, the logs and the region driver, with the arguments that
matter. -/
inductive TaskCall where
  | SetStatus (snapshotId status reason : String)
  | SetStageFailed (reason : String)
  | SetStage (stageName : String)
  | SetStageComplete
  | LogEvent (snapshotId : String)
  | AddActionLog (snapshotId : String) (err : Err) (success : Bool)
  | RequestSyncSnapshotStatus (regionId snapshotId : String)
deriving DecidableEq, Repr

/-- Whether a call is `SetStageFailed`, the signal of terminal failure. -/
def TaskCall.isStageFailed : TaskCall → Bool
  | .SetStageFailed _ => true
  | _ => false

/-- Whether a call is `SetStage`. -/
def TaskCall.isSetStage : TaskCall → Bool
  | .SetStage _ => true
  | _ => false

/-- Whether a call is `RequestSyncSnapshotStatus`, the remote request. -/
def TaskCall.isRequest : TaskCall → Bool
  | .RequestSyncSnapshotStatus _ _ => true
  | _ => false

/-- The operations of the task manager, the models, the logs and the region
driver that the handlers of `SnapshotSyncstatusTask` call, over a state `σ` of
the store and the task, with the constant `api.DISK_UNKNOWN`.  Their code lies
outside the embedded sources; they are parameters of the embedding. -/
structure SnapshotTaskOps (σ : Type) where
  DISK_UNKNOWN : String
  /-- Stands for `snapshot.GetRegion()`; `none` is nil. -/
  GetRegion : SSnapshot → σ → Option SCloudregion
  /-- Stands for `snapshot.SetStatus(userCred, status, reason)`. -/
  SetStatus : SSnapshot → String → String → σ → Except Err Unit × SSnapshot × σ
  /-- Stands for `self.SetStageFailed(ctx, reason)`. -/
  SetStageFailed : String → σ → σ
  /-- Stands for `self.SetStage(stageName, nil)`. -/
  SetStage : String → σ → σ
  /-- Stands for `self.SetStageComplete(ctx, nil)`. -/
  SetStageComplete : σ → σ
  /-- Stands for `db.OpsLog.LogEvent(snapshot, db.ACT_SYNC_STATUS, snapshot.GetShortDesc(ctx), userCred)`. -/
  LogEvent : SSnapshot → σ → σ
  /-- Stands for `logclient.AddActionLogWithContext(ctx, snapshot, logclient.ACT_SYNC_STATUS, err, userCred, success)`. -/
  AddActionLogWithContext : SSnapshot → Err → Bool → σ → σ
  /-- Stands for `region.GetDriver().RequestSyncSnapshotStatus(ctx, userCred, snapshot, self)`. -/
  RequestSyncSnapshotStatus : SCloudregion → SSnapshot → σ → Except Err Unit × σ

/-- What a handler leaves: the state and the calls it made, in order. -/
structure TaskRun (σ : Type) where
  store : σ
  calls : List TaskCall

section SnapshotTask

variable {σ : Type}

/-- Embedding of `SnapshotSyncstatusTask.taskFailed`. -/
def taskFailed (ops : SnapshotTaskOps σ) (snapshot : SSnapshot) (err : Err) (s : σ) :
    TaskRun σ :=
  match ops.SetStatus snapshot ops.DISK_UNKNOWN err.Error s with
  | (_, snapshot1, s1) =>
    { store := ops.AddActionLogWithContext snapshot1 err false
        (ops.LogEvent snapshot1 (ops.SetStageFailed err.Error s1))
      calls := [.SetStatus snapshot.Id ops.DISK_UNKNOWN err.Error, .SetStageFailed err.Error,
                .LogEvent snapshot.Id, .AddActionLog snapshot.Id err false] }

/-- Embedding of `SnapshotSyncstatusTask.OnInit`. -/
def OnInit (ops : SnapshotTaskOps σ) (snapshot : SSnapshot) (s : σ) : TaskRun σ :=
  match ops.GetRegion snapshot s with
  | none =>
    taskFailed ops snapshot
      (.plain ("failed to found cloudregion for snapshot " ++ snapshot.Name ++ "(" ++
        snapshot.Id ++ ")")) s
  | some region =>
    match ops.RequestSyncSnapshotStatus region snapshot
        (ops.SetStage "OnSnapshotSyncStatusComplete" s) with
    | (.error err, s2) =>
      { store := (taskFailed ops snapshot (.wrap "RequestSyncSnapshotStatus" err) s2).store
        calls := [.SetStage "OnSnapshotSyncStatusComplete",
                  .RequestSyncSnapshotStatus region.Id snapshot.Id] ++
          (taskFailed ops snapshot (.wrap "RequestSyncSnapshotStatus" err) s2).calls }
    | (.ok _, s2) =>
      { store := s2
        calls := [.SetStage "OnSnapshotSyncStatusComplete",
                  .RequestSyncSnapshotStatus region.Id snapshot.Id] }

/-- Embedding of `SnapshotSyncstatusTask.OnSnapshotSyncStatusComplete`. -/
def OnSnapshotSyncStatusComplete (ops : SnapshotTaskOps σ) (s : σ) : TaskRun σ :=
  { store := ops.SetStageComplete s, calls := [.SetStageComplete] }

/-- Embedding of `SnapshotSyncstatusTask.OnSnapshotSyncStatusCompleteFailed`;
`data` is the text `data.String()` of the payload. -/
def OnSnapshotSyncStatusCompleteFailed (ops : SnapshotTaskOps σ) (snapshot : SSnapshot)
    (data : String) (s : σ) : TaskRun σ :=
  taskFailed ops snapshot (.plain (fmtSprintf data)) s

end SnapshotTask

/-- Modelled from the spec: what the TaskEngine records (section 4.3), for one
task on one snapshot: the status of the snapshot with the reason of its last
change, the active stage of the task, and its terminal outcome, which is
recorded once (a later signal is a no-op). -/
structure TaskWorld where
  status : String
  statusReason : String
  stage : String
  failedReason : Option String
  completed : Bool
  events : List String
deriving DecidableEq, Repr

/-- Modelled from the spec: the operations of the handlers on a `TaskWorld`
(section 4.3), for a region lookup that yields `region` and a remote request
that returns `dispatch`. -/
def memTaskOps (region : Option SCloudregion) (dispatch : Except Err Unit) :
    SnapshotTaskOps TaskWorld :=
  { DISK_UNKNOWN := "unknown"
    GetRegion := fun _ _ => region
    SetStatus := fun snapshot status reason w =>
      (.ok (), { snapshot with Status := status },
        { w with status := status, statusReason := reason })
    SetStageFailed := fun reason w =>
      if w.completed || w.failedReason.isSome then w
      else { w with failedReason := some reason }
    SetStage := fun stageName w => { w with stage := stageName }
    SetStageComplete := fun w =>
      if w.completed || w.failedReason.isSome then w else { w with completed := true }
    LogEvent := fun snapshot w => { w with events := w.events ++ ["sync_status " ++ snapshot.Id] }
    AddActionLogWithContext := fun snapshot err _ w =>
      { w with events := w.events ++ ["action sync_status " ++ snapshot.Id ++ " " ++ err.Error] }
    RequestSyncSnapshotStatus := fun _ _ w => (dispatch, w) }

/-- The operations on a `TaskWorld` with a region that is found and a remote
request that records, before it returns `dispatch`, that it was dispatched and
the stage the task was in. -/
def dispatchTaskOps (region : SCloudregion) (dispatch : Except Err Unit) :
    SnapshotTaskOps TaskWorld :=
  { memTaskOps (some region) dispatch with
    RequestSyncSnapshotStatus := fun r snapshot w =>
      (dispatch,
        { w with events := w.events ++
            ["request " ++ r.Id ++ " " ++ snapshot.Id ++ " at stage " ++ w.stage] }) }

/-- A task that has just started on a snapshot with status `ready`. -/
def freshTask : TaskWorld :=
  { status := "ready", statusReason := "", stage := "on_init", failedReason := none,
    completed := false, events := [] }

/-- A snapshot of the scenarios. -/
def scenarioSnapshot : SSnapshot := { Id := "s1", Name := "snap", Status := "ready" }

/-! ## Theorems -/

theorem IsInStringArray_pair (s a b : String) :
    IsInStringArray s [a, b] = true ↔ s = a ∨ s = b := by
  simp only [IsInStringArray]
  by_cases h1 : a = s
  · simp [h1]
  · by_cases h2 : b = s
    · simp [h1, h2]
    · have h1' : ¬ s = a := fun h => h1 h.symm
      have h2' : ¬ s = b := fun h => h2 h.symm
      simp [h1, h2, h1', h2']

theorem ValidateDiskSize_ok_iff (c : StorageTypes)
    (hio : c.STORAGE_STANDARD_SSD ≠ c.STORAGE_IO1_SSD)
    (hst : c.STORAGE_STANDARD_SSD ≠ c.STORAGE_ST1_HDD)
    (hsc : c.STORAGE_STANDARD_SSD ≠ c.STORAGE_SC1_SSD)
    (storage : SStorage) (sizeGb : Int) :
    ValidateDiskSize c storage sizeGb = .ok () ↔ DiskSizeAccepted c storage sizeGb := by
  unfold ValidateDiskSize DiskSizeAccepted
  by_cases h1 : storage.StorageType = c.STORAGE_GP2_SSD
  · rw [if_pos h1]
    by_cases hs : sizeGb < 1 ∨ sizeGb > 16384
    · rw [if_pos hs]
      constructor
      · intro h; cases h
      · intro h; exfalso; omega
    · rw [if_neg hs]
      exact ⟨fun _ => Or.inl ⟨h1, by omega, by omega⟩, fun _ => rfl⟩
  · rw [if_neg h1]
    by_cases h2 : storage.StorageType = c.STORAGE_IO1_SSD
    · have h4 : ¬ storage.StorageType = c.STORAGE_STANDARD_SSD := fun h => hio (h ▸ h2)
      rw [if_pos h2]
      by_cases hs : sizeGb < 4 ∨ sizeGb > 16384
      · rw [if_pos hs]
        constructor
        · intro h; cases h
        · intro h; exfalso
          rcases h with h | h | h | h
          · exact h1 h.1
          · omega
          · omega
          · exact h4 h.1
      · rw [if_neg hs]
        exact ⟨fun _ => Or.inr (Or.inl ⟨h2, by omega, by omega⟩), fun _ => rfl⟩
    · rw [if_neg h2]
      by_cases h3 : IsInStringArray storage.StorageType
          [c.STORAGE_ST1_HDD, c.STORAGE_SC1_SSD] = true
      · have h3' := (IsInStringArray_pair _ _ _).1 h3
        have h4 : ¬ storage.StorageType = c.STORAGE_STANDARD_SSD := by
          intro h
          rcases h3' with h' | h'
          · exact hst (h ▸ h')
          · exact hsc (h ▸ h')
        rw [if_pos h3]
        by_cases hs : sizeGb < 500 ∨ sizeGb > 16384
        · rw [if_pos hs]
          constructor
          · intro h; cases h
          · intro h; exfalso
            rcases h with h | h | h | h
            · exact h1 h.1
            · exact h2 h.1
            · omega
            · exact h4 h.1
        · rw [if_neg hs]
          exact ⟨fun _ => Or.inr (Or.inr (Or.inl ⟨h3', by omega, by omega⟩)), fun _ => rfl⟩
      · have h3' : ¬ (storage.StorageType = c.STORAGE_ST1_HDD ∨
            storage.StorageType = c.STORAGE_SC1_SSD) :=
          fun h => h3 ((IsInStringArray_pair _ _ _).2 h)
        rw [if_neg h3]
        by_cases h4 : storage.StorageType = c.STORAGE_STANDARD_SSD
        · rw [if_pos h4]
          by_cases hs : sizeGb < 1 ∨ sizeGb > 1024
          · rw [if_pos hs]
            constructor
            · intro h; cases h
            · intro h; exfalso
              rcases h with h | h | h | h
              · exact h1 h.1
              · exact h2 h.1
              · exact h3' h.1
              · omega
          · rw [if_neg hs]
            exact ⟨fun _ => Or.inr (Or.inr (Or.inr ⟨h4, by omega, by omega⟩)), fun _ => rfl⟩
        · rw [if_neg h4]
          constructor
          · intro h; cases h
          · intro h; exfalso
            rcases h with h | h | h | h
            · exact h1 h.1
            · exact h2 h.1
            · exact h3' h.1
            · exact h4 h.1

/-- C1: `ValidateDiskSize` returns nil exactly for gp2 with 1..16384, io1 with
4..16384, st1/sc1 with 500..16384 and the standard type with 1..1024, and
returns an error in every other case (the standard-type constant being
different from the io1, st1 and sc1 constants). -/
theorem ValidateDiskSize_nil_iff (c : StorageTypes)
    (hio : c.STORAGE_STANDARD_SSD ≠ c.STORAGE_IO1_SSD)
    (hst : c.STORAGE_STANDARD_SSD ≠ c.STORAGE_ST1_HDD)
    (hsc : c.STORAGE_STANDARD_SSD ≠ c.STORAGE_SC1_SSD)
    (storage : SStorage) (sizeGb : Int) :
    (ValidateDiskSize c storage sizeGb = .ok () ↔ DiskSizeAccepted c storage sizeGb) ∧
    ((∃ e, ValidateDiskSize c storage sizeGb = .error e) ↔
      ¬ DiskSizeAccepted c storage sizeGb) := by
  have key := ValidateDiskSize_ok_iff c hio hst hsc storage sizeGb
  refine ⟨key, ?_⟩
  rw [← key]
  cases h : ValidateDiskSize c storage sizeGb with
  | error e => simp
  | ok u => cases u; simp

/-- Witness for C1 at the AWS storage-type names: a 4 GB io1 disk is accepted
and a 3 GB io1 disk is refused. -/
theorem ValidateDiskSize_nil_iff_witness :
    ValidateDiskSize awsStorageTypes ⟨"io1"⟩ 4 = .ok () ∧
    ∃ e, ValidateDiskSize awsStorageTypes ⟨"io1"⟩ 3 = .error e :=
  ⟨(ValidateDiskSize_nil_iff awsStorageTypes (by decide) (by decide) (by decide)
      ⟨"io1"⟩ 4).1.2 (Or.inr (Or.inl ⟨rfl, by decide, by decide⟩)),
    (ValidateDiskSize_nil_iff awsStorageTypes (by decide) (by decide) (by decide)
      ⟨"io1"⟩ 3).2.2 (by unfold DiskSizeAccepted; decide)⟩

/-! ### cmp -/

theorem cmpScan_foldl {Row : Type} (db : OVNNorthbound Row) (irows : List Row)
    (st : CmpScan Row) :
    irows.foldl (cmpScanStep db) st =
      { irowsFound := st.irowsFound ++ exactMatches db irows,
        irowsDiff := st.irowsDiff ++ nameMatches db irows,
        lookups := st.lookups ++ irows.flatMap (fun r =>
          r :: (if (db.FindOneMatchNonZeros r).isNone then
            ((db.asLogicalSwitchPort r).map db.newLogicalSwitchPort).toList else [])) } := by
  induction irows generalizing st with
  | nil => simp [exactMatches, nameMatches]
  | cons a rest ih =>
    rw [List.foldl_cons, ih]
    unfold cmpScanStep exactMatches nameMatches nameMatch
    cases h1 : db.FindOneMatchNonZeros a with
    | some r => simp [List.filterMap_cons, h1]
    | none =>
      cases h2 : db.asLogicalSwitchPort a with
      | none => simp [List.filterMap_cons, h1, h2]
      | some name =>
        cases h3 : db.FindOneMatchNonZeros (db.newLogicalSwitchPort name) with
        | none => simp [List.filterMap_cons, h1, h2, h3]
        | some r2 => simp [List.filterMap_cons, h1, h2, h3]

theorem cmpMark_foldl {Row : Type} (db : OVNNorthbound Row) (ocver : String)
    (found : List Row) (calls : List (SetExternalIdsCall Row)) :
    found.foldl (cmpMarkStep db ocver) calls =
      calls ++ found.map
        (fun r => { row := r, key := db.externalKeyOcVersion, value := ocver }) := by
  induction found generalizing calls with
  | nil => simp
  | cons a rest ih => rw [List.foldl_cons, ih]; simp [cmpMarkStep]

theorem exactMatches_length_le {Row : Type} (db : OVNNorthbound Row) (irows : List Row) :
    (exactMatches db irows).length ≤ irows.length := by
  unfold exactMatches
  exact List.length_filterMap_le _ _

theorem exactMatches_length_eq_iff {Row : Type} (db : OVNNorthbound Row)
    (irows : List Row) :
    (exactMatches db irows).length = irows.length ↔
      ∀ r ∈ irows, (db.FindOneMatchNonZeros r).isSome = true := by
  induction irows with
  | nil => simp [exactMatches]
  | cons a rest ih =>
    have hle := exactMatches_length_le db rest
    cases h1 : db.FindOneMatchNonZeros a with
    | some r =>
      have : exactMatches db (a :: rest) = r :: exactMatches db rest := by
        simp [exactMatches, List.filterMap_cons, h1]
      rw [this]
      simp [h1, ih]
    | none =>
      have : exactMatches db (a :: rest) = exactMatches db rest := by
        simp [exactMatches, List.filterMap_cons, h1]
      rw [this]
      simp only [List.length_cons, List.mem_cons, forall_eq_or_imp, h1]
      constructor
      · intro h; omega
      · intro h; simp at h

theorem cmp_scan_eq {Row : Type} (db : OVNNorthbound Row) (irows : List Row) :
    irows.foldl (cmpScanStep db) { irowsFound := [], irowsDiff := [], lookups := [] } =
      { irowsFound := exactMatches db irows, irowsDiff := nameMatches db irows,
        lookups := irows.flatMap (fun r =>
          r :: (if (db.FindOneMatchNonZeros r).isNone then
            ((db.asLogicalSwitchPort r).map db.newLogicalSwitchPort).toList else [])) } := by
  rw [cmpScan_foldl]; simp

/-- C2: `cmp` returns true as its first value exactly when every requested row
(possibly none) has an exact match in the database, and then its second value is
nil. -/
theorem cmp_true_iff_all_found {Row : Type} (db : OVNNorthbound Row) (ocver : String)
    (irows : List Row) :
    ((cmp db ocver irows).allFound = true ↔
      ∀ r ∈ irows, (db.FindOneMatchNonZeros r).isSome = true) ∧
    ((cmp db ocver irows).allFound = true → (cmp db ocver irows).args = []) := by
  unfold cmp
  simp only [cmp_scan_eq]
  by_cases h : (exactMatches db irows).length = irows.length
  · simp only [if_pos h, true_iff, true_implies, and_true]
    exact (exactMatches_length_eq_iff db irows).1 h
  · simp only [if_neg h]
    refine ⟨⟨fun hf => Bool.noConfusion hf, fun hall => ?_⟩, fun hf => Bool.noConfusion hf⟩
    exact absurd ((exactMatches_length_eq_iff db irows).2 hall) h

/-- C3: whatever `cmp` returns, the `OvnSetExternalIds(externalKeyOcVersion,
ocver)` calls it makes are exactly one call per requested row that has an exact
match, on the row found, in request order. -/
theorem cmp_marks_found {Row : Type} (db : OVNNorthbound Row) (ocver : String)
    (irows : List Row) :
    (cmp db ocver irows).marks =
      (irows.filterMap db.FindOneMatchNonZeros).map
        (fun r => { row := r, key := db.externalKeyOcVersion, value := ocver }) := by
  unfold cmp
  simp only [cmp_scan_eq, cmpMark_foldl, List.nil_append]
  by_cases h : (exactMatches db irows).length = irows.length
  · simp only [if_pos h]; rfl
  · simp only [if_neg h]; rfl

/-- C4: at the request for a port named `p1` with other addresses than the
port `u1` of that name held by the database, nothing is found for the requested
row, so the arguments to destroy the found records are none; `cmp` returns
false and, as its second value, the arguments that destroy the port `u1` found
by name alone. -/
theorem cmp_args_not_only_found :
    ¬ (∀ r ∈ [SampleRow.LogicalSwitchPort "" "p1" "aa:bb"],
        ((sampleDb [.LogicalSwitchPort "u1" "p1" "cc:dd"]).FindOneMatchNonZeros r).isSome
          = true) ∧
    (cmp (sampleDb [.LogicalSwitchPort "u1" "p1" "cc:dd"]) "v2"
        [.LogicalSwitchPort "" "p1" "aa:bb"]).args ≠
      (sampleDb [.LogicalSwitchPort "u1" "p1" "cc:dd"]).OvnNbctlArgsDestroy
        (exactMatches (sampleDb [.LogicalSwitchPort "u1" "p1" "cc:dd"])
          [.LogicalSwitchPort "" "p1" "aa:bb"]) ∧
    (cmp (sampleDb [.LogicalSwitchPort "u1" "p1" "cc:dd"]) "v2"
        [.LogicalSwitchPort "" "p1" "aa:bb"]).allFound = false ∧
    (sampleDb [.LogicalSwitchPort "u1" "p1" "cc:dd"]).OvnNbctlArgsDestroy
        (exactMatches (sampleDb [.LogicalSwitchPort "u1" "p1" "cc:dd"])
          [.LogicalSwitchPort "" "p1" "aa:bb"]) = [] ∧
    (cmp (sampleDb [.LogicalSwitchPort "u1" "p1" "cc:dd"]) "v2"
        [.LogicalSwitchPort "" "p1" "aa:bb"]).args =
      ["--", "--if-exists", "destroy", "Logical_Switch_Port", "u1"] := by
  refine ⟨?_, ?_, ?_, ?_, ?_⟩ <;> decide

/-- What the code of `cmp` returns when not all requested rows are found: false,
and the destroy arguments of the exactly matched rows followed by the destroy
arguments of the rows found by name alone for the requested logical switch
ports that have no exact match. -/
theorem cmp_false_args {Row : Type} (db : OVNNorthbound Row) (ocver : String)
    (irows : List Row)
    (h : ¬ ∀ r ∈ irows, (db.FindOneMatchNonZeros r).isSome = true) :
    (cmp db ocver irows).allFound = false ∧
    (cmp db ocver irows).args =
      db.OvnNbctlArgsDestroy (exactMatches db irows) ++
        db.OvnNbctlArgsDestroy (nameMatches db irows) := by
  have hne : ¬ (exactMatches db irows).length = irows.length :=
    fun he => h ((exactMatches_length_eq_iff db irows).1 he)
  unfold cmp
  simp only [cmp_scan_eq, if_neg hne, and_self]

/-- Evaluation on the sample database: the port found by name is destroyed
although it was not matched exactly. -/
theorem cmp_false_args_witness :
    (cmp (sampleDb [.LogicalSwitchPort "u1" "p1" "cc:dd"]) "v2"
        [.LogicalSwitchPort "" "p1" "aa:bb"]).allFound = false ∧
    (cmp (sampleDb [.LogicalSwitchPort "u1" "p1" "cc:dd"]) "v2"
        [.LogicalSwitchPort "" "p1" "aa:bb"]).args =
      (sampleDb [.LogicalSwitchPort "u1" "p1" "cc:dd"]).OvnNbctlArgsDestroy
          (exactMatches (sampleDb [.LogicalSwitchPort "u1" "p1" "cc:dd"])
            [.LogicalSwitchPort "" "p1" "aa:bb"]) ++
        (sampleDb [.LogicalSwitchPort "u1" "p1" "cc:dd"]).OvnNbctlArgsDestroy
          (nameMatches (sampleDb [.LogicalSwitchPort "u1" "p1" "cc:dd"])
            [.LogicalSwitchPort "" "p1" "aa:bb"]) :=
  cmp_false_args (sampleDb [.LogicalSwitchPort "u1" "p1" "cc:dd"]) "v2"
    [.LogicalSwitchPort "" "p1" "aa:bb"] (by decide)

/-! ### The comparison of `SyncVPCs` -/

theorem pickExternal_perm (l : SVpc) (exts : List ICloudVpc) (e : ICloudVpc)
    (rest : List ICloudVpc) (h : pickExternal l exts = some (e, rest)) :
    (e :: rest).Perm exts := by
  induction exts generalizing e rest with
  | nil => simp [pickExternal] at h
  | cons a as ih =>
    unfold pickExternal at h
    by_cases hm : identityMatch l a = true
    · rw [if_pos hm] at h
      cases h
      exact List.Perm.refl _
    · rw [if_neg hm] at h
      cases hp : pickExternal l as with
      | none => simp [hp] at h
      | some pr =>
        obtain ⟨m, rest1⟩ := pr
        simp only [hp, Option.some.injEq, Prod.mk.injEq] at h
        obtain ⟨h1, h2⟩ := h
        subst h1 h2
        exact (List.Perm.swap a m rest1).trans ((ih m rest1 hp).cons a)

theorem CompareSets_local_perm (locals : List SVpc) (exts : List ICloudVpc) :
    ((CompareSets locals exts).removed ++ (CompareSets locals exts).common.map Prod.fst).Perm
      locals := by
  induction locals generalizing exts with
  | nil => simp [CompareSets]
  | cons l ls ih =>
    unfold CompareSets
    cases hp : pickExternal l exts with
    | none =>
      simp only [List.cons_append]
      exact (ih exts).cons l
    | some pr =>
      obtain ⟨e, rest⟩ := pr
      simp only [List.map_cons]
      exact List.perm_middle.trans ((ih rest).cons l)

theorem CompareSets_external_perm (locals : List SVpc) (exts : List ICloudVpc) :
    ((CompareSets locals exts).added ++ (CompareSets locals exts).common.map Prod.snd).Perm
      exts := by
  induction locals generalizing exts with
  | nil => simp [CompareSets]
  | cons l ls ih =>
    unfold CompareSets
    cases hp : pickExternal l exts with
    | none => exact ih exts
    | some pr =>
      obtain ⟨e, rest⟩ := pr
      simp only [List.map_cons]
      exact List.perm_middle.trans (((ih rest).cons e).trans (pickExternal_perm l exts e rest hp))

/-- C5: partition completeness of the comparison made by `SyncVPCs`.  The
removed VPCs together with the local halves of the common pairs are exactly the
local VPCs, and the added VPCs together with the external halves of the common
pairs are exactly the external VPCs, each entity occurring in exactly one
partition (so the partitions of duplicate-free inputs are disjoint); Scenario A
gives removed = [Y], common = [(X, e1)], added = [e3]. -/
theorem CompareSets_partition (locals : List SVpc) (exts : List ICloudVpc) :
    ((CompareSets locals exts).removed ++ (CompareSets locals exts).common.map Prod.fst).Perm
      locals ∧
    ((CompareSets locals exts).added ++ (CompareSets locals exts).common.map Prod.snd).Perm
      exts ∧
    (locals.Nodup → List.Disjoint (CompareSets locals exts).removed
      ((CompareSets locals exts).common.map Prod.fst)) ∧
    (exts.Nodup → List.Disjoint (CompareSets locals exts).added
      ((CompareSets locals exts).common.map Prod.snd)) ∧
    CompareSets [scenarioX, scenarioY] [observed "e1" "X", observed "e3" "Z"] =
      { removed := [scenarioY], common := [(scenarioX, observed "e1" "X")],
        added := [observed "e3" "Z"] } := by
  refine ⟨CompareSets_local_perm locals exts, CompareSets_external_perm locals exts, ?_, ?_, ?_⟩
  · intro hn
    exact (List.nodup_append.1 ((CompareSets_local_perm locals exts).nodup_iff.2 hn)).2.2
  · intro hn
    exact (List.nodup_append.1 ((CompareSets_external_perm locals exts).nodup_iff.2 hn)).2.2
  · decide


/-! ### Per-entity failure isolation in `SyncVPCs` -/

theorem removeStep_spec {σ : Type} (ops : VpcOps σ) (st : SyncState σ) (vpc : SVpc) :
    (removeStep ops st vpc).calls = st.calls ++ [.syncRemoveCloudVpc vpc] ∧
    TallyGrows st.syncResult (removeStep ops st vpc).syncResult 1 0 0 := by
  unfold removeStep TallyGrows
  rcases h : vpc.syncRemoveCloudVpc ops st.store with ⟨r, s1, cs⟩
  cases r with
  | error err => exact ⟨rfl, by simp only [SyncResult.DeleteError]; omega⟩
  | ok u => exact ⟨rfl, by simp only [SyncResult.Delete]; omega⟩

theorem updateStep_spec {σ : Type} (ops : VpcOps σ) (st : SyncState σ)
    (pair : SVpc × ICloudVpc) :
    (updateStep ops st pair).calls = st.calls ++ [.SyncWithCloudVpc pair.1 pair.2] ∧
    TallyGrows st.syncResult (updateStep ops st pair).syncResult 0 1 0 := by
  unfold updateStep TallyGrows
  rcases h : pair.1.SyncWithCloudVpc ops pair.2 st.store with ⟨r, v1, s1⟩
  cases r with
  | error err => exact ⟨rfl, by simp only [SyncResult.UpdateError]; omega⟩
  | ok u => exact ⟨rfl, by simp only [SyncResult.Update]; omega⟩

theorem addStep_spec {σ : Type} (ops : VpcOps σ) (provider : SCloudprovider)
    (region : SCloudregion) (st : SyncState σ) (ext : ICloudVpc) :
    (addStep ops provider region st ext).calls = st.calls ++ [.newFromCloudVpc ext] ∧
    TallyGrows st.syncResult (addStep ops provider region st ext).syncResult 0 0 1 := by
  unfold addStep TallyGrows
  rcases h : newFromCloudVpc ops ext provider region st.store with ⟨r, s1⟩
  cases r with
  | error err => exact ⟨rfl, by simp only [SyncResult.AddError]; omega⟩
  | ok v => exact ⟨rfl, by simp only [SyncResult.Add]; omega⟩

theorem TallyGrows.compose {r r1 r2 : SyncResult} {d u a d1 u1 a1 : Nat}
    (h : TallyGrows r r1 d u a) (h1 : TallyGrows r1 r2 d1 u1 a1) :
    TallyGrows r r2 (d + d1) (u + u1) (a + a1) := by
  unfold TallyGrows at *
  omega

theorem TallyGrows.none (r : SyncResult) : TallyGrows r r 0 0 0 := by
  unfold TallyGrows; omega

theorem remove_foldl_spec {σ : Type} (ops : VpcOps σ) (removed : List SVpc)
    (st : SyncState σ) :
    (removed.foldl (removeStep ops) st).calls =
      st.calls ++ removed.map .syncRemoveCloudVpc ∧
    TallyGrows st.syncResult (removed.foldl (removeStep ops) st).syncResult
      removed.length 0 0 := by
  induction removed generalizing st with
  | nil => exact ⟨by simp, TallyGrows.none _⟩
  | cons v rest ih =>
    obtain ⟨hc, ht⟩ := removeStep_spec ops st v
    obtain ⟨hc1, ht1⟩ := ih (removeStep ops st v)
    refine ⟨?_, ?_⟩
    · rw [List.foldl_cons, hc1, hc]; simp
    · have := ht.compose ht1
      rw [List.foldl_cons, List.length_cons]
      simpa [Nat.add_comm] using this

theorem update_foldl_spec {σ : Type} (ops : VpcOps σ) (common : List (SVpc × ICloudVpc))
    (st : SyncState σ) :
    (common.foldl (updateStep ops) st).calls =
      st.calls ++ common.map (fun pr => .SyncWithCloudVpc pr.1 pr.2) ∧
    TallyGrows st.syncResult (common.foldl (updateStep ops) st).syncResult
      0 common.length 0 := by
  induction common generalizing st with
  | nil => exact ⟨by simp, TallyGrows.none _⟩
  | cons v rest ih =>
    obtain ⟨hc, ht⟩ := updateStep_spec ops st v
    obtain ⟨hc1, ht1⟩ := ih (updateStep ops st v)
    refine ⟨?_, ?_⟩
    · rw [List.foldl_cons, hc1, hc]; simp
    · have := ht.compose ht1
      rw [List.foldl_cons, List.length_cons]
      simpa [Nat.add_comm] using this

theorem add_foldl_spec {σ : Type} (ops : VpcOps σ) (provider : SCloudprovider)
    (region : SCloudregion) (added : List ICloudVpc) (st : SyncState σ) :
    (added.foldl (addStep ops provider region) st).calls =
      st.calls ++ added.map .newFromCloudVpc ∧
    TallyGrows st.syncResult (added.foldl (addStep ops provider region) st).syncResult
      0 0 added.length := by
  induction added generalizing st with
  | nil => exact ⟨by simp, TallyGrows.none _⟩
  | cons v rest ih =>
    obtain ⟨hc, ht⟩ := addStep_spec ops provider region st v
    obtain ⟨hc1, ht1⟩ := ih (addStep ops provider region st v)
    refine ⟨?_, ?_⟩
    · rw [List.foldl_cons, hc1, hc]; simp
    · have := ht.compose ht1
      rw [List.foldl_cons, List.length_cons]
      simpa [Nat.add_comm] using this

theorem applyPartition_spec {σ : Type} (ops : VpcOps σ) (provider : SCloudprovider)
    (region : SCloudregion) (p : Partition) (s : σ) :
    (applyPartition ops provider region p s).calls =
      p.removed.map .syncRemoveCloudVpc ++
        p.common.map (fun pr => .SyncWithCloudVpc pr.1 pr.2) ++
        p.added.map .newFromCloudVpc ∧
    TallyGrows SyncResult.zero (applyPartition ops provider region p s).syncResult
      p.removed.length p.common.length p.added.length := by
  unfold applyPartition
  obtain ⟨hc1, ht1⟩ := remove_foldl_spec ops p.removed
    { localVPCs := [], remoteVPCs := [], syncResult := SyncResult.zero, store := s, calls := [] }
  obtain ⟨hc2, ht2⟩ := update_foldl_spec ops p.common (p.removed.foldl (removeStep ops)
    { localVPCs := [], remoteVPCs := [], syncResult := SyncResult.zero, store := s, calls := [] })
  obtain ⟨hc3, ht3⟩ := add_foldl_spec ops provider region p.added
    (p.common.foldl (updateStep ops) (p.removed.foldl (removeStep ops)
    { localVPCs := [], remoteVPCs := [], syncResult := SyncResult.zero, store := s, calls := [] }))
  refine ⟨?_, ?_⟩
  · simp only [hc3, hc2, hc1, List.nil_append]
  · have := (ht1.compose ht2).compose ht3
    simpa using this

theorem remove_foldl_run {σ : Type} (ops : VpcOps σ) (removed : List SVpc)
    (st : SyncState σ) :
    (removed.foldl (removeStep ops) st).store = (runRemoved ops removed st.store).2 ∧
    (removed.foldl (removeStep ops) st).syncResult =
      { st.syncResult with
        DelCnt := st.syncResult.DelCnt +
          ((runRemoved ops removed st.store).1.filter succeeded).length
        DelErrCnt := st.syncResult.DelErrCnt +
          (failures (runRemoved ops removed st.store).1).length
        errors := st.syncResult.errors ++ failures (runRemoved ops removed st.store).1 } ∧
    (runRemoved ops removed st.store).1.length = removed.length := by
  induction removed generalizing st with
  | nil => simp [runRemoved, failures]
  | cons vpc rest ih =>
    rw [List.foldl_cons]
    obtain ⟨h1, h2, h3⟩ := ih (removeStep ops st vpc)
    rw [h1, h2]
    rw [runRemoved]
    unfold removeStep at h3 ⊢
    rcases hcb : vpc.syncRemoveCloudVpc ops st.store with ⟨r, s1, cs⟩
    rw [hcb] at h3
    cases r with
    | error err =>
      simp only [] at h3 ⊢
      rcases hrun : runRemoved ops rest s1 with ⟨rs, s2⟩
      rw [hrun] at h3
      simp only [SyncResult.DeleteError, failures, succeeded, List.filter_cons, List.length_cons,
        List.append_assoc, List.singleton_append, Nat.add_assoc, Nat.add_comm 1] at h3 ⊢
      refine ⟨trivial, ?_, by omega⟩
      simp
    | ok u =>
      simp only [] at h3 ⊢
      rcases hrun : runRemoved ops rest s1 with ⟨rs, s2⟩
      rw [hrun] at h3
      simp only [SyncResult.Delete, failures, succeeded, List.filter_cons, List.length_cons,
        Nat.add_assoc, Nat.add_comm 1] at h3 ⊢
      refine ⟨trivial, ?_, by omega⟩
      simp

theorem update_foldl_run {σ : Type} (ops : VpcOps σ) (common : List (SVpc × ICloudVpc))
    (st : SyncState σ) :
    (common.foldl (updateStep ops) st).store = (runCommon ops common st.store).2 ∧
    (common.foldl (updateStep ops) st).syncResult =
      { st.syncResult with
        UpdateCnt := st.syncResult.UpdateCnt +
          ((runCommon ops common st.store).1.filter succeeded).length
        UpdateErrCnt := st.syncResult.UpdateErrCnt +
          (failures (runCommon ops common st.store).1).length
        errors := st.syncResult.errors ++ failures (runCommon ops common st.store).1 } ∧
    (runCommon ops common st.store).1.length = common.length := by
  induction common generalizing st with
  | nil => simp [runCommon, failures]
  | cons pair rest ih =>
    rw [List.foldl_cons]
    obtain ⟨h1, h2, h3⟩ := ih (updateStep ops st pair)
    rw [h1, h2]
    rw [runCommon]
    unfold updateStep at h3 ⊢
    rcases hcb : pair.1.SyncWithCloudVpc ops pair.2 st.store with ⟨r, v1, s1⟩
    rw [hcb] at h3
    cases r with
    | error err =>
      simp only [] at h3 ⊢
      rcases hrun : runCommon ops rest s1 with ⟨rs, s2⟩
      rw [hrun] at h3
      simp only [SyncResult.UpdateError, failures, succeeded, List.filter_cons, List.length_cons,
        List.append_assoc, List.singleton_append, Nat.add_assoc, Nat.add_comm 1] at h3 ⊢
      refine ⟨trivial, ?_, by omega⟩
      simp
    | ok u =>
      simp only [] at h3 ⊢
      rcases hrun : runCommon ops rest
          (v1.SyncGlobalVpc ops (ops.syncMetadata v1 pair.2 s1)).2 with ⟨rs, s2⟩
      rw [hrun] at h3
      simp only [SyncResult.Update, failures, succeeded, List.filter_cons, List.length_cons,
        Nat.add_assoc, Nat.add_comm 1] at h3 ⊢
      refine ⟨trivial, ?_, by omega⟩
      simp

theorem add_foldl_run {σ : Type} (ops : VpcOps σ) (provider : SCloudprovider)
    (region : SCloudregion) (added : List ICloudVpc) (st : SyncState σ) :
    (added.foldl (addStep ops provider region) st).store =
      (runAdded ops provider region added st.store).2 ∧
    (added.foldl (addStep ops provider region) st).syncResult =
      { st.syncResult with
        AddCnt := st.syncResult.AddCnt +
          ((runAdded ops provider region added st.store).1.filter succeeded).length
        AddErrCnt := st.syncResult.AddErrCnt +
          (failures (runAdded ops provider region added st.store).1).length
        errors := st.syncResult.errors ++
          failures (runAdded ops provider region added st.store).1 } ∧
    (runAdded ops provider region added st.store).1.length = added.length := by
  induction added generalizing st with
  | nil => simp [runAdded, failures]
  | cons ext rest ih =>
    rw [List.foldl_cons]
    obtain ⟨h1, h2, h3⟩ := ih (addStep ops provider region st ext)
    rw [h1, h2]
    rw [runAdded]
    unfold addStep at h3 ⊢
    rcases hcb : newFromCloudVpc ops ext provider region st.store with ⟨r, s1⟩
    rw [hcb] at h3
    cases r with
    | error err =>
      simp only [] at h3 ⊢
      rcases hrun : runAdded ops provider region rest s1 with ⟨rs, s2⟩
      rw [hrun] at h3
      simp only [SyncResult.AddError, failures, succeeded, List.filter_cons, List.length_cons,
        List.append_assoc, List.singleton_append, Nat.add_assoc, Nat.add_comm 1] at h3 ⊢
      refine ⟨trivial, ?_, by omega⟩
      simp
    | ok v =>
      simp only [] at h3 ⊢
      rcases hrun : runAdded ops provider region rest
          (v.SyncGlobalVpc ops (ops.syncMetadata v ext s1)).2 with ⟨rs, s2⟩
      rw [hrun] at h3
      simp only [SyncResult.Add, failures, succeeded, List.filter_cons, List.length_cons,
        Nat.add_assoc, Nat.add_comm 1] at h3 ⊢
      refine ⟨trivial, ?_, by omega⟩
      simp

/-- C6: per-entity failure isolation.  Once the partitions are computed,
whatever each callback returns, `SyncVPCs` invokes `syncRemoveCloudVpc` once for
each removed VPC, then `SyncWithCloudVpc` once for each common pair, then
`newFromCloudVpc` once for each added VPC, each on the store that the callback
before it left, so that an error of one entity skips no later entity: the store
returned is the one left by the last callback, each entity has one outcome, and
in the returned `SyncResult` each category counts as successes the callbacks
that returned nil and as failures those that returned an error, with the errors
in order; successes plus failures of each category equal the size of its
partition. -/
theorem SyncVPCs_failure_isolation {σ : Type} (ops : VpcOps σ) (provider : SCloudprovider)
    (region : SCloudregion) (vpcs : List ICloudVpc) (s : σ) (dbVPCs : List SVpc)
    (p : Partition)
    (hfetch : getVpcsByRegion ops region (some provider) s = .ok dbVPCs)
    (htask : dbVPCs.any (fun v => ops.IsInTask v s) = false)
    (hcmp : ops.CompareSets dbVPCs vpcs = .ok p) :
    (SyncVPCs ops provider region vpcs s).calls =
      p.removed.map .syncRemoveCloudVpc ++
        p.common.map (fun pr => .SyncWithCloudVpc pr.1 pr.2) ++
        p.added.map .newFromCloudVpc ∧
    (SyncVPCs ops provider region vpcs s).syncResult.DelCnt +
      (SyncVPCs ops provider region vpcs s).syncResult.DelErrCnt = p.removed.length ∧
    (SyncVPCs ops provider region vpcs s).syncResult.UpdateCnt +
      (SyncVPCs ops provider region vpcs s).syncResult.UpdateErrCnt = p.common.length ∧
    (SyncVPCs ops provider region vpcs s).syncResult.AddCnt +
      (SyncVPCs ops provider region vpcs s).syncResult.AddErrCnt = p.added.length ∧
    (SyncVPCs ops provider region vpcs s).store =
      (runAdded ops provider region p.added
        (runCommon ops p.common (runRemoved ops p.removed s).2).2).2 ∧
    (SyncVPCs ops provider region vpcs s).syncResult =
      { DelCnt := ((runRemoved ops p.removed s).1.filter succeeded).length
        DelErrCnt := (failures (runRemoved ops p.removed s).1).length
        UpdateCnt :=
          ((runCommon ops p.common (runRemoved ops p.removed s).2).1.filter succeeded).length
        UpdateErrCnt :=
          (failures (runCommon ops p.common (runRemoved ops p.removed s).2).1).length
        AddCnt := ((runAdded ops provider region p.added
          (runCommon ops p.common (runRemoved ops p.removed s).2).2).1.filter succeeded).length
        AddErrCnt := (failures (runAdded ops provider region p.added
          (runCommon ops p.common (runRemoved ops p.removed s).2).2).1).length
        errors := failures (runRemoved ops p.removed s).1 ++
          failures (runCommon ops p.common (runRemoved ops p.removed s).2).1 ++
          failures (runAdded ops provider region p.added
            (runCommon ops p.common (runRemoved ops p.removed s).2).2).1 } ∧
    ((runRemoved ops p.removed s).1.length = p.removed.length ∧
      (runCommon ops p.common (runRemoved ops p.removed s).2).1.length = p.common.length ∧
      (runAdded ops provider region p.added
        (runCommon ops p.common (runRemoved ops p.removed s).2).2).1.length = p.added.length) := by
  have hrun : SyncVPCs ops provider region vpcs s = applyPartition ops provider region p s := by
    unfold SyncVPCs
    simp only [hfetch, htask, hcmp, Bool.false_eq_true, if_false]
  have hfold : applyPartition ops provider region p s =
      p.added.foldl (addStep ops provider region)
        (p.common.foldl (updateStep ops)
          (p.removed.foldl (removeStep ops) (startState s))) := rfl
  obtain ⟨hc, ht⟩ := applyPartition_spec ops provider region p s
  obtain ⟨r1, r2, r3⟩ := remove_foldl_run ops p.removed (startState s)
  obtain ⟨u1, u2, u3⟩ := update_foldl_run ops p.common
    (p.removed.foldl (removeStep ops) (startState s))
  obtain ⟨a1, a2, a3⟩ := add_foldl_run ops provider region p.added
    (p.common.foldl (updateStep ops) (p.removed.foldl (removeStep ops) (startState s)))
  have hs : (startState s).store = s := rfl
  rw [hs] at r1 r2 r3
  rw [r1] at u1 u2 u3
  rw [u1] at a1 a2 a3
  rw [hrun]
  refine ⟨hc, ?_, ?_, ?_, ?_, ?_, r3, u3, a3⟩
  · unfold TallyGrows at ht
    simpa [SyncResult.zero] using ht.1
  · unfold TallyGrows at ht
    simpa [SyncResult.zero] using ht.2.1
  · unfold TallyGrows at ht
    simpa [SyncResult.zero] using ht.2.2
  · rw [hfold, a1]
  · rw [hfold, a2, u2, r2]
    simp [startState, SyncResult.zero]

/-- Witness for C6 on the in-memory store of Scenario A with a failing update:
the removed VPC `Y` is deleted, the update of `X` fails, and the added VPC is
still created after that failure; one delete and one add are counted as
successes and the update as the one failure. -/
theorem SyncVPCs_failure_isolation_witness :
    (SyncVPCs failingUpdateOps scenarioProvider scenarioRegion
        [observed "e1" "X", observed "e3" "Z"] (storeOf [scenarioX, scenarioY])).calls =
      [.syncRemoveCloudVpc scenarioY, .SyncWithCloudVpc scenarioX (observed "e1" "X"),
        .newFromCloudVpc (observed "e3" "Z")] ∧
    (SyncVPCs failingUpdateOps scenarioProvider scenarioRegion
        [observed "e1" "X", observed "e3" "Z"] (storeOf [scenarioX, scenarioY])).syncResult =
      { DelCnt := 1, DelErrCnt := 0, UpdateCnt := 0, UpdateErrCnt := 1, AddCnt := 1,
        AddErrCnt := 0, errors := [.plain "update failed"] } ∧
    (SyncVPCs failingUpdateOps scenarioProvider scenarioRegion
        [observed "e1" "X", observed "e3" "Z"] (storeOf [scenarioX, scenarioY])).store.vpcs.map
        (fun v => (v.Id, v.ExternalId)) = [("x", "e1"), ("ii", "e3")] :=
  ⟨(SyncVPCs_failure_isolation failingUpdateOps scenarioProvider scenarioRegion
      [observed "e1" "X", observed "e3" "Z"] (storeOf [scenarioX, scenarioY])
      [scenarioX, scenarioY]
      { removed := [scenarioY], common := [(scenarioX, observed "e1" "X")],
        added := [observed "e3" "Z"] } rfl rfl rfl).1,
    (SyncVPCs_failure_isolation failingUpdateOps scenarioProvider scenarioRegion
      [observed "e1" "X", observed "e3" "Z"] (storeOf [scenarioX, scenarioY])
      [scenarioX, scenarioY]
      { removed := [scenarioY], common := [(scenarioX, observed "e1" "X")],
        added := [observed "e3" "Z"] } rfl rfl rfl).2.2.2.2.2.1.trans (by decide),
    by decide⟩

/-! ### Removal of a VPC that is no longer observed -/

/-- C8: for a VPC that is not the one emulated for a classic network,
`syncRemoveCloudVpc` calls `RealDelete` exactly when `ValidateDeleteCondition`
succeeds, and then returns what `RealDelete` returns.  When the validation
fails it does not call `RealDelete`: it marks the networks unknown and disables
the VPC, and sets the status to `VPC_STATUS_UNKNOWN` exactly when the disabling
succeeds. -/
theorem syncRemoveCloudVpc_delete_iff {σ : Type} (ops : VpcOps σ) (self : SVpc) (s : σ)
    (hclassic : getVpcExternalIdForClassicNetwork self.CloudregionId self.ManagerId ≠
      self.ExternalId) :
    (RemoveCall.RealDelete ∈ (self.syncRemoveCloudVpc ops s).2.2 ↔
      self.ValidateDeleteCondition ops s = .ok ()) ∧
    (self.ValidateDeleteCondition ops s = .ok () →
      (self.syncRemoveCloudVpc ops s).1 = (self.RealDelete ops s).1 ∧
      (self.syncRemoveCloudVpc ops s).2.1 = (self.RealDelete ops s).2) ∧
    (∀ e, self.ValidateDeleteCondition ops s = .error e →
      (∀ self1 s2,
        ops.PerformDisable self (self.markAllNetworksUnknown ops s) = (.ok (), self1, s2) →
        (self.syncRemoveCloudVpc ops s).2.2 =
          [.ValidateDeleteCondition, .markAllNetworksUnknown, .PerformDisable,
            .SetStatus ops.VPC_STATUS_UNKNOWN "sync to delete"] ∧
        (self.syncRemoveCloudVpc ops s).1 =
          (ops.SetStatus self1 ops.VPC_STATUS_UNKNOWN "sync to delete" s2).1 ∧
        (self.syncRemoveCloudVpc ops s).2.1 =
          (ops.SetStatus self1 ops.VPC_STATUS_UNKNOWN "sync to delete" s2).2.2) ∧
      (∀ err self1 s2,
        ops.PerformDisable self (self.markAllNetworksUnknown ops s) = (.error err, self1, s2) →
        (self.syncRemoveCloudVpc ops s).2.2 =
          [.ValidateDeleteCondition, .markAllNetworksUnknown, .PerformDisable] ∧
        (self.syncRemoveCloudVpc ops s).1 = .error err ∧
        (self.syncRemoveCloudVpc ops s).2.1 = s2)) := by
  unfold SVpc.syncRemoveCloudVpc
  rw [if_neg hclassic]
  cases hv : self.ValidateDeleteCondition ops s with
  | ok u =>
    cases u
    refine ⟨by simp, fun _ => ⟨rfl, rfl⟩, fun e he => (by cases he)⟩
  | error e0 =>
    refine ⟨?_, fun h => (by cases h), fun e _ => ⟨?_, ?_⟩⟩
    · rcases hd : ops.PerformDisable self (self.markAllNetworksUnknown ops s) with ⟨r, self1, s2⟩
      cases r <;> simp [hd]
    · intro self1 s2 hd
      simp [hd]
    · intro err self1 s2 hd
      simp [hd]

/-- Witness for C8 on the store of Scenario B: VPC `Y` has a network, is not
deleted, is disabled and gets the unknown status. -/
theorem syncRemoveCloudVpc_delete_iff_witness :
    (RemoveCall.RealDelete ∈ (scenarioY.syncRemoveCloudVpc memOps dependentStore).2.2 ↔
      scenarioY.ValidateDeleteCondition memOps dependentStore = .ok ()) ∧
    (scenarioY.syncRemoveCloudVpc memOps dependentStore).2.2 =
      [.ValidateDeleteCondition, .markAllNetworksUnknown, .PerformDisable,
        .SetStatus "unknown" "sync to delete"] ∧
    (scenarioY.syncRemoveCloudVpc memOps dependentStore).2.1.vpcs =
      [scenarioX, { scenarioY with Enabled := false, Status := "unknown" }] :=
  ⟨(syncRemoveCloudVpc_delete_iff memOps scenarioY dependentStore (by decide)).1, rfl, rfl⟩

/-! ### Delete preconditions -/

/-- C9: `SVpc.ValidateDeleteCondition` reads the store and returns no store: it
mutates no record.  It returns an error when the network count is greater than
zero, when the NAT gateway count is greater than zero, when either count query
fails, and when the VPC is the default VPC; it returns what the base validation
returns when both counts are zero and the VPC is not the default one, and it
succeeds only then.  On the store of Scenario B the VPC with one network is
refused with a not-empty error. -/
theorem ValidateDeleteCondition_refuses {σ : Type} (ops : VpcOps σ) (self : SVpc) (s : σ) :
    (((∃ e, ops.GetNetworkCount self s = .error e) ∨
      (∃ n, ops.GetNetworkCount self s = .ok n ∧ 0 < n) ∨
      (∃ e, ops.GetNatgatewayCount self s = .error e) ∨
      (∃ n, ops.GetNatgatewayCount self s = .ok n ∧ 0 < n) ∨
      self.Id = ops.DEFAULT_VPC_ID) →
      ∃ e, self.ValidateDeleteCondition ops s = .error e) ∧
    ((ops.GetNetworkCount self s = .ok 0 ∧ ops.GetNatgatewayCount self s = .ok 0 ∧
      self.Id ≠ ops.DEFAULT_VPC_ID) →
      self.ValidateDeleteCondition ops s = ops.baseValidateDeleteCondition self s) ∧
    (self.ValidateDeleteCondition ops s = .ok () →
      ops.GetNetworkCount self s = .ok 0 ∧ ops.GetNatgatewayCount self s = .ok 0 ∧
      self.Id ≠ ops.DEFAULT_VPC_ID ∧ ops.baseValidateDeleteCondition self s = .ok ()) ∧
    scenarioY.ValidateDeleteCondition memOps dependentStore =
      .error (.http .NotEmptyError "VPC not empty, please delete network first") := by
  refine ⟨?_, ?_, ?_, rfl⟩
  · intro h
    unfold SVpc.ValidateDeleteCondition
    cases hn : ops.GetNetworkCount self s with
    | error e => exact ⟨_, rfl⟩
    | ok n =>
      by_cases hpos : n > 0
      · simp only [hpos, if_true]; exact ⟨_, rfl⟩
      · simp only [hpos, if_false]
        cases hg : ops.GetNatgatewayCount self s with
        | error e => exact ⟨_, rfl⟩
        | ok m =>
          by_cases hm : m > 0
          · simp only [hm, if_true]; exact ⟨_, rfl⟩
          · simp only [hm, if_false]
            by_cases hd : self.Id = ops.DEFAULT_VPC_ID
            · simp only [hd, if_true]; exact ⟨_, rfl⟩
            · exfalso
              rcases h with ⟨e, he⟩ | ⟨k, hk, hk0⟩ | ⟨e, he⟩ | ⟨k, hk, hk0⟩ | hdef
              · rw [hn] at he; cases he
              · rw [hn] at hk; cases hk; exact hpos hk0
              · rw [hg] at he; cases he
              · rw [hg] at hk; cases hk; exact hm hk0
              · exact hd hdef
  · rintro ⟨hn, hg, hd⟩
    unfold SVpc.ValidateDeleteCondition
    simp only [hn, hg, hd, gt_iff_lt, Nat.lt_irrefl, if_false]
  · intro hok
    unfold SVpc.ValidateDeleteCondition at hok
    cases hn : ops.GetNetworkCount self s with
    | error e => simp only [hn] at hok; cases hok
    | ok n =>
      simp only [hn] at hok
      by_cases hpos : n > 0
      · simp only [hpos, if_true] at hok; cases hok
      · simp only [hpos, if_false] at hok
        cases hg : ops.GetNatgatewayCount self s with
        | error e => simp only [hg] at hok; cases hok
        | ok m =>
          simp only [hg] at hok
          by_cases hm : m > 0
          · simp only [hm, if_true] at hok; cases hok
          · simp only [hm, if_false] at hok
            by_cases hd : self.Id = ops.DEFAULT_VPC_ID
            · simp only [hd, if_true] at hok; cases hok
            · simp only [hd, if_false] at hok
              have hn0 : n = 0 := by omega
              have hm0 : m = 0 := by omega
              subst hn0 hm0
              exact ⟨rfl, rfl, hd, hok⟩


/-! ### Delete preconditions of a proxy setting -/

theorem checkReferrers_ok_iff {σ : Type} (ps : SProxySetting) (s : σ)
    (men : List (IModelManager σ)) :
    (checkReferrers ps s men).1 = .ok () ↔
      ∀ m ∈ men, m.CountByProxySettingId ps.Id s = .ok 0 := by
  induction men with
  | nil => simp [checkReferrers]
  | cons man rest ih =>
    unfold checkReferrers
    cases hc : man.CountByProxySettingId ps.Id s with
    | error err => simp [hc]
    | ok n =>
      by_cases hn : n > 0
      · have hne : n ≠ 0 := by omega
        simp [hn, hc, hne]
      · have h0 : n = 0 := by omega
        subst h0
        simp only [hn, if_false, List.mem_cons, forall_eq_or_imp, hc, true_and]
        exact ih

theorem checkReferrers_cons_zero {σ : Type} (ps : SProxySetting) (s : σ)
    (man : IModelManager σ) (rest : List (IModelManager σ))
    (h0 : man.CountByProxySettingId ps.Id s = .ok 0) :
    checkReferrers ps s (man :: rest) =
      ((checkReferrers ps s rest).1, man.KeywordPlural :: (checkReferrers ps s rest).2) := by
  rw [checkReferrers]
  simp only [h0, gt_iff_lt, Nat.lt_irrefl, if_false]

theorem checkReferrers_skip {σ : Type} (ps : SProxySetting) (s : σ)
    (pre rest : List (IModelManager σ))
    (hpre : ∀ x ∈ pre, x.CountByProxySettingId ps.Id s = .ok 0) :
    checkReferrers ps s (pre ++ rest) =
      ((checkReferrers ps s rest).1,
        pre.map (·.KeywordPlural) ++ (checkReferrers ps s rest).2) := by
  induction pre with
  | nil => simp
  | cons man more ih =>
    have h0 := hpre man (List.mem_cons_self _ _)
    have ih1 := ih (fun x hx => hpre x (List.mem_cons_of_mem _ hx))
    rw [List.cons_append, checkReferrers_cons_zero ps s man (more ++ rest) h0, ih1]
    simp

theorem foldl_RegisterReferrer {σ : Type} (men acc : List (IModelManager σ)) :
    men.foldl RegisterReferrer acc = acc ++ men := by
  induction men generalizing acc with
  | nil => simp
  | cons m rest ih => rw [List.foldl_cons, ih]; simp [RegisterReferrer]

/-- C10: `SProxySetting.ValidateDeleteCondition` returns nil exactly when the
setting is not the DIRECT one and every registered referrer reports, without a
query error, zero rows for the setting's id.  The DIRECT setting is refused with
a conflict error and no referrer is queried.  For another setting, the first
referrer in registration order whose count fails or is not zero decides: a
failed count gives an internal error, a non-zero count a resource-busy error
naming that referrer, and no later referrer is queried. -/
theorem ProxySetting_ValidateDeleteCondition_spec {σ : Type} (ProxySettingId_DIRECT : String)
    (men : List (IModelManager σ)) (ps : SProxySetting) (s : σ) :
    ((ps.ValidateDeleteCondition ProxySettingId_DIRECT (men.foldl RegisterReferrer []) s).1 =
        .ok () ↔
      ps.Id ≠ ProxySettingId_DIRECT ∧
        ∀ m ∈ men, m.CountByProxySettingId ps.Id s = .ok 0) ∧
    (ps.Id = ProxySettingId_DIRECT →
      ps.ValidateDeleteCondition ProxySettingId_DIRECT (men.foldl RegisterReferrer []) s =
        (.error (.http .ConflictError "DIRECT setting cannot be deleted"), [])) ∧
    (ps.Id ≠ ProxySettingId_DIRECT →
      ∀ pre m post, men = pre ++ m :: post →
        (∀ x ∈ pre, x.CountByProxySettingId ps.Id s = .ok 0) →
        (∀ err, m.CountByProxySettingId ps.Id s = .error err →
          ps.ValidateDeleteCondition ProxySettingId_DIRECT (men.foldl RegisterReferrer []) s =
            (.error (.http .InternalServerError
              ("get proxysetting refcount fail " ++ err.Error)),
              (pre ++ [m]).map (·.KeywordPlural))) ∧
        (∀ n, m.CountByProxySettingId ps.Id s = .ok n → 0 < n →
          ps.ValidateDeleteCondition ProxySettingId_DIRECT (men.foldl RegisterReferrer []) s =
            (.error (.http .ResourceBusyError
              ("proxysetting " ++ ps.Id ++ " is still referred to by " ++ toString n ++ " " ++
                m.KeywordPlural)),
              (pre ++ [m]).map (·.KeywordPlural)))) := by
  rw [foldl_RegisterReferrer, List.nil_append]
  unfold SProxySetting.ValidateDeleteCondition
  refine ⟨?_, ?_, ?_⟩
  · by_cases hd : ps.Id = ProxySettingId_DIRECT
    · simp [hd]
    · simp only [hd, if_false, ne_eq, not_false_eq_true, true_and]
      exact checkReferrers_ok_iff ps s men
  · intro hd
    simp [hd]
  · intro hd pre m post hmen hpre
    subst hmen
    simp only [hd, if_false]
    rw [checkReferrers_skip ps s pre (m :: post) hpre]
    refine ⟨?_, ?_⟩
    · intro err herr
      unfold checkReferrers
      simp [herr]
    · intro n hn hpos
      unfold checkReferrers
      simp [hn, hpos]


/-! ### Running `SyncVPCs` twice: the in-memory store -/

theorem length_pos_of_ne_empty (x : String) (h : x ≠ "") : 0 < x.length := by
  rcases x with ⟨l⟩
  cases l with
  | nil => exact absurd rfl h
  | cons a rest => simp [String.length]

theorem freshId_length (used : List String) :
    (freshId used).length = (used.map String.length).foldr max 0 + 1 := by
  simp [freshId, String.length]

theorem length_le_foldr_max (used : List String) (x : String) (h : x ∈ used) :
    x.length ≤ (used.map String.length).foldr max 0 := by
  induction used with
  | nil => cases h
  | cons a rest ih =>
    simp only [List.map_cons, List.foldr_cons]
    rcases List.mem_cons.1 h with h1 | h1
    · subst h1; exact Nat.le_max_left _ _
    · exact Nat.le_trans (ih h1) (Nat.le_max_right _ _)

theorem freshId_not_mem (used : List String) : freshId used ∉ used := by
  intro h
  have h1 := length_le_foldr_max used _ h
  rw [freshId_length] at h1
  omega

theorem applyDiff_self (o row : SVpc) : applyDiff o o row = row := by
  cases row
  simp [applyDiff]

theorem applyDiff_orig (o m : SVpc) (h : o.Id = m.Id) : applyDiff o m o = m := by
  cases o; cases m
  simp only [applyDiff] at *
  subst h
  simp only [SVpc.mk.injEq, true_and]
  refine ⟨?_, ?_, ?_, ?_, ?_, ?_, ?_, ?_, ?_, ?_⟩ <;> split_ifs with hh <;> first | rfl | exact hh

theorem applyDiff_Id (o m row : SVpc) : (applyDiff o m row).Id = row.Id := rfl

theorem mapAt_id (i : String) (f : SVpc → SVpc) (rows : List SVpc)
    (h : ∀ row ∈ rows, row.Id = i → f row = row) : mapAt i f rows = rows := by
  unfold mapAt
  conv_rhs => rw [← List.map_id rows]
  apply List.map_congr_left
  intro row hrow
  by_cases hi : row.Id = i
  · simp [hi, h row hrow hi]
  · simp [hi]

theorem mapAt_of_not_mem (i : String) (f : SVpc → SVpc) (rows : List SVpc)
    (h : i ∉ rows.map (·.Id)) : mapAt i f rows = rows := by
  apply mapAt_id
  intro row hrow hi
  exact absurd (hi ▸ List.mem_map_of_mem (·.Id) hrow) h

theorem mapAt_append (i : String) (f : SVpc → SVpc) (rows rows1 : List SVpc) :
    mapAt i f (rows ++ rows1) = mapAt i f rows ++ mapAt i f rows1 := by
  simp [mapAt]

theorem mapAt_ids (i : String) (f : SVpc → SVpc) (rows : List SVpc)
    (hf : ∀ row, (f row).Id = row.Id) : (mapAt i f rows).map (·.Id) = rows.map (·.Id) := by
  unfold mapAt
  rw [List.map_map]
  apply List.map_congr_left
  intro row _
  by_cases hi : row.Id = i
  · simp [hi, hf row]
  · simp [hi]

theorem updateVpc_self (s : Store) (o : SVpc) : s.updateVpc o o = s := by
  unfold Store.updateVpc
  rw [mapAt_id _ _ _ (fun row _ _ => applyDiff_self o row)]

theorem diffColumns_self (o : SVpc) : diffColumns o o = [] := by
  simp [diffColumns]

theorem DepsEq.refl (s : Store) : DepsEq s s := ⟨rfl, rfl, rfl, rfl, rfl⟩

theorem DepsEq.trans {s s1 s2 : Store} (h : DepsEq s s1) (h1 : DepsEq s1 s2) : DepsEq s s2 := by
  obtain ⟨a, b, c, d, e⟩ := h
  obtain ⟨a1, b1, c1, d1, e1⟩ := h1
  exact ⟨a.trans a1, b.trans b1, c.trans c1, d.trans d1, e.trans e1⟩

theorem DepsEq.symm {s s1 : Store} (h : DepsEq s s1) : DepsEq s1 s := by
  obtain ⟨a, b, c, d, e⟩ := h
  exact ⟨a.symm, b.symm, c.symm, d.symm, e.symm⟩

theorem DepsEq_updateVpc (s : Store) (o m : SVpc) : DepsEq s (s.updateVpc o m) :=
  ⟨rfl, rfl, rfl, rfl, rfl⟩

theorem DepsEq_log (s : Store) (entry : String) : DepsEq s (s.log entry) :=
  ⟨rfl, rfl, rfl, rfl, rfl⟩

theorem wiresOf_congr (d : String) (v v1 : SVpc) (s s1 : Store) (hid : v.Id = v1.Id)
    (h : DepsEq s s1) : wiresOf d v s = wiresOf d v1 s1 := by
  unfold wiresOf
  rw [h.1, hid]

theorem filter_length_map {α β : Type} (f : α → β) (p : β → Bool) (l : List α) :
    (l.filter (fun a => p (f a))).length = ((l.map f).filter p).length := by
  induction l with
  | nil => rfl
  | cons a rest ih =>
    simp only [List.filter_cons, List.map_cons]
    by_cases h : p (f a) = true
    · simp [h, ih]
    · simp [h, ih]

theorem networksOf_length_congr (d : String) (v v1 : SVpc) (s s1 : Store) (hid : v.Id = v1.Id)
    (h : DepsEq s s1) : (networksOf d v s).length = (networksOf d v1 s1).length := by
  unfold networksOf
  rw [wiresOf_congr d v v1 s s1 hid h]
  rw [filter_length_map (·.WireId)
      (fun w => decide (w ∈ (wiresOf d v1 s1).map (·.Id))) s.networks,
    filter_length_map (·.WireId)
      (fun w => decide (w ∈ (wiresOf d v1 s1).map (·.Id))) s1.networks, h.2.1]

theorem ValidateDeleteCondition_congr (v v1 : SVpc) (s s1 : Store) (hid : v.Id = v1.Id)
    (h : DepsEq s s1) :
    v.ValidateDeleteCondition memOps s = v1.ValidateDeleteCondition memOps s1 := by
  unfold SVpc.ValidateDeleteCondition
  simp only [memOps]
  rw [networksOf_length_congr "default" v v1 s s1 hid h, h.2.2.1, hid]

theorem GetRegion_congr (v v1 : SVpc) (s s1 : Store) (hr : v.CloudregionId = v1.CloudregionId)
    (h : DepsEq s s1) : memOps.GetRegion v s = memOps.GetRegion v1 s1 := by
  simp only [memOps]
  rw [h.2.2.2.1, hr]


theorem markNetworkUnknown_frame (w : SWire) (s : Store) :
    (memOps.markNetworkUnknown w s).vpcs = s.vpcs ∧ DepsEq s (memOps.markNetworkUnknown w s) := by
  refine ⟨rfl, rfl, ?_, rfl, rfl, rfl⟩
  simp only [memOps, List.map_map]
  apply List.map_congr_left
  intro n _
  by_cases hn : n.WireId = w.Id <;> simp [hn]

theorem markNetworks_foldl_frame (ws : List SWire) (s : Store) :
    (ws.foldl (fun st w => memOps.markNetworkUnknown w st) s).vpcs = s.vpcs ∧
      DepsEq s (ws.foldl (fun st w => memOps.markNetworkUnknown w st) s) := by
  induction ws generalizing s with
  | nil => exact ⟨rfl, DepsEq.refl s⟩
  | cons w rest ih =>
    obtain ⟨h1, h2⟩ := markNetworkUnknown_frame w s
    obtain ⟨h3, h4⟩ := ih (memOps.markNetworkUnknown w s)
    rw [List.foldl_cons]
    exact ⟨h3.trans h1, h2.trans h4⟩

theorem markAllNetworksUnknown_frame (v : SVpc) (s : Store) :
    (v.markAllNetworksUnknown memOps s).vpcs = s.vpcs ∧
      DepsEq s (v.markAllNetworksUnknown memOps s) := by
  unfold SVpc.markAllNetworksUnknown
  cases hw : memOps.GetWires v s with
  | none => exact ⟨rfl, DepsEq.refl s⟩
  | some ws => exact markNetworks_foldl_frame ws s

theorem disabled_of_not_Enabled (v : SVpc) (h : v.Enabled = false) : v.disabled = v := by
  cases v; simp_all [SVpc.disabled]

theorem withStatus_self (v : SVpc) (status : String) (h : v.Status = status) :
    v.withStatus status = v := by
  cases v; simp_all [SVpc.withStatus]

theorem PerformDisable_mem (v : SVpc) (s : Store) :
    memOps.PerformDisable v s =
      (.ok (), v.disabled, if v.Enabled then s.updateVpc v v.disabled else s) := by
  have h : memOps.PerformDisable v s =
      if v.Enabled then (.ok (), v.disabled, s.updateVpc v v.disabled) else (.ok (), v, s) := rfl
  rw [h]
  cases hv : v.Enabled with
  | true => simp
  | false => simp [disabled_of_not_Enabled v hv]

theorem SetStatus_mem (v : SVpc) (status reason : String) (s : Store) :
    (memOps.SetStatus v status reason s).1 = .ok () ∧
    (memOps.SetStatus v status reason s).2.1 = v.withStatus status ∧
    (memOps.SetStatus v status reason s).2.2.vpcs =
      (if v.Status = status then s.vpcs else (s.updateVpc v (v.withStatus status)).vpcs) ∧
    DepsEq s (memOps.SetStatus v status reason s).2.2 := by
  have h : memOps.SetStatus v status reason s =
      if v.Status = status then (.ok (), v, s)
      else
        (.ok (), v.withStatus status,
          (s.updateVpc v (v.withStatus status)).log
            ("update_status " ++ v.Id ++ " " ++ v.Status ++ "=>" ++ status ++ " " ++ reason)) :=
    rfl
  rw [h]
  by_cases hs : v.Status = status
  · simp only [hs, if_true]
    exact ⟨trivial, (withStatus_self v status hs).symm, trivial, DepsEq.refl s⟩
  · simp only [hs, if_false]
    exact ⟨trivial, trivial, rfl, ⟨rfl, rfl, rfl, rfl, rfl⟩⟩

theorem syncRemove_settled (s0 s : Store) (v : SVpc) (hd : DepsEq s0 s) (hs : Settled s0 v) :
    (v.syncRemoveCloudVpc memOps s).2.1.vpcs = s.vpcs ∧
      DepsEq s0 (v.syncRemoveCloudVpc memOps s).2.1 := by
  unfold SVpc.syncRemoveCloudVpc
  by_cases hc : getVpcExternalIdForClassicNetwork v.CloudregionId v.ManagerId = v.ExternalId
  · rw [if_pos hc]; exact ⟨rfl, hd⟩
  · rw [if_neg hc]
    rcases hs with hcl | ⟨⟨e, he⟩, hen, hst⟩
    · exact absurd hcl hc
    · rw [ValidateDeleteCondition_congr v v s0 s rfl hd] at he
      simp only [he]
      obtain ⟨hm1, hm2⟩ := markAllNetworksUnknown_frame v s
      simp only [PerformDisable_mem, hen, Bool.false_eq_true, if_false,
        disabled_of_not_Enabled v hen]
      obtain ⟨_, _, h3, h4⟩ :=
        SetStatus_mem v memOps.VPC_STATUS_UNKNOWN "sync to delete" (v.markAllNetworksUnknown memOps s)
      have hu : memOps.VPC_STATUS_UNKNOWN = "unknown" := rfl
      rw [hu] at h3 h4
      rw [if_pos hst] at h3
      refine ⟨?_, ?_⟩
      · exact h3.trans hm1
      · exact hd.trans (hm2.trans h4)


theorem GlobStable_congr (s s1 : Store) (v v1 : SVpc) (hd : DepsEq s s1)
    (hg : v.GlobalvpcId = v1.GlobalvpcId) (hr : v.CloudregionId = v1.CloudregionId)
    (h : GlobStable s v) : GlobStable s1 v1 := by
  unfold GlobStable at *
  rw [← hg, ← GetRegion_congr v v1 s s1 hr hd]
  exact h

theorem SyncGlobalVpc_stable (s : Store) (v : SVpc) (h : GlobStable s v) :
    v.SyncGlobalVpc memOps s = (.ok (), s) ∨
      ∃ e, v.SyncGlobalVpc memOps s = (.error e, s) := by
  unfold SVpc.SyncGlobalVpc
  by_cases hl : v.GlobalvpcId.length > 0
  · left; rw [if_pos hl]
  · rw [if_neg hl]
    rcases h with h | h
    · exact absurd h hl
    · cases hr : memOps.GetRegion v s with
      | error e => right; exact ⟨_, rfl⟩
      | ok region =>
        left
        simp only [h region hr, Bool.false_eq_true, if_false]

theorem syncFields_of_Synced (v : SVpc) (e : ICloudVpc) (h : Synced v e) : syncFields v e = v := by
  obtain ⟨h1, h2, h3, h4, h5⟩ := h
  cases v
  simp only [syncFields] at *
  simp [h1, h2, h3, h4, h5]

theorem SyncWithCloudVpc_mem (v : SVpc) (e : ICloudVpc) (s : Store) :
    v.SyncWithCloudVpc memOps e s =
      (.ok (), syncFields v e,
        memOps.LogSyncUpdate (syncFields v e) (diffColumns v (syncFields v e))
          (s.updateVpc v (syncFields v e))) := rfl

theorem LogSyncUpdate_frame (v : SVpc) (diff : List String) (s : Store) :
    (memOps.LogSyncUpdate v diff s).vpcs = s.vpcs ∧ DepsEq s (memOps.LogSyncUpdate v diff s) := by
  have hl : memOps.LogSyncUpdate v diff s =
      if diff = [] then s
      else s.log ("sync_update " ++ v.Id ++ " " ++ String.intercalate "," diff) := rfl
  rw [hl]
  by_cases hd : diff = []
  · rw [if_pos hd]; exact ⟨rfl, DepsEq.refl s⟩
  · rw [if_neg hd]; exact ⟨rfl, DepsEq_log _ _⟩

theorem updateStep_stable (s0 : Store) (st : SyncState Store) (pair : SVpc × ICloudVpc)
    (hd : DepsEq s0 st.store) (hs : Synced pair.1 pair.2) (hg : GlobStable s0 pair.1) :
    (updateStep memOps st pair).store.vpcs = st.store.vpcs ∧
      DepsEq s0 (updateStep memOps st pair).store := by
  unfold updateStep
  rw [SyncWithCloudVpc_mem, syncFields_of_Synced _ _ hs, updateVpc_self, diffColumns_self]
  have hl : memOps.LogSyncUpdate pair.1 [] st.store = st.store := by simp [memOps]
  have hm : ∀ x, memOps.syncMetadata pair.1 pair.2 x = x := fun _ => rfl
  simp only [hl, hm]
  rcases SyncGlobalVpc_stable st.store pair.1 (GlobStable_congr s0 st.store _ _ hd rfl rfl hg)
    with h | ⟨e, h⟩
  · rw [h]; exact ⟨rfl, hd⟩
  · rw [h]; exact ⟨rfl, hd⟩

theorem remove_foldl_stable (s0 : Store) (removed : List SVpc) (st : SyncState Store)
    (hd : DepsEq s0 st.store) (hs : ∀ v ∈ removed, Settled s0 v) :
    (removed.foldl (removeStep memOps) st).store.vpcs = st.store.vpcs ∧
      DepsEq s0 (removed.foldl (removeStep memOps) st).store := by
  induction removed generalizing st with
  | nil => exact ⟨rfl, hd⟩
  | cons v rest ih =>
    obtain ⟨h1, h2⟩ := syncRemove_settled s0 st.store v hd (hs v (List.mem_cons_self _ _))
    have hstore : (removeStep memOps st v).store = (v.syncRemoveCloudVpc memOps st.store).2.1 := by
      unfold removeStep
      rcases hr : v.syncRemoveCloudVpc memOps st.store with ⟨r, s1, cs⟩
      cases r <;> rfl
    rw [← hstore] at h1 h2
    obtain ⟨h3, h4⟩ := ih (removeStep memOps st v) h2
      (fun x hx => hs x (List.mem_cons_of_mem _ hx))
    rw [List.foldl_cons]
    exact ⟨h3.trans h1, h4⟩

theorem update_foldl_stable (s0 : Store) (common : List (SVpc × ICloudVpc))
    (st : SyncState Store) (hd : DepsEq s0 st.store)
    (hs : ∀ pr ∈ common, Synced pr.1 pr.2 ∧ GlobStable s0 pr.1) :
    (common.foldl (updateStep memOps) st).store.vpcs = st.store.vpcs ∧
      DepsEq s0 (common.foldl (updateStep memOps) st).store := by
  induction common generalizing st with
  | nil => exact ⟨rfl, hd⟩
  | cons pr rest ih =>
    obtain ⟨hsy, hgl⟩ := hs pr (List.mem_cons_self _ _)
    obtain ⟨h1, h2⟩ := updateStep_stable s0 st pr hd hsy hgl
    obtain ⟨h3, h4⟩ := ih (updateStep memOps st pr) h2
      (fun x hx => hs x (List.mem_cons_of_mem _ hx))
    rw [List.foldl_cons]
    exact ⟨h3.trans h1, h4⟩

/-- A partition on which the three loops of `SyncVPCs` have nothing left to
do. -/
theorem applyPartition_stable (provider : SCloudprovider) (region : SCloudregion)
    (p : Partition) (s : Store) (hadd : p.added = [])
    (hrem : ∀ v ∈ p.removed, Settled s v)
    (hcom : ∀ pr ∈ p.common, Synced pr.1 pr.2 ∧ GlobStable s pr.1) :
    (applyPartition memOps provider region p s).store.vpcs = s.vpcs := by
  unfold applyPartition
  rw [hadd, List.foldl_nil]
  obtain ⟨h1, h2⟩ := remove_foldl_stable s p.removed
    { localVPCs := [], remoteVPCs := [], syncResult := SyncResult.zero, store := s, calls := [] }
    (DepsEq.refl s) hrem
  obtain ⟨h3, _⟩ := update_foldl_stable s p.common _ h2 hcom
  exact h3.trans h1


theorem mapAt_congr (i : String) (f g : SVpc → SVpc) (rows : List SVpc)
    (h : ∀ row ∈ rows, row.Id = i → f row = g row) : mapAt i f rows = mapAt i g rows := by
  unfold mapAt
  apply List.map_congr_left
  intro row hrow
  by_cases hi : row.Id = i
  · simp [hi, h row hrow hi]
  · simp [hi]

theorem mapAt_mapAt (i : String) (f g : SVpc → SVpc) (rows : List SVpc)
    (hf : ∀ row, row.Id = i → (f row).Id = i) :
    mapAt i g (mapAt i f rows) = mapAt i (fun row => g (f row)) rows := by
  unfold mapAt
  rw [List.map_map]
  apply List.map_congr_left
  intro row _
  by_cases hi : row.Id = i
  · simp [hi, hf row hi]
  · simp [hi]

theorem filter_mapAt (i : String) (f : SVpc → SVpc) (rows : List SVpc)
    (hf : ∀ row, (f row).Id = row.Id) :
    (mapAt i f rows).filter (fun row => decide (row.Id ≠ i)) =
      rows.filter (fun row => decide (row.Id ≠ i)) := by
  induction rows with
  | nil => rfl
  | cons a rest ih =>
    simp only [mapAt, List.map_cons] at ih ⊢
    by_cases hi : a.Id = i
    · simp only [hi, if_true, List.filter_cons, hf a, ne_eq, not_true_eq_false, decide_False,
        Bool.false_eq_true, if_false]
      exact ih
    · simp only [hi, if_false, List.filter_cons, ne_eq, not_false_eq_true, decide_True, if_true]
      rw [ih]

theorem RowsEvolve_refl (Fin : SVpc → Option SVpc → Prop) (rows : List SVpc) :
    RowsEvolve (Pending Fin []) rows rows := by
  induction rows with
  | nil => exact RowsEvolve.nil
  | cons a rest ih =>
    exact RowsEvolve.keep ⟨fun h => absurd h (List.not_mem_nil _), fun _ => rfl⟩ ih

theorem RowsEvolve_coherent (Fin : SVpc → Option SVpc → Prop) (done : List SVpc) (v : SVpc)
    (hFin : ∀ row x, Fin row (some x) → x.Id = row.Id) (hv : v ∉ done)
    (rows rows1 : List SVpc) (h : RowsEvolve (Pending Fin done) rows rows1)
    (huniq : ∀ a ∈ rows, a.Id = v.Id → a = v) :
    ∀ b ∈ rows1, b.Id = v.Id → b = v := by
  induction h with
  | nil => intro b hb; cases hb
  | @keep a b rows rows1 hR _ ih =>
    intro x hx hid
    rcases List.mem_cons.1 hx with hx1 | hx1
    · rw [hx1] at hid ⊢
      by_cases ha : a ∈ done
      · have hxa : b.Id = a.Id := hFin a b (hR.1 ha)
        have : a = v := huniq a (List.mem_cons_self _ _) (hxa ▸ hid)
        exact absurd (this ▸ ha) hv
      · have hba : b = a := Option.some.inj (hR.2 ha)
        rw [hba] at hid ⊢
        exact huniq a (List.mem_cons_self _ _) hid
    · exact ih (fun a ha => huniq a (List.mem_cons_of_mem _ ha)) x hx1 hid
  | @drop a rows rows1 _ _ ih =>
    exact ih (fun a ha => huniq a (List.mem_cons_of_mem _ ha))

theorem RowsEvolve_mapAt (Fin : SVpc → Option SVpc → Prop) (done : List SVpc) (v x : SVpc)
    (hFin : ∀ row y, Fin row (some y) → y.Id = row.Id) (hv : v ∉ done)
    (hx : Fin v (some x))
    (rows rows1 : List SVpc) (h : RowsEvolve (Pending Fin done) rows rows1)
    (huniq : ∀ a ∈ rows, a.Id = v.Id → a = v) :
    RowsEvolve (Pending Fin (v :: done)) rows (mapAt v.Id (fun _ => x) rows1) := by
  induction h with
  | nil => exact RowsEvolve.nil
  | @keep a b rows rows1 hR _ ih =>
    have ih1 := ih (fun a ha => huniq a (List.mem_cons_of_mem _ ha))
    by_cases hav : a = v
    · subst hav
      have hb : b = a := by
        have := hR.2 hv
        cases this; rfl
      subst hb
      have : mapAt b.Id (fun _ => x) (b :: rows1) = x :: mapAt b.Id (fun _ => x) rows1 := by
        simp [mapAt]
      rw [this]
      exact RowsEvolve.keep ⟨fun _ => hx, fun hn => absurd (List.mem_cons_self _ _) hn⟩ ih1
    · have hbid : b.Id = a.Id := by
        by_cases ha : a ∈ done
        · exact hFin a b (hR.1 ha)
        · have := hR.2 ha
          cases this; rfl
      have hne : b.Id ≠ v.Id := fun hid =>
        hav (huniq a (List.mem_cons_self _ _) (hbid ▸ hid))
      have : mapAt v.Id (fun _ => x) (b :: rows1) = b :: mapAt v.Id (fun _ => x) rows1 := by
        simp [mapAt, hne]
      rw [this]
      refine RowsEvolve.keep ⟨fun hm => ?_, fun hn => ?_⟩ ih1
      · rcases List.mem_cons.1 hm with h1 | h1
        · exact absurd h1 hav
        · exact hR.1 h1
      · exact hR.2 (fun hd => hn (List.mem_cons_of_mem _ hd))
  | @drop a rows rows1 hR _ ih =>
    have ih1 := ih (fun a ha => huniq a (List.mem_cons_of_mem _ ha))
    have ha : a ∈ done := by
      by_contra hn
      have := hR.2 hn
      cases this
    refine RowsEvolve.drop ⟨fun _ => hR.1 ha, fun hn => ?_⟩ ih1
    exact absurd (List.mem_cons_of_mem _ ha) hn

theorem RowsEvolve_filter (Fin : SVpc → Option SVpc → Prop) (done : List SVpc) (v : SVpc)
    (hFin : ∀ row y, Fin row (some y) → y.Id = row.Id) (hv : v ∉ done)
    (hx : Fin v none)
    (rows rows1 : List SVpc) (h : RowsEvolve (Pending Fin done) rows rows1)
    (huniq : ∀ a ∈ rows, a.Id = v.Id → a = v) :
    RowsEvolve (Pending Fin (v :: done)) rows
      (rows1.filter (fun row => decide (row.Id ≠ v.Id))) := by
  induction h with
  | nil => exact RowsEvolve.nil
  | @keep a b rows rows1 hR _ ih =>
    have ih1 := ih (fun a ha => huniq a (List.mem_cons_of_mem _ ha))
    by_cases hav : a = v
    · subst hav
      have hb : b = a := by
        have := hR.2 hv
        cases this; rfl
      subst hb
      have : (b :: rows1).filter (fun row => decide (row.Id ≠ b.Id)) =
          rows1.filter (fun row => decide (row.Id ≠ b.Id)) := by
        simp [List.filter_cons]
      rw [this]
      exact RowsEvolve.drop ⟨fun _ => hx, fun hn => absurd (List.mem_cons_self _ _) hn⟩ ih1
    · have hbid : b.Id = a.Id := by
        by_cases ha : a ∈ done
        · exact hFin a b (hR.1 ha)
        · have := hR.2 ha
          cases this; rfl
      have hne : b.Id ≠ v.Id := fun hid =>
        hav (huniq a (List.mem_cons_self _ _) (hbid ▸ hid))
      have : (b :: rows1).filter (fun row => decide (row.Id ≠ v.Id)) =
          b :: rows1.filter (fun row => decide (row.Id ≠ v.Id)) := by
        simp [List.filter_cons, hne]
      rw [this]
      refine RowsEvolve.keep ⟨fun hm => ?_, fun hn => ?_⟩ ih1
      · rcases List.mem_cons.1 hm with h1 | h1
        · exact absurd h1 hav
        · exact hR.1 h1
      · exact hR.2 (fun hd => hn (List.mem_cons_of_mem _ hd))
  | @drop a rows rows1 hR _ ih =>
    have ih1 := ih (fun a ha => huniq a (List.mem_cons_of_mem _ ha))
    have ha : a ∈ done := by
      by_contra hn
      have := hR.2 hn
      cases this
    refine RowsEvolve.drop ⟨fun _ => hR.1 ha, fun hn => ?_⟩ ih1
    exact absurd (List.mem_cons_of_mem _ ha) hn


theorem ValidateDeleteCondition_ok_natgateways (v : SVpc) (s : Store)
    (h : v.ValidateDeleteCondition memOps s = .ok ()) :
    s.natgateways.filter (fun n => decide (n.VpcId = v.Id)) = [] := by
  unfold SVpc.ValidateDeleteCondition at h
  have hn : memOps.GetNetworkCount v s = .ok (networksOf "default" v s).length := rfl
  have hg : memOps.GetNatgatewayCount v s =
      .ok (s.natgateways.filter (fun n => decide (n.VpcId = v.Id))).length := rfl
  rw [hn] at h
  simp only [hg] at h
  by_cases h1 : (networksOf "default" v s).length > 0
  · simp only [h1, if_true] at h; cases h
  · simp only [h1, if_false] at h
    by_cases h2 : (s.natgateways.filter (fun n => decide (n.VpcId = v.Id))).length > 0
    · simp only [h2, if_true] at h; cases h
    · exact List.length_eq_zero.1 (by omega)

theorem deleteRouteTables_mem (routes : List SRouteTable) (s : Store) :
    (deleteRouteTables memOps routes s).1 = .ok () ∧
    (deleteRouteTables memOps routes s).2.vpcs = s.vpcs ∧
    DepsEq s (deleteRouteTables memOps routes s).2 := by
  induction routes generalizing s with
  | nil => exact ⟨rfl, rfl, DepsEq.refl s⟩
  | cons r rest ih =>
    have hstep : deleteRouteTables memOps (r :: rest) s =
        deleteRouteTables memOps rest
          { s with routetables := s.routetables.filter (fun x => decide (x.Id ≠ r.Id)) } := rfl
    rw [hstep]
    obtain ⟨h1, h2, h3⟩ := ih
      { s with routetables := s.routetables.filter (fun x => decide (x.Id ≠ r.Id)) }
    exact ⟨h1, h2, DepsEq.trans ⟨rfl, rfl, rfl, rfl, rfl⟩ h3⟩

theorem RealDelete_mem (v : SVpc) (s : Store)
    (hok : v.ValidateDeleteCondition memOps s = .ok ()) :
    (v.RealDelete memOps s).2.vpcs = s.vpcs.filter (fun row => decide (row.Id ≠ v.Id)) ∧
      DepsEq s (v.RealDelete memOps s).2 := by
  have hnat := ValidateDeleteCondition_ok_natgateways v s hok
  unfold SVpc.RealDelete
  obtain ⟨_, hself, hvpcs, hdeps⟩ :=
    SetStatus_mem v memOps.VPC_STATUS_DELETED "real delete" (memOps.LogEvent v "delocate" s)
  have hlog : DepsEq s (memOps.LogEvent v "delocate" s) := DepsEq_log _ _
  have hlogv : (memOps.LogEvent v "delocate" s).vpcs = s.vpcs := rfl
  rcases hst : memOps.SetStatus v memOps.VPC_STATUS_DELETED "real delete"
      (memOps.LogEvent v "delocate" s) with ⟨r, self1, s2⟩
  rw [hst] at hself hvpcs hdeps
  simp only at hself hvpcs hdeps ⊢
  have hid : self1.Id = v.Id := by rw [hself]; rfl
  obtain ⟨hr1, hr2, hr3⟩ := deleteRouteTables_mem (memOps.GetRouteTables self1 s2) s2
  rcases hdr : deleteRouteTables memOps (memOps.GetRouteTables self1 s2) s2 with ⟨r3, s3⟩
  rw [hdr] at hr1 hr2 hr3
  simp only at hr1 hr2 hr3
  subst hr1
  have hd3 : DepsEq s s3 := hlog.trans (hdeps.trans hr3)
  have hgn : memOps.GetNatgateways self1 s3 = .ok [] := by
    have : memOps.GetNatgateways self1 s3 =
        .ok (s3.natgateways.filter (fun n => decide (n.VpcId = self1.Id))) := rfl
    rw [this, ← hd3.2.2.1, hid, hnat]
  have hdn : deleteNatgateways memOps [] s3 = (.ok (), s3) := rfl
  have hbd : memOps.baseDelete self1 s3 =
      (.ok (), { s3 with vpcs := s3.vpcs.filter (fun row => decide (row.Id ≠ self1.Id)) }) := rfl
  simp only [hgn, hdn, hbd]
  refine ⟨?_, ?_⟩
  · rw [hr2, hvpcs, hid, hlogv]
    by_cases hs : v.Status = memOps.VPC_STATUS_DELETED
    · rw [if_pos hs]
    · rw [if_neg hs]
      exact filter_mapAt v.Id _ s.vpcs (fun row => applyDiff_Id _ _ row)
  · exact hd3.trans ⟨rfl, rfl, rfl, rfl, rfl⟩


theorem retained_congr (s s1 : Store) (v : SVpc) (h : DepsEq s s1) :
    retained s v = retained s1 v := by
  unfold retained
  rw [ValidateDeleteCondition_congr v v s s1 rfl h]

theorem syncRemove_effect (s0 s : Store) (v : SVpc) (hd : DepsEq s0 s)
    (hco : ∀ b ∈ s.vpcs, b.Id = v.Id → b = v) :
    (v.syncRemoveCloudVpc memOps s).2.1.vpcs =
      (if retained s0 v then mapAt v.Id (fun _ => settle v) s.vpcs
       else s.vpcs.filter (fun row => decide (row.Id ≠ v.Id))) ∧
      DepsEq s0 (v.syncRemoveCloudVpc memOps s).2.1 := by
  rw [retained_congr s0 s v hd]
  unfold SVpc.syncRemoveCloudVpc
  by_cases hc : getVpcExternalIdForClassicNetwork v.CloudregionId v.ManagerId = v.ExternalId
  · have hcl : Classic v := hc
    have hr : retained s v = true := by simp [retained, hcl]
    have hs : settle v = v := by simp [settle, hcl]
    rw [if_pos hc, hr, hs]
    refine ⟨?_, hd⟩
    simp only [if_true]
    exact (mapAt_id _ _ _ (fun row hrow hid => (hco row hrow hid).symm)).symm
  · rw [if_neg hc]
    have hcl : ¬ Classic v := hc
    cases hv : v.ValidateDeleteCondition memOps s with
    | ok u =>
      have hr : retained s v = false := by simp [retained, hcl, hv]
      obtain ⟨h1, h2⟩ := RealDelete_mem v s (by cases u; exact hv)
      rw [hr]
      simp only [Bool.false_eq_true, if_false]
      exact ⟨h1, hd.trans h2⟩
    | error e =>
      have hr : retained s v = true := by simp [retained, hv]
      have hs : settle v = v.disabled.withStatus "unknown" := by simp [settle, hcl]
      obtain ⟨hm1, hm2⟩ := markAllNetworksUnknown_frame v s
      rw [hr, hs]
      simp only [PerformDisable_mem, if_true]
      have hB : ∀ sB : Store, sB = (if v.Enabled = true then
            (v.markAllNetworksUnknown memOps s).updateVpc v v.disabled
          else v.markAllNetworksUnknown memOps s) →
          sB.vpcs = mapAt v.Id (fun _ => v.disabled) s.vpcs ∧ DepsEq s sB := by
        intro sB hsB
        by_cases hen : v.Enabled = true
        · rw [if_pos hen] at hsB
          subst hsB
          refine ⟨?_, hm2.trans (DepsEq_updateVpc _ _ _)⟩
          simp only [Store.updateVpc, hm1]
          apply mapAt_congr
          intro row hrow hid
          rw [hco row hrow hid]
          exact applyDiff_orig v v.disabled rfl
        · rw [if_neg hen] at hsB
          subst hsB
          refine ⟨?_, hm2⟩
          rw [hm1, disabled_of_not_Enabled v (by simpa using hen)]
          exact (mapAt_id _ _ _ (fun row hrow hid => (hco row hrow hid).symm)).symm
      generalize (if v.Enabled = true then
            (v.markAllNetworksUnknown memOps s).updateVpc v v.disabled
          else v.markAllNetworksUnknown memOps s) = sB at hB ⊢
      obtain ⟨hB1, hB2⟩ := hB sB rfl
      obtain ⟨_, _, h3, h4⟩ :=
        SetStatus_mem v.disabled memOps.VPC_STATUS_UNKNOWN "sync to delete" sB
      have hu : memOps.VPC_STATUS_UNKNOWN = "unknown" := rfl
      rw [hu] at h3
      refine ⟨Eq.trans h3 ?_, hd.trans (hB2.trans h4)⟩
      by_cases hst : v.disabled.Status = "unknown"
      · rw [if_pos hst, hB1, withStatus_self _ _ hst]
      · rw [if_neg hst]
        simp only [Store.updateVpc, hB1]
        show mapAt v.Id _ _ = _
        rw [mapAt_mapAt v.Id (fun _ => v.disabled) _ s.vpcs (fun _ _ => rfl)]
        apply mapAt_congr
        intro row _ _
        exact applyDiff_orig _ _ rfl

theorem withGlobalvpc_self (v : SVpc) : v.withGlobalvpc v.GlobalvpcId = v := by
  cases v; rfl

theorem SyncGlobalVpc_effect (s : Store) (self : SVpc)
    (hco : ∀ b ∈ s.vpcs, b.Id = self.Id → b = self) :
    ∃ g, (self.SyncGlobalVpc memOps s).2.vpcs =
        mapAt self.Id (fun _ => self.withGlobalvpc g) s.vpcs ∧
      GlobStable s (self.withGlobalvpc g) ∧ DepsEq s (self.SyncGlobalVpc memOps s).2 := by
  have hsame : mapAt self.Id (fun _ => self.withGlobalvpc self.GlobalvpcId) s.vpcs = s.vpcs := by
    rw [withGlobalvpc_self]
    exact mapAt_id _ _ _ (fun row hrow hid => (hco row hrow hid).symm)
  have hupd : ∀ (g : String) (s1 : Store), s1.vpcs = s.vpcs →
      (s1.updateVpc self (self.withGlobalvpc g)).vpcs =
        mapAt self.Id (fun _ => self.withGlobalvpc g) s.vpcs := by
    intro g s1 h1
    simp only [Store.updateVpc, h1]
    apply mapAt_congr
    intro row hrow hid
    rw [hco row hrow hid]
    exact applyDiff_orig _ _ rfl
  unfold SVpc.SyncGlobalVpc
  by_cases hl : self.GlobalvpcId.length > 0
  · rw [if_pos hl]
    refine ⟨self.GlobalvpcId, hsame.symm, Or.inl ?_, DepsEq.refl s⟩
    rw [withGlobalvpc_self]; exact hl
  · rw [if_neg hl]
    cases hr : memOps.GetRegion self s with
    | error e =>
      refine ⟨self.GlobalvpcId, hsame.symm, Or.inr ?_, DepsEq.refl s⟩
      intro r hr1
      rw [withGlobalvpc_self, hr] at hr1
      cases hr1
    | ok region =>
      by_cases hb : region.vpcBelongGlobalVpc = true
      · simp only [hb, if_true]
        have hsib : ∀ x, memOps.FetchGlobalVpcSiblings self x s =
            .ok (s.vpcs.filter (fun row =>
              decide (row.ManagerId = self.ManagerId) && decide (row.GlobalvpcId ≠ "") &&
                row.ExternalId.endsWith x)) := fun _ => rfl
        rw [hsib]
        cases hf : s.vpcs.filter (fun row =>
              decide (row.ManagerId = self.ManagerId) && decide (row.GlobalvpcId ≠ "") &&
                row.ExternalId.endsWith
                  (self.ExternalId.replace (region.ExternalId ++ "/") "")) with
        | cons v rest =>
          have hv : v ∈ s.vpcs.filter (fun row =>
              decide (row.ManagerId = self.ManagerId) && decide (row.GlobalvpcId ≠ "") &&
                row.ExternalId.endsWith
                  (self.ExternalId.replace (region.ExternalId ++ "/") "")) := by
            rw [hf]; exact List.mem_cons_self _ _
          have hvg : v.GlobalvpcId ≠ "" := by
            have := (List.mem_filter.1 hv).2
            simp only [Bool.and_eq_true, decide_eq_true_eq] at this
            exact this.1.2
          refine ⟨v.GlobalvpcId, hupd v.GlobalvpcId s rfl,
            Or.inl (length_pos_of_ne_empty _ hvg), DepsEq_updateVpc _ _ _⟩
        | nil =>
          refine ⟨freshId (s.globalvpcs.map (fun x : SGlobalVpc => x.Id)), hupd _ _ rfl,
            Or.inl ?_, ⟨rfl, rfl, rfl, rfl, rfl⟩⟩
          show 0 < (freshId (s.globalvpcs.map (fun x : SGlobalVpc => x.Id))).length
          rw [freshId_length]; omega
      · simp only [hb, if_false]
        refine ⟨self.GlobalvpcId, hsame.symm, Or.inr ?_, DepsEq.refl s⟩
        intro r hr1
        rw [withGlobalvpc_self, hr] at hr1
        cases hr1
        simpa using hb


theorem mapAt_const_coherent (i : String) (x : SVpc) (rows : List SVpc) :
    ∀ b ∈ mapAt i (fun _ => x) rows, b.Id = i → b = x := by
  intro b hb hid
  unfold mapAt at hb
  obtain ⟨row, _, hrow⟩ := List.mem_map.1 hb
  by_cases hi : row.Id = i
  · rw [if_pos hi] at hrow; exact hrow.symm
  · rw [if_neg hi] at hrow; rw [← hrow] at hid; exact absurd hid hi

theorem updateStep_store (st : SyncState Store) (pair : SVpc × ICloudVpc) :
    (updateStep memOps st pair).store =
      ((syncFields pair.1 pair.2).SyncGlobalVpc memOps
        (memOps.LogSyncUpdate (syncFields pair.1 pair.2)
          (diffColumns pair.1 (syncFields pair.1 pair.2))
          (st.store.updateVpc pair.1 (syncFields pair.1 pair.2)))).2 := by
  unfold updateStep
  rw [SyncWithCloudVpc_mem]
  rfl

theorem updateStep_effect (s0 : Store) (st : SyncState Store) (pair : SVpc × ICloudVpc)
    (hd : DepsEq s0 st.store)
    (hco : ∀ b ∈ st.store.vpcs, b.Id = pair.1.Id → b = pair.1) :
    ∃ c, (updateStep memOps st pair).store.vpcs =
        mapAt pair.1.Id (fun _ => c) st.store.vpcs ∧
      c.Id = pair.1.Id ∧ c.CloudregionId = pair.1.CloudregionId ∧
      c.ManagerId = pair.1.ManagerId ∧ Synced c pair.2 ∧ GlobStable s0 c ∧
      DepsEq s0 (updateStep memOps st pair).store := by
  rw [updateStep_store]
  obtain ⟨hl1, hl2⟩ := LogSyncUpdate_frame (syncFields pair.1 pair.2)
    (diffColumns pair.1 (syncFields pair.1 pair.2))
    (st.store.updateVpc pair.1 (syncFields pair.1 pair.2))
  have hv1 : (memOps.LogSyncUpdate (syncFields pair.1 pair.2)
      (diffColumns pair.1 (syncFields pair.1 pair.2))
      (st.store.updateVpc pair.1 (syncFields pair.1 pair.2))).vpcs =
      mapAt pair.1.Id (fun _ => syncFields pair.1 pair.2) st.store.vpcs := by
    rw [hl1]
    simp only [Store.updateVpc]
    apply mapAt_congr
    intro row hrow hid
    rw [hco row hrow hid]
    exact applyDiff_orig _ _ rfl
  have hd1 : DepsEq s0 (memOps.LogSyncUpdate (syncFields pair.1 pair.2)
      (diffColumns pair.1 (syncFields pair.1 pair.2))
      (st.store.updateVpc pair.1 (syncFields pair.1 pair.2))) :=
    hd.trans ((DepsEq_updateVpc _ _ _).trans hl2)
  generalize memOps.LogSyncUpdate (syncFields pair.1 pair.2)
      (diffColumns pair.1 (syncFields pair.1 pair.2))
      (st.store.updateVpc pair.1 (syncFields pair.1 pair.2)) = s1 at hv1 hd1 ⊢
  have hco1 : ∀ b ∈ s1.vpcs, b.Id = (syncFields pair.1 pair.2).Id →
      b = syncFields pair.1 pair.2 := by
    rw [hv1]
    exact mapAt_const_coherent _ _ _
  obtain ⟨g, hg1, hg2, hg3⟩ := SyncGlobalVpc_effect s1 (syncFields pair.1 pair.2) hco1
  refine ⟨(syncFields pair.1 pair.2).withGlobalvpc g, ?_, rfl, rfl, rfl,
    ⟨rfl, rfl, rfl, rfl, rfl⟩, GlobStable_congr s1 s0 _ _ hd1.symm rfl rfl hg2, hd1.trans hg3⟩
  rw [hg1, hv1]
  show mapAt pair.1.Id _ (mapAt pair.1.Id _ _) = _
  rw [mapAt_mapAt pair.1.Id (fun _ => syncFields pair.1 pair.2) _ st.store.vpcs
    (fun _ _ => rfl)]


theorem newFromCloudVpc_mem (ext : ICloudVpc) (provider : SCloudprovider)
    (region : SCloudregion) (s : Store) :
    newFromCloudVpc memOps ext provider region s =
      (.ok (newRow ext provider region s),
        ({ s with vpcs := s.vpcs ++ [newRow ext provider region s] } : Store).log
          ("create " ++ (newRow ext provider region s).Id)) := by
  unfold newFromCloudVpc
  have hg : memOps.GenerateName ext.Name s = .ok (generateName (s.vpcs.map (·.Name)) ext.Name) :=
    rfl
  rw [hg]
  rfl

theorem addStep_store (provider : SCloudprovider) (region : SCloudregion)
    (st : SyncState Store) (ext : ICloudVpc) :
    (addStep memOps provider region st ext).store =
      ((newRow ext provider region st.store).SyncGlobalVpc memOps
        (({ st.store with vpcs := st.store.vpcs ++ [newRow ext provider region st.store] }
          : Store).log ("create " ++ (newRow ext provider region st.store).Id))).2 := by
  unfold addStep
  rw [newFromCloudVpc_mem]
  rfl

theorem addStep_effect (s0 : Store) (provider : SCloudprovider) (region : SCloudregion)
    (st : SyncState Store) (ext : ICloudVpc) (hd : DepsEq s0 st.store) :
    ∃ n, (addStep memOps provider region st ext).store.vpcs = st.store.vpcs ++ [n] ∧
      Synced n ext ∧ inScope provider region n = true ∧ GlobStable s0 n ∧
      DepsEq s0 (addStep memOps provider region st ext).store := by
  rw [addStep_store]
  have hfresh : (newRow ext provider region st.store).Id ∉ st.store.vpcs.map (·.Id) :=
    freshId_not_mem _
  have hco : ∀ b ∈ (({ st.store with
      vpcs := st.store.vpcs ++ [newRow ext provider region st.store] } : Store).log
        ("create " ++ (newRow ext provider region st.store).Id)).vpcs,
      b.Id = (newRow ext provider region st.store).Id →
        b = newRow ext provider region st.store := by
    intro b hb hid
    have hb1 : b ∈ st.store.vpcs ++ [newRow ext provider region st.store] := hb
    rcases List.mem_append.1 hb1 with h | h
    · exact absurd (hid ▸ List.mem_map_of_mem (·.Id) h) hfresh
    · exact List.mem_singleton.1 h
  obtain ⟨g, hg1, hg2, hg3⟩ := SyncGlobalVpc_effect _ _ hco
  have hd1 : DepsEq s0 (({ st.store with
      vpcs := st.store.vpcs ++ [newRow ext provider region st.store] } : Store).log
        ("create " ++ (newRow ext provider region st.store).Id)) :=
    hd.trans ⟨rfl, rfl, rfl, rfl, rfl⟩
  refine ⟨(newRow ext provider region st.store).withGlobalvpc g, ?_,
    ⟨rfl, rfl, rfl, rfl, rfl⟩, ?_, GlobStable_congr _ s0 _ _ hd1.symm rfl rfl hg2,
    hd1.trans hg3⟩
  · rw [hg1]
    show mapAt _ _ (st.store.vpcs ++ [newRow ext provider region st.store]) = _
    rw [mapAt_append, mapAt_of_not_mem _ _ _ hfresh]
    simp [mapAt]
  · simp [inScope, SVpc.withGlobalvpc, newRow]


theorem RowsEvolve_mono {R R1 : SVpc → Option SVpc → Prop} (hR : ∀ a out, R a out → R1 a out)
    (rows rows1 : List SVpc) (h : RowsEvolve R rows rows1) : RowsEvolve R1 rows rows1 := by
  induction h with
  | nil => exact RowsEvolve.nil
  | keep h1 _ ih => exact RowsEvolve.keep (hR _ _ h1) ih
  | drop h1 _ ih => exact RowsEvolve.drop (hR _ _ h1) ih

theorem Pending_congr (Fin : SVpc → Option SVpc → Prop) (d1 d2 : List SVpc)
    (h : ∀ x, x ∈ d1 ↔ x ∈ d2) (a : SVpc) (out : Option SVpc)
    (hp : Pending Fin d1 a out) : Pending Fin d2 a out :=
  ⟨fun hm => hp.1 ((h a).2 hm), fun hn => hp.2 (fun hm => hn ((h a).1 hm))⟩

theorem settle_Id (v : SVpc) : (settle v).Id = v.Id := by
  unfold settle
  by_cases h : Classic v
  · rw [if_pos h]
  · rw [if_neg h]; rfl

theorem FirstRun_Id (p : Partition) (s : Store) (row y : SVpc)
    (h : FirstRun p s row (some y)) : y.Id = row.Id := by
  rcases h with ⟨_, h⟩ | ⟨e, c, _, hc, hid, _⟩
  · by_cases hr : retained s row = true
    · rw [if_pos hr] at h
      cases h
      exact settle_Id row
    · rw [if_neg hr] at h
      cases h
  · cases hc
    exact hid

theorem removeStep_store (st : SyncState Store) (v : SVpc) :
    (removeStep memOps st v).store = (v.syncRemoveCloudVpc memOps st.store).2.1 := by
  unfold removeStep
  rcases hr : v.syncRemoveCloudVpc memOps st.store with ⟨r, s1, cs⟩
  cases r <;> rfl

theorem remove_foldl_run1 (s0 : Store) (p : Partition) (T : List SVpc)
    (huniq : ∀ a ∈ T, ∀ b ∈ T, a.Id = b.Id → a = b) (rest : List SVpc) :
    ∀ (done : List SVpc) (st : SyncState Store),
      (∀ v ∈ rest, v ∈ T ∧ v ∈ p.removed) → rest.Nodup → (∀ v ∈ rest, v ∉ done) →
      RowsEvolve (Pending (FirstRun p s0) done) T st.store.vpcs → DepsEq s0 st.store →
      RowsEvolve (Pending (FirstRun p s0) (rest ++ done)) T
          (rest.foldl (removeStep memOps) st).store.vpcs ∧
        DepsEq s0 (rest.foldl (removeStep memOps) st).store := by
  induction rest with
  | nil => intro done st _ _ _ hE hd; exact ⟨hE, hd⟩
  | cons v more ih =>
    intro done st hmem hnd hdone hE hd
    obtain ⟨hvT, hvR⟩ := hmem v (List.mem_cons_self _ _)
    have hvd : v ∉ done := hdone v (List.mem_cons_self _ _)
    have hu : ∀ a ∈ T, a.Id = v.Id → a = v := fun a ha hid => huniq a ha v hvT hid
    have hco := RowsEvolve_coherent (FirstRun p s0) done v (FirstRun_Id p s0) hvd T _ hE hu
    obtain ⟨h1, h2⟩ := syncRemove_effect s0 st.store v hd hco
    rw [← removeStep_store] at h1 h2
    have hE1 : RowsEvolve (Pending (FirstRun p s0) (v :: done)) T
        (removeStep memOps st v).store.vpcs := by
      rw [h1]
      by_cases hr : retained s0 v = true
      · rw [if_pos hr]
        exact RowsEvolve_mapAt _ done v (settle v) (FirstRun_Id p s0) hvd
          (Or.inl ⟨hvR, by rw [if_pos hr]⟩) T _ hE hu
      · rw [if_neg hr]
        exact RowsEvolve_filter _ done v (FirstRun_Id p s0) hvd
          (Or.inl ⟨hvR, by rw [if_neg hr]⟩) T _ hE hu
    have hnd1 := List.nodup_cons.1 hnd
    obtain ⟨h3, h4⟩ := ih (v :: done) (removeStep memOps st v)
      (fun x hx => hmem x (List.mem_cons_of_mem _ hx)) hnd1.2
      (fun x hx hxd => by
        rcases List.mem_cons.1 hxd with h | h
        · exact hnd1.1 (h ▸ hx)
        · exact hdone x (List.mem_cons_of_mem _ hx) h) hE1 h2
    rw [List.foldl_cons]
    refine ⟨RowsEvolve_mono (Pending_congr _ _ _ ?_) _ _ h3, h4⟩
    intro x
    simp only [List.mem_append, List.mem_cons]
    tauto

theorem update_foldl_run1 (s0 : Store) (p : Partition) (T : List SVpc)
    (huniq : ∀ a ∈ T, ∀ b ∈ T, a.Id = b.Id → a = b) (rest : List (SVpc × ICloudVpc)) :
    ∀ (done : List SVpc) (st : SyncState Store),
      (∀ pr ∈ rest, pr.1 ∈ T ∧ pr ∈ p.common) → (rest.map Prod.fst).Nodup →
      (∀ pr ∈ rest, pr.1 ∉ done) →
      RowsEvolve (Pending (FirstRun p s0) done) T st.store.vpcs → DepsEq s0 st.store →
      RowsEvolve (Pending (FirstRun p s0) (rest.map Prod.fst ++ done)) T
          (rest.foldl (updateStep memOps) st).store.vpcs ∧
        DepsEq s0 (rest.foldl (updateStep memOps) st).store := by
  induction rest with
  | nil => intro done st _ _ _ hE hd; exact ⟨hE, hd⟩
  | cons pr more ih =>
    intro done st hmem hnd hdone hE hd
    obtain ⟨hvT, hvC⟩ := hmem pr (List.mem_cons_self _ _)
    have hvd : pr.1 ∉ done := hdone pr (List.mem_cons_self _ _)
    have hu : ∀ a ∈ T, a.Id = pr.1.Id → a = pr.1 := fun a ha hid => huniq a ha pr.1 hvT hid
    have hco := RowsEvolve_coherent (FirstRun p s0) done pr.1 (FirstRun_Id p s0) hvd T _ hE hu
    obtain ⟨c, h1, hc1, hc2, hc3, hc4, hc5, h2⟩ := updateStep_effect s0 st pr hd hco
    have hE1 : RowsEvolve (Pending (FirstRun p s0) (pr.1 :: done)) T
        (updateStep memOps st pr).store.vpcs := by
      rw [h1]
      exact RowsEvolve_mapAt _ done pr.1 c (FirstRun_Id p s0) hvd
        (Or.inr ⟨pr.2, c, hvC, rfl, hc1, hc2, hc3, hc4, hc5⟩) T _ hE hu
    rw [List.map_cons] at hnd
    have hnd1 := List.nodup_cons.1 hnd
    obtain ⟨h3, h4⟩ := ih (pr.1 :: done) (updateStep memOps st pr)
      (fun x hx => hmem x (List.mem_cons_of_mem _ hx)) hnd1.2
      (fun x hx hxd => by
        rcases List.mem_cons.1 hxd with h | h
        · exact hnd1.1 (h ▸ List.mem_map_of_mem Prod.fst hx)
        · exact hdone x (List.mem_cons_of_mem _ hx) h) hE1 h2
    rw [List.foldl_cons]
    refine ⟨RowsEvolve_mono (Pending_congr _ _ _ ?_) _ _ h3, h4⟩
    intro x
    simp only [List.map_cons, List.mem_append, List.mem_cons]
    tauto

theorem add_foldl_run1 (s0 : Store) (provider : SCloudprovider) (region : SCloudregion)
    (added : List ICloudVpc) :
    ∀ (st : SyncState Store), DepsEq s0 st.store →
      ∃ N, (added.foldl (addStep memOps provider region) st).store.vpcs =
          st.store.vpcs ++ N ∧
        List.Forall₂ (fun a n => Synced n a ∧ inScope provider region n = true ∧
          GlobStable s0 n) added N ∧
        DepsEq s0 (added.foldl (addStep memOps provider region) st).store := by
  induction added with
  | nil => intro st hd; exact ⟨[], by simp, List.Forall₂.nil, hd⟩
  | cons a more ih =>
    intro st hd
    obtain ⟨n, h1, h2, h3, h4, h5⟩ := addStep_effect s0 provider region st a hd
    obtain ⟨N, h6, h7, h8⟩ := ih (addStep memOps provider region st a) h5
    refine ⟨n :: N, ?_, List.Forall₂.cons ⟨h2, h3, h4⟩ h7, h8⟩
    rw [List.foldl_cons, h6, h1]
    simp


/-! ### The comparison of the second run -/

theorem pickExternal_mem (l : SVpc) (pool : List ICloudVpc) (e : ICloudVpc)
    (rest : List ICloudVpc) (h : pickExternal l pool = some (e, rest)) : e ∈ pool :=
  (pickExternal_perm l pool e rest h).subset (List.mem_cons_self _ _)

theorem pickExternal_congr (l b : SVpc) (pool : List ICloudVpc)
    (h : ∀ x ∈ pool, identityMatch b x = identityMatch l x) :
    pickExternal b pool = pickExternal l pool := by
  induction pool with
  | nil => rfl
  | cons x xs ih =>
    unfold pickExternal
    rw [h x (List.mem_cons_self _ _), ih (fun y hy => h y (List.mem_cons_of_mem _ hy))]

theorem identityMatch_of_id (b : SVpc) (x : ICloudVpc) (h : b.ExternalId ≠ "") :
    identityMatch b x = decide (b.ExternalId = x.GlobalId) := by
  unfold identityMatch
  rw [if_neg h]

theorem pickExternal_by_id (l b : SVpc) (pool : List ICloudVpc) (e : ICloudVpc)
    (rest : List ICloudVpc) (hpick : pickExternal l pool = some (e, rest))
    (hnd : (pool.map (·.GlobalId)).Nodup) (hb : b.ExternalId = e.GlobalId)
    (hne : e.GlobalId ≠ "") : pickExternal b pool = some (e, rest) := by
  have hbne : b.ExternalId ≠ "" := hb ▸ hne
  induction pool generalizing rest with
  | nil => simp [pickExternal] at hpick
  | cons x xs ih =>
    rw [List.map_cons, List.nodup_cons] at hnd
    unfold pickExternal at hpick ⊢
    by_cases hm : identityMatch l x = true
    · rw [if_pos hm] at hpick
      cases hpick
      have : identityMatch b e = true := by
        rw [identityMatch_of_id b e hbne]; simpa using hb
      rw [if_pos this]
    · rw [if_neg hm] at hpick
      cases hp : pickExternal l xs with
      | none => simp [hp] at hpick
      | some pr =>
        obtain ⟨m, rest1⟩ := pr
        simp only [hp, Option.some.injEq, Prod.mk.injEq] at hpick
        obtain ⟨h1, h2⟩ := hpick
        subst h1 h2
        have hmem : m ∈ xs := pickExternal_mem l xs m rest1 hp
        have hx : identityMatch b x = false := by
          rw [identityMatch_of_id b x hbne, hb]
          simp only [decide_eq_false_iff_not]
          intro heq
          exact hnd.1 (heq ▸ List.mem_map_of_mem (·.GlobalId) hmem)
        rw [hx, ih rest1 hp hnd.2]
        simp

theorem CompareSets_cons_some (l : SVpc) (ls : List SVpc) (pool : List ICloudVpc)
    (e : ICloudVpc) (rest : List ICloudVpc) (h : pickExternal l pool = some (e, rest)) :
    CompareSets (l :: ls) pool =
      { removed := (CompareSets ls rest).removed
        common := (l, e) :: (CompareSets ls rest).common
        added := (CompareSets ls rest).added } := by
  rw [CompareSets]
  simp only [h]

theorem CompareSets_cons_none (l : SVpc) (ls : List SVpc) (pool : List ICloudVpc)
    (h : pickExternal l pool = none) :
    CompareSets (l :: ls) pool =
      { removed := l :: (CompareSets ls pool).removed
        common := (CompareSets ls pool).common
        added := (CompareSets ls pool).added } := by
  rw [CompareSets]
  simp only [h]

theorem CompareSets_append (A B : List SVpc) (pool : List ICloudVpc) :
    CompareSets (A ++ B) pool =
      { removed := (CompareSets A pool).removed ++
          (CompareSets B (CompareSets A pool).added).removed
        common := (CompareSets A pool).common ++
          (CompareSets B (CompareSets A pool).added).common
        added := (CompareSets B (CompareSets A pool).added).added } := by
  induction A generalizing pool with
  | nil => simp [CompareSets]
  | cons a rest ih =>
    rw [List.cons_append]
    cases hp : pickExternal a pool with
    | none =>
      rw [CompareSets_cons_none _ _ _ hp, CompareSets_cons_none _ _ _ hp, ih pool]
      simp only [List.cons_append]
    | some pr =>
      obtain ⟨e, rest1⟩ := pr
      rw [CompareSets_cons_some _ _ _ _ _ hp, CompareSets_cons_some _ _ _ _ _ hp, ih rest1]
      simp only [List.cons_append]

theorem CompareSets_new_rows (s : Store) (provider : SCloudprovider) (region : SCloudregion)
    (added : List ICloudVpc) (N : List SVpc)
    (h : List.Forall₂ (fun a n => Synced n a ∧ inScope provider region n = true ∧
      GlobStable s n) added N)
    (hne : ∀ e ∈ added, e.GlobalId ≠ "") :
    (CompareSets N added).removed = [] ∧ (CompareSets N added).added = [] ∧
      ∀ pr ∈ (CompareSets N added).common, Synced pr.1 pr.2 ∧ GlobStable s pr.1 := by
  induction h with
  | nil => simp [CompareSets]
  | @cons a n as ns h1 _ ih =>
    obtain ⟨hs, _, hg⟩ := h1
    have hane := hne a (List.mem_cons_self _ _)
    have hm : identityMatch n a = true := by
      rw [identityMatch_of_id n a (hs.2.2.2.1 ▸ hane)]
      simpa using hs.2.2.2.1
    obtain ⟨i1, i2, i3⟩ := ih (fun e he => hne e (List.mem_cons_of_mem _ he))
    have hp : pickExternal n (a :: as) = some (a, as) := by
      unfold pickExternal; rw [if_pos hm]
    rw [CompareSets_cons_some _ _ _ _ _ hp]
    refine ⟨i1, i2, ?_⟩
    intro pr hpr
    rcases List.mem_cons.1 hpr with h | h
    · subst h; exact ⟨hs, hg⟩
    · exact i3 pr h


theorem RowsEvolve_mono_mem {R R1 : SVpc → Option SVpc → Prop} (rows rows1 : List SVpc)
    (h : RowsEvolve R rows rows1) (hR : ∀ a ∈ rows, ∀ out, R a out → R1 a out) :
    RowsEvolve R1 rows rows1 := by
  induction h with
  | nil => exact RowsEvolve.nil
  | keep h1 _ ih =>
    exact RowsEvolve.keep (hR _ (List.mem_cons_self _ _) _ h1)
      (ih (fun a ha => hR a (List.mem_cons_of_mem _ ha)))
  | drop h1 _ ih =>
    exact RowsEvolve.drop (hR _ (List.mem_cons_self _ _) _ h1)
      (ih (fun a ha => hR a (List.mem_cons_of_mem _ ha)))

theorem CompareSets_removed_mem (L : List SVpc) (pool : List ICloudVpc) (x : SVpc)
    (h : x ∈ (CompareSets L pool).removed) : x ∈ L :=
  (CompareSets_local_perm L pool).subset (List.mem_append_left _ h)

theorem CompareSets_common_mem (L : List SVpc) (pool : List ICloudVpc) (pr : SVpc × ICloudVpc)
    (h : pr ∈ (CompareSets L pool).common) : pr.1 ∈ L :=
  (CompareSets_local_perm L pool).subset
    (List.mem_append_right _ (List.mem_map_of_mem Prod.fst h))

theorem settle_identityMatch (l : SVpc) (x : ICloudVpc) :
    identityMatch (settle l) x = identityMatch l x := by
  unfold settle
  by_cases h : Classic l
  · rw [if_pos h]
  · rw [if_neg h]; rfl

theorem not_mem_of_nodup_cons (l : SVpc) (ls : List SVpc)
    (h : ((l :: ls).map (·.Id)).Nodup) : l ∉ ls := by
  rw [List.map_cons, List.nodup_cons] at h
  exact fun hm => h.1 (List.mem_map_of_mem (·.Id) hm)

theorem CompareSets_second (s : Store) (L : List SVpc) :
    ∀ (pool : List ICloudVpc) (L1 : List SVpc),
      (L.map (·.Id)).Nodup → (pool.map (·.GlobalId)).Nodup → (∀ e ∈ pool, e.GlobalId ≠ "") →
      RowsEvolve (FirstRun (CompareSets L pool) s) L L1 →
      (CompareSets L1 pool).added = (CompareSets L pool).added ∧
      (CompareSets L1 pool).removed =
        ((CompareSets L pool).removed.filter (retained s)).map settle ∧
      ∀ pr ∈ (CompareSets L1 pool).common, Synced pr.1 pr.2 ∧ GlobStable s pr.1 := by
  induction L with
  | nil =>
    intro pool L1 _ _ _ hE
    cases hE
    simp [CompareSets]
  | cons l ls ih =>
    intro pool L1 hL hpool hne hE
    have hl : l ∉ ls := not_mem_of_nodup_cons l ls hL
    have hLs : (ls.map (·.Id)).Nodup := by
      rw [List.map_cons, List.nodup_cons] at hL; exact hL.2
    cases hp : pickExternal l pool with
    | some pr =>
      obtain ⟨e, rest⟩ := pr
      have hperm := pickExternal_perm l pool e rest hp
      have hnd : ((e :: rest).map (·.GlobalId)).Nodup :=
        (hperm.map (·.GlobalId)).nodup_iff.2 hpool
      rw [List.map_cons, List.nodup_cons] at hnd
      have hne1 : ∀ x ∈ rest, x.GlobalId ≠ "" :=
        fun x hx => hne x (hperm.subset (List.mem_cons_of_mem _ hx))
      have hene : e.GlobalId ≠ "" := hne e (hperm.subset (List.mem_cons_self _ _))
      rw [CompareSets_cons_some _ _ _ _ _ hp] at hE ⊢
      have htail : ∀ L2, RowsEvolve (FirstRun
          { removed := (CompareSets ls rest).removed
            common := (l, e) :: (CompareSets ls rest).common
            added := (CompareSets ls rest).added } s) ls L2 →
          RowsEvolve (FirstRun (CompareSets ls rest) s) ls L2 := by
        intro L2 h2
        refine RowsEvolve_mono_mem _ _ h2 ?_
        intro a ha out hout
        rcases hout with ⟨h3, h4⟩ | ⟨e1, c, h3, h4⟩
        · exact Or.inl ⟨h3, h4⟩
        · refine Or.inr ⟨e1, c, ?_, h4⟩
          rcases List.mem_cons.1 h3 with h5 | h5
          · cases h5; exact absurd ha hl
          · exact h5
      cases hE with
      | @keep _ b _ L2 hR hrest =>
        rcases hR with ⟨h3, _⟩ | ⟨e1, c, h3, h4, _, _, _, hsy, hgl⟩
        · exact absurd (CompareSets_removed_mem ls rest l h3) hl
        · cases h4
          have he1 : e1 = e := by
            rcases List.mem_cons.1 h3 with h5 | h5
            · cases h5; rfl
            · exact absurd (CompareSets_common_mem ls rest _ h5) hl
          subst he1
          have hpb : pickExternal b pool = some (e1, rest) :=
            pickExternal_by_id l b pool e1 rest hp hpool hsy.2.2.2.1 hene
          rw [CompareSets_cons_some _ _ _ _ _ hpb]
          obtain ⟨i1, i2, i3⟩ := ih rest L2 hLs hnd.2 hne1 (htail L2 hrest)
          refine ⟨i1, i2, ?_⟩
          intro pr hpr
          rcases List.mem_cons.1 hpr with h | h
          · subst h; exact ⟨hsy, hgl⟩
          · exact i3 pr h
      | drop hR hrest =>
        rcases hR with ⟨h3, _⟩ | ⟨e1, c, _, h4, _⟩
        · exact absurd (CompareSets_removed_mem ls rest l h3) hl
        · cases h4
    | none =>
      rw [CompareSets_cons_none _ _ _ hp] at hE ⊢
      have htail : ∀ L2, RowsEvolve (FirstRun
          { removed := l :: (CompareSets ls pool).removed
            common := (CompareSets ls pool).common
            added := (CompareSets ls pool).added } s) ls L2 →
          RowsEvolve (FirstRun (CompareSets ls pool) s) ls L2 := by
        intro L2 h2
        refine RowsEvolve_mono_mem _ _ h2 ?_
        intro a ha out hout
        rcases hout with ⟨h3, h4⟩ | ⟨e1, c, h3, h4⟩
        · refine Or.inl ⟨?_, h4⟩
          rcases List.mem_cons.1 h3 with h5 | h5
          · subst h5; exact absurd ha hl
          · exact h5
        · exact Or.inr ⟨e1, c, h3, h4⟩
      cases hE with
      | @keep _ b _ L2 hR hrest =>
        rcases hR with ⟨_, h4⟩ | ⟨e1, c, h3, _⟩
        · by_cases hr : retained s l = true
          · rw [if_pos hr] at h4
            cases h4
            have hpb : pickExternal (settle l) pool = none := by
              rw [pickExternal_congr l (settle l) pool
                (fun x _ => settle_identityMatch l x)]
              exact hp
            rw [CompareSets_cons_none _ _ _ hpb]
            obtain ⟨i1, i2, i3⟩ := ih pool L2 hLs hpool hne (htail L2 hrest)
            refine ⟨i1, ?_, i3⟩
            simp only [List.filter_cons, hr, if_true, List.map_cons, i2]
          · rw [if_neg hr] at h4
            cases h4
        · exact absurd (CompareSets_common_mem ls pool _ h3) hl
      | drop hR hrest =>
        rcases hR with ⟨_, h4⟩ | ⟨e1, c, _, h4, _⟩
        · by_cases hr : retained s l = true
          · rw [if_pos hr] at h4
            cases h4
          · obtain ⟨i1, i2, i3⟩ := ih pool L1 hLs hpool hne (htail L1 hrest)
            refine ⟨i1, ?_, i3⟩
            simp only [List.filter_cons, hr, if_false, i2]
            simp
        · cases h4


/-! ### The table after the first run -/

theorem settle_scope (provider : SCloudprovider) (region : SCloudregion) (v : SVpc) :
    inScope provider region (settle v) = inScope provider region v := by
  unfold settle
  by_cases h : Classic v
  · rw [if_pos h]
  · rw [if_neg h]; rfl

theorem FirstRun_scope (provider : SCloudprovider) (region : SCloudregion) (p : Partition)
    (s : Store) (a b : SVpc) (h : FirstRun p s a (some b)) :
    inScope provider region b = inScope provider region a := by
  rcases h with ⟨_, h⟩ | ⟨e, c, _, hc, _, h1, h2, _⟩
  · by_cases hr : retained s a = true
    · rw [if_pos hr] at h
      cases h
      exact settle_scope provider region a
    · rw [if_neg hr] at h
      cases h
  · cases hc
    unfold inScope
    rw [h1, h2]

theorem RowsEvolve_scope (provider : SCloudprovider) (region : SCloudregion) (p : Partition)
    (s : Store) (done rows rows1 : List SVpc)
    (h : RowsEvolve (Pending (FirstRun p s) done) rows rows1)
    (hin : ∀ a ∈ rows, inScope provider region a = true → a ∈ done)
    (hout : ∀ a ∈ rows, a ∈ done → inScope provider region a = true) :
    RowsEvolve (FirstRun p s) (rows.filter (inScope provider region))
      (rows1.filter (inScope provider region)) := by
  induction h with
  | nil => exact RowsEvolve.nil
  | @keep a b rows rows1 hR _ ih =>
    have ih1 := ih (fun x hx => hin x (List.mem_cons_of_mem _ hx))
      (fun x hx => hout x (List.mem_cons_of_mem _ hx))
    by_cases hs : inScope provider region a = true
    · have hd := hin a (List.mem_cons_self _ _) hs
      have hb : inScope provider region b = true := by
        rw [FirstRun_scope provider region p s a b (hR.1 hd)]; exact hs
      rw [List.filter_cons_of_pos hs, List.filter_cons_of_pos hb]
      exact RowsEvolve.keep (hR.1 hd) ih1
    · have hd : a ∉ done := fun hd => hs (hout a (List.mem_cons_self _ _) hd)
      have hba : b = a := Option.some.inj (hR.2 hd)
      rw [hba, List.filter_cons_of_neg hs, List.filter_cons_of_neg hs]
      exact ih1
  | @drop a rows rows1 hR _ ih =>
    have ih1 := ih (fun x hx => hin x (List.mem_cons_of_mem _ hx))
      (fun x hx => hout x (List.mem_cons_of_mem _ hx))
    have hd : a ∈ done := by
      by_contra hn
      have := hR.2 hn
      cases this
    have hs := hout a (List.mem_cons_self _ _) hd
    rw [List.filter_cons_of_pos hs]
    exact RowsEvolve.drop (hR.1 hd) ih1

theorem first_run_table (s : Store) (provider : SCloudprovider) (region : SCloudregion)
    (exts : List ICloudVpc) (hids : (s.vpcs.map (·.Id)).Nodup) :
    ∃ T1 N,
      (applyPartition memOps provider region
        (CompareSets (s.vpcs.filter (inScope provider region)) exts) s).store.vpcs = T1 ++ N ∧
      RowsEvolve (FirstRun (CompareSets (s.vpcs.filter (inScope provider region)) exts) s)
        (s.vpcs.filter (inScope provider region)) (T1.filter (inScope provider region)) ∧
      List.Forall₂ (fun a n => Synced n a ∧ inScope provider region n = true ∧ GlobStable s n)
        (CompareSets (s.vpcs.filter (inScope provider region)) exts).added N ∧
      DepsEq s (applyPartition memOps provider region
        (CompareSets (s.vpcs.filter (inScope provider region)) exts) s).store := by
  have huniq : ∀ a ∈ s.vpcs, ∀ b ∈ s.vpcs, a.Id = b.Id → a = b :=
    fun a ha b hb h => List.inj_on_of_nodup_map hids ha hb h
  have hT : s.vpcs.Nodup := List.Nodup.of_map _ hids
  have hL : (s.vpcs.filter (inScope provider region)).Nodup := hT.filter _
  have hperm := CompareSets_local_perm (s.vpcs.filter (inScope provider region)) exts
  have hnd := List.nodup_append.1 (hperm.nodup_iff.2 hL)
  generalize hp : CompareSets (s.vpcs.filter (inScope provider region)) exts = p at hperm hnd ⊢
  have hremT : ∀ v ∈ p.removed, v ∈ s.vpcs ∧ v ∈ p.removed := fun v hv =>
    ⟨(List.mem_filter.1 (hperm.subset (List.mem_append_left _ hv))).1, hv⟩
  have hcomT : ∀ pr ∈ p.common, pr.1 ∈ s.vpcs ∧ pr ∈ p.common := fun pr hpr =>
    ⟨(List.mem_filter.1 (hperm.subset
      (List.mem_append_right _ (List.mem_map_of_mem Prod.fst hpr)))).1, hpr⟩
  unfold applyPartition
  obtain ⟨hE1, hd1⟩ := remove_foldl_run1 s p s.vpcs huniq p.removed []
    { localVPCs := [], remoteVPCs := [], syncResult := SyncResult.zero, store := s, calls := [] }
    hremT hnd.1 (fun _ _ h => absurd h (List.not_mem_nil _)) (RowsEvolve_refl _ _) (DepsEq.refl s)
  obtain ⟨hE2, hd2⟩ := update_foldl_run1 s p s.vpcs huniq p.common (p.removed ++ [])
    (p.removed.foldl (removeStep memOps)
      { localVPCs := [], remoteVPCs := [], syncResult := SyncResult.zero, store := s,
        calls := [] })
    hcomT hnd.2.1
    (fun pr hpr hm => by
      rw [List.append_nil] at hm
      exact hnd.2.2 hm (List.mem_map_of_mem Prod.fst hpr)) hE1 hd1
  obtain ⟨N, hN1, hN2, hN3⟩ := add_foldl_run1 s provider region p.added
    (p.common.foldl (updateStep memOps) (p.removed.foldl (removeStep memOps)
      { localVPCs := [], remoteVPCs := [], syncResult := SyncResult.zero, store := s,
        calls := [] })) hd2
  refine ⟨_, N, hN1, ?_, hN2, hN3⟩
  have hdone : ∀ x, x ∈ p.common.map Prod.fst ++ (p.removed ++ []) ↔
      x ∈ s.vpcs.filter (inScope provider region) := by
    intro x
    rw [← hperm.mem_iff]
    simp only [List.mem_append, List.append_nil]
    tauto
  refine RowsEvolve_scope provider region p s _ _ _ hE2 ?_ ?_
  · intro a ha hs
    exact (hdone a).2 (List.mem_filter.2 ⟨ha, hs⟩)
  · intro a _ hd
    exact (List.mem_filter.1 ((hdone a).1 hd)).2


/-! ### Idempotence of the reconciliation of VPCs -/

theorem SyncVPCs_mem (provider : SCloudprovider) (region : SCloudregion)
    (exts : List ICloudVpc) (s : Store) :
    SyncVPCs memOps provider region exts s =
      if (s.vpcs.filter (inScope provider region)).any (fun v => memOps.IsInTask v s) then
        { localVPCs := [], remoteVPCs := [],
          syncResult := SyncResult.zero.Error (.plain "object in task"),
          store := s, calls := [] }
      else
        applyPartition memOps provider region
          (CompareSets (s.vpcs.filter (inScope provider region)) exts) s := rfl

theorem partitionOf_mem (provider : SCloudprovider) (region : SCloudregion)
    (exts : List ICloudVpc) (s : Store) :
    partitionOf memOps provider region exts s =
      if (s.vpcs.filter (inScope provider region)).any (fun v => memOps.IsInTask v s) then none
      else some (CompareSets (s.vpcs.filter (inScope provider region)) exts) := rfl

theorem Settled_congr (s s1 : Store) (v : SVpc) (hd : DepsEq s s1) (h : Settled s v) :
    Settled s1 v := by
  unfold Settled at *
  rw [← ValidateDeleteCondition_congr v v s s1 rfl hd]
  exact h

theorem Settled_settle (s : Store) (v : SVpc) (h : retained s v = true) :
    Settled s (settle v) := by
  unfold settle
  by_cases hc : Classic v
  · rw [if_pos hc]; exact Or.inl hc
  · rw [if_neg hc]
    right
    refine ⟨?_, rfl, rfl⟩
    rw [ValidateDeleteCondition_congr (v.disabled.withStatus "unknown") v s s rfl (DepsEq.refl s)]
    unfold retained at h
    cases hv : v.ValidateDeleteCondition memOps s with
    | error e => exact ⟨e, rfl⟩
    | ok u => simp [hc, hv] at h

theorem new_rows_inScope (s : Store) (provider : SCloudprovider) (region : SCloudregion)
    (added : List ICloudVpc) (N : List SVpc)
    (h : List.Forall₂ (fun a n => Synced n a ∧ inScope provider region n = true ∧
      GlobStable s n) added N) :
    ∀ n ∈ N, inScope provider region n = true := by
  induction h with
  | nil => intro n hn; cases hn
  | cons hh _ ih =>
    intro n hn
    rcases List.mem_cons.1 hn with h1 | h1
    · rw [h1]; exact hh.2.1
    · exact ih n h1

theorem second_partition (s : Store) (provider : SCloudprovider) (region : SCloudregion)
    (exts : List ICloudVpc) (hids : (s.vpcs.map (·.Id)).Nodup)
    (hne : ∀ e ∈ exts, e.GlobalId ≠ "") (hnd : (exts.map (·.GlobalId)).Nodup) (s1 : Store)
    (hs1 : s1 = (applyPartition memOps provider region
      (CompareSets (s.vpcs.filter (inScope provider region)) exts) s).store) :
    DepsEq s s1 ∧
    (CompareSets (s1.vpcs.filter (inScope provider region)) exts).added = [] ∧
    (CompareSets (s1.vpcs.filter (inScope provider region)) exts).removed =
      ((CompareSets (s.vpcs.filter (inScope provider region)) exts).removed.filter
        (retained s)).map settle ∧
    ∀ pr ∈ (CompareSets (s1.vpcs.filter (inScope provider region)) exts).common,
      Synced pr.1 pr.2 ∧ GlobStable s pr.1 := by
  obtain ⟨T1, N, h1, h2, h3, h4⟩ := first_run_table s provider region exts hids
  rw [← hs1] at h1 h4
  have hN : N.filter (inScope provider region) = N :=
    List.filter_eq_self.2 (new_rows_inScope s provider region _ N h3)
  have hL : ((s.vpcs.filter (inScope provider region)).map (·.Id)).Nodup :=
    hids.sublist ((List.filter_sublist _).map _)
  obtain ⟨i1, i2, i3⟩ := CompareSets_second s (s.vpcs.filter (inScope provider region)) exts
    (T1.filter (inScope provider region)) hL hnd hne h2
  have hadd : ∀ e ∈ (CompareSets (s.vpcs.filter (inScope provider region)) exts).added,
      e.GlobalId ≠ "" := fun e he =>
    hne e ((CompareSets_external_perm _ exts).subset (List.mem_append_left _ he))
  obtain ⟨j1, j2, j3⟩ := CompareSets_new_rows s provider region _ N h3 hadd
  rw [h1, List.filter_append, hN, CompareSets_append, i1]
  refine ⟨h4, j2, ?_, ?_⟩
  · simp only [j1, List.append_nil, i2]
  · intro pr hpr
    rcases List.mem_append.1 hpr with h | h
    · exact i3 pr h
    · exact j3 pr h

/-- C7 (as stated) fails: the VPC emulated for a classic network is deliberately
kept by `syncRemoveCloudVpc`, so with an empty external listing it is in the
removed partition of the second run as it was in that of the first. -/
theorem SyncVPCs_second_run_removed_nonempty :
    (partitionOf memOps scenarioProvider scenarioRegion []
        (SyncVPCs memOps scenarioProvider scenarioRegion [] classicStore).store).map
      (·.removed) = some classicStore.vpcs ∧
    classicStore.vpcs ≠ [] := by
  constructor <;> decide

/-- C7 (amended): on the in-memory store whose VPC identifiers are pairwise
distinct, for every external listing whose global identifiers are non-empty and
pairwise distinct, running `SyncVPCs` twice with the same listing leaves the VPC
table unchanged by the second run, and the second run computes an empty added
partition and a removed partition made of exactly the VPCs that the first run
kept of its removed partition (the classic-network VPC untouched, a VPC refused
by `ValidateDeleteCondition` disabled with the unknown status). -/
theorem SyncVPCs_second_run (s : Store) (provider : SCloudprovider) (region : SCloudregion)
    (exts : List ICloudVpc) (hids : (s.vpcs.map (·.Id)).Nodup)
    (hne : ∀ e ∈ exts, e.GlobalId ≠ "") (hnd : (exts.map (·.GlobalId)).Nodup) :
    (SyncVPCs memOps provider region exts
        (SyncVPCs memOps provider region exts s).store).store.vpcs =
      (SyncVPCs memOps provider region exts s).store.vpcs ∧
    ∀ p1 p2, partitionOf memOps provider region exts s = some p1 →
      partitionOf memOps provider region exts (SyncVPCs memOps provider region exts s).store =
        some p2 →
      p2.added = [] ∧ p2.removed = (p1.removed.filter (retained s)).map settle := by
  by_cases ht : (s.vpcs.filter (inScope provider region)).any (fun v => memOps.IsInTask v s)
      = true
  · have hrun : (SyncVPCs memOps provider region exts s).store = s := by
      rw [SyncVPCs_mem, if_pos ht]
    rw [hrun, hrun]
    refine ⟨rfl, ?_⟩
    intro p1 p2 hp1
    rw [partitionOf_mem, if_pos ht] at hp1
    cases hp1
  · have hrun : (SyncVPCs memOps provider region exts s).store =
        (applyPartition memOps provider region
          (CompareSets (s.vpcs.filter (inScope provider region)) exts) s).store := by
      rw [SyncVPCs_mem, if_neg ht]
    obtain ⟨hd, k1, k2, k3⟩ := second_partition s provider region exts hids hne hnd
      (SyncVPCs memOps provider region exts s).store hrun
    generalize (SyncVPCs memOps provider region exts s).store = s1 at hd k1 k2 k3 ⊢
    by_cases ht2 : (s1.vpcs.filter (inScope provider region)).any
        (fun v => memOps.IsInTask v s1) = true
    · refine ⟨by rw [SyncVPCs_mem, if_pos ht2], ?_⟩
      intro p1 p2 _ hp2
      rw [partitionOf_mem, if_pos ht2] at hp2
      cases hp2
    · refine ⟨?_, ?_⟩
      · rw [SyncVPCs_mem, if_neg ht2]
        apply applyPartition_stable provider region _ s1 k1
        · intro v hv
          rw [k2] at hv
          obtain ⟨w, hw, hwv⟩ := List.mem_map.1 hv
          rw [← hwv]
          exact Settled_congr s s1 _ hd (Settled_settle s w (List.mem_filter.1 hw).2)
        · intro pr hpr
          obtain ⟨h1, h2⟩ := k3 pr hpr
          exact ⟨h1, GlobStable_congr s s1 _ _ hd rfl rfl h2⟩
      · intro p1 p2 hp1 hp2
        rw [partitionOf_mem, if_neg ht] at hp1
        rw [partitionOf_mem, if_neg ht2] at hp2
        cases hp1
        cases hp2
        exact ⟨k1, k2⟩

/-- Witness for the amended C7 on Scenario A: the second run adds nothing,
removes nothing (`Y` was deleted by the first run) and leaves the table as the
first run left it. -/
theorem SyncVPCs_second_run_witness :
    (SyncVPCs memOps scenarioProvider scenarioRegion [observed "e1" "X", observed "e3" "Z"]
        (SyncVPCs memOps scenarioProvider scenarioRegion
          [observed "e1" "X", observed "e3" "Z"] (storeOf [scenarioX, scenarioY])).store).store.vpcs =
      (SyncVPCs memOps scenarioProvider scenarioRegion [observed "e1" "X", observed "e3" "Z"]
        (storeOf [scenarioX, scenarioY])).store.vpcs ∧
    (partitionOf memOps scenarioProvider scenarioRegion [observed "e1" "X", observed "e3" "Z"]
        (SyncVPCs memOps scenarioProvider scenarioRegion
          [observed "e1" "X", observed "e3" "Z"] (storeOf [scenarioX, scenarioY])).store).map
      (fun p => (p.added, p.removed)) = some ([], []) :=
  ⟨(SyncVPCs_second_run (storeOf [scenarioX, scenarioY]) scenarioProvider scenarioRegion
      [observed "e1" "X", observed "e3" "Z"] (by decide) (by decide) (by decide)).1,
    by decide⟩

/-! ### Proxy settings: update -/

/-- C11: the DIRECT proxy setting cannot be changed.  On the setting whose Id is
`ProxySettingId_DIRECT`, `ValidateUpdateData` returns the input as it was given
together with the conflict error, whatever sanitizing the input would yield; on
every other setting it returns an error exactly when sanitizing the input fails,
and that error is an input-parameter error carrying the text of the failure. -/
theorem ValidateUpdateData_direct_conflict {Input : Type} (ProxySettingId_DIRECT : String)
    (Sanitize : Input → Except Err Unit × Input) (ps : SProxySetting) (data : Input) :
    (ps.Id = ProxySettingId_DIRECT →
      ps.ValidateUpdateData ProxySettingId_DIRECT Sanitize data =
        (data, .error (.http .ConflictError "DIRECT setting cannot be changed"))) ∧
    (ps.Id ≠ ProxySettingId_DIRECT →
      ((∃ e, (ps.ValidateUpdateData ProxySettingId_DIRECT Sanitize data).2 = .error e) ↔
        ∃ e, (Sanitize data).1 = .error e) ∧
      (∀ e, (Sanitize data).1 = .error e →
        (ps.ValidateUpdateData ProxySettingId_DIRECT Sanitize data).2 =
          .error (.http .InputParameterError e.Error)) ∧
      (ps.ValidateUpdateData ProxySettingId_DIRECT Sanitize data).1 = (Sanitize data).2) := by
  refine ⟨fun h => ?_, fun h => ?_⟩
  · unfold SProxySetting.ValidateUpdateData
    rw [if_pos h]
  · unfold SProxySetting.ValidateUpdateData
    rw [if_neg h]
    rcases hs : Sanitize data with ⟨r, data1⟩
    cases r with
    | error err => simp
    | ok u => simp

/-- Evaluation for C11 on a sample sanitizer: the DIRECT setting refuses an
input that would sanitize, with the input unchanged; another setting refuses
exactly the input that does not sanitize. -/
theorem ValidateUpdateData_direct_conflict_witness :
    (sampleSetting "DIRECT").ValidateUpdateData "DIRECT" sampleSanitize "http://proxy:3128" =
      ("http://proxy:3128", .error (.http .ConflictError "DIRECT setting cannot be changed")) ∧
    ((sampleSetting "p1").ValidateUpdateData "DIRECT" sampleSanitize "proxy:3128").2 =
      .error (.http .InputParameterError "invalid proxy url proxy:3128") ∧
    ((sampleSetting "p1").ValidateUpdateData "DIRECT" sampleSanitize "http://proxy:3128").2 =
      .ok () :=
  ⟨(ValidateUpdateData_direct_conflict "DIRECT" sampleSanitize (sampleSetting "DIRECT")
      "http://proxy:3128").1 rfl,
    ((ValidateUpdateData_direct_conflict "DIRECT" sampleSanitize (sampleSetting "p1")
      "proxy:3128").2 (by decide)).2.1 (.plain "invalid proxy url proxy:3128") rfl,
    rfl⟩

/-! ### Snapshot status synchronisation task -/

/-- C12: for every snapshot and every error, `taskFailed` calls
`snapshot.SetStatus` once, with `api.DISK_UNKNOWN` and the reason `err.Error()`,
and `SetStageFailed` exactly once, with the same string `err.Error()`; both are
followed by the two log calls.  On the recorded state of a task that has not
terminated, the status of the snapshot becomes the unknown marker and the reason
recorded on the task equals the one recorded on the snapshot. -/
theorem taskFailed_records_reason {σ : Type} (ops : SnapshotTaskOps σ) (snapshot : SSnapshot)
    (err : Err) (s : σ) :
    (taskFailed ops snapshot err s).calls =
      [.SetStatus snapshot.Id ops.DISK_UNKNOWN err.Error, .SetStageFailed err.Error,
       .LogEvent snapshot.Id, .AddActionLog snapshot.Id err false] ∧
    (taskFailed ops snapshot err s).calls.filter TaskCall.isStageFailed =
      [.SetStageFailed err.Error] ∧
    (∀ id status reason, TaskCall.SetStatus id status reason ∈ (taskFailed ops snapshot err s).calls →
      id = snapshot.Id ∧ status = ops.DISK_UNKNOWN ∧ reason = err.Error) ∧
    (∀ (region : Option SCloudregion) (dispatch : Except Err Unit) (w : TaskWorld),
      w.completed = false → w.failedReason = none →
      (taskFailed (memTaskOps region dispatch) snapshot err w).store.status = "unknown" ∧
      (taskFailed (memTaskOps region dispatch) snapshot err w).store.statusReason = err.Error ∧
      (taskFailed (memTaskOps region dispatch) snapshot err w).store.failedReason =
        some err.Error) := by
  refine ⟨rfl, ?_, ?_, ?_⟩
  · simp [taskFailed, TaskCall.isStageFailed]
  · intro id status reason h
    simp [taskFailed] at h
    exact h
  · intro region dispatch w hc hf
    simp [taskFailed, memTaskOps, hc, hf]

/-- Evaluation for C12 on the recorded task state: a task fails with the reason
`quota exceeded`; the snapshot becomes `unknown` and the task and the snapshot
record that reason. -/
theorem taskFailed_records_reason_witness :
    (taskFailed (memTaskOps none (.ok ())) scenarioSnapshot (.plain "quota exceeded")
      freshTask).store.status = "unknown" ∧
    (taskFailed (memTaskOps none (.ok ())) scenarioSnapshot (.plain "quota exceeded")
      freshTask).store.statusReason = "quota exceeded" ∧
    (taskFailed (memTaskOps none (.ok ())) scenarioSnapshot (.plain "quota exceeded")
      freshTask).store.failedReason = some "quota exceeded" :=
  (taskFailed_records_reason (memTaskOps none (.ok ())) scenarioSnapshot
    (.plain "quota exceeded") freshTask).2.2.2 none (.ok ()) freshTask rfl rfl

theorem taskFailed_store {σ : Type} (ops : SnapshotTaskOps σ) (snapshot : SSnapshot)
    (err : Err) (s : σ) :
    (taskFailed ops snapshot err s).store =
      ops.AddActionLogWithContext (ops.SetStatus snapshot ops.DISK_UNKNOWN err.Error s).2.1
        err false
        (ops.LogEvent (ops.SetStatus snapshot ops.DISK_UNKNOWN err.Error s).2.1
          (ops.SetStageFailed err.Error
            (ops.SetStatus snapshot ops.DISK_UNKNOWN err.Error s).2.2)) := by
  unfold taskFailed
  rcases ops.SetStatus snapshot ops.DISK_UNKNOWN err.Error s with ⟨r, snapshot1, s1⟩
  rfl

/-- C14: the paths of `OnInit`.  When the region of the snapshot is not found,
the handler does what `taskFailed` does and nothing else: it sets the status of
the snapshot, signals the failure once and writes the two logs, sets no stage
and dispatches no request.  Otherwise it first sets the stage
`OnSnapshotSyncStatusComplete` and then dispatches `RequestSyncSnapshotStatus`
on the state with that stage; when the dispatch returns an error it then
signals the failure once, with the wrapped error, on the state the dispatch
left, and when the dispatch returns nil it leaves that state as it is.  No path
calls `SetStageComplete`. -/
theorem OnInit_paths {σ : Type} (ops : SnapshotTaskOps σ) (snapshot : SSnapshot) (s : σ) :
    (ops.GetRegion snapshot s = none →
      (OnInit ops snapshot s).calls.filter TaskCall.isStageFailed =
        [.SetStageFailed ("failed to found cloudregion for snapshot " ++ snapshot.Name ++ "(" ++
          snapshot.Id ++ ")")] ∧
      (OnInit ops snapshot s).calls.filter TaskCall.isSetStage = [] ∧
      (OnInit ops snapshot s).calls.filter TaskCall.isRequest = [] ∧
      (OnInit ops snapshot s).store =
        ops.AddActionLogWithContext
          (ops.SetStatus snapshot ops.DISK_UNKNOWN
            ("failed to found cloudregion for snapshot " ++ snapshot.Name ++ "(" ++
              snapshot.Id ++ ")") s).2.1
          (.plain ("failed to found cloudregion for snapshot " ++ snapshot.Name ++ "(" ++
            snapshot.Id ++ ")")) false
          (ops.LogEvent
            (ops.SetStatus snapshot ops.DISK_UNKNOWN
              ("failed to found cloudregion for snapshot " ++ snapshot.Name ++ "(" ++
                snapshot.Id ++ ")") s).2.1
            (ops.SetStageFailed
              ("failed to found cloudregion for snapshot " ++ snapshot.Name ++ "(" ++
                snapshot.Id ++ ")")
              (ops.SetStatus snapshot ops.DISK_UNKNOWN
                ("failed to found cloudregion for snapshot " ++ snapshot.Name ++ "(" ++
                  snapshot.Id ++ ")") s).2.2))) ∧
    (∀ region, ops.GetRegion snapshot s = some region →
      (∃ tail, (OnInit ops snapshot s).calls =
          .SetStage "OnSnapshotSyncStatusComplete" ::
            .RequestSyncSnapshotStatus region.Id snapshot.Id :: tail ∧
        tail.filter TaskCall.isSetStage = [] ∧ tail.filter TaskCall.isRequest = []) ∧
      (∀ err s2, ops.RequestSyncSnapshotStatus region snapshot
            (ops.SetStage "OnSnapshotSyncStatusComplete" s) = (.error err, s2) →
        (OnInit ops snapshot s).calls.filter TaskCall.isStageFailed =
          [.SetStageFailed ("RequestSyncSnapshotStatus: " ++ err.Error)] ∧
        (OnInit ops snapshot s).store =
          ops.AddActionLogWithContext
            (ops.SetStatus snapshot ops.DISK_UNKNOWN
              ("RequestSyncSnapshotStatus: " ++ err.Error) s2).2.1
            (.wrap "RequestSyncSnapshotStatus" err) false
            (ops.LogEvent
              (ops.SetStatus snapshot ops.DISK_UNKNOWN
                ("RequestSyncSnapshotStatus: " ++ err.Error) s2).2.1
              (ops.SetStageFailed ("RequestSyncSnapshotStatus: " ++ err.Error)
                (ops.SetStatus snapshot ops.DISK_UNKNOWN
                  ("RequestSyncSnapshotStatus: " ++ err.Error) s2).2.2))) ∧
      (∀ u s2, ops.RequestSyncSnapshotStatus region snapshot
            (ops.SetStage "OnSnapshotSyncStatusComplete" s) = (.ok u, s2) →
        (OnInit ops snapshot s).calls.filter TaskCall.isStageFailed = [] ∧
        (OnInit ops snapshot s).store = s2)) ∧
    TaskCall.SetStageComplete ∉ (OnInit ops snapshot s).calls := by
  refine ⟨fun h => ?_, fun region h => ?_, ?_⟩
  · have hrun : OnInit ops snapshot s = taskFailed ops snapshot
        (.plain ("failed to found cloudregion for snapshot " ++ snapshot.Name ++ "(" ++
          snapshot.Id ++ ")")) s := by
      unfold OnInit
      simp only [h]
    rw [hrun]
    refine ⟨?_, ?_, ?_, taskFailed_store ops snapshot _ s⟩
    · simp [taskFailed, TaskCall.isStageFailed, Err.Error]
    · simp [taskFailed, TaskCall.isSetStage]
    · simp [taskFailed, TaskCall.isRequest]
  · unfold OnInit
    simp only [h]
    rcases hd : ops.RequestSyncSnapshotStatus region snapshot
        (ops.SetStage "OnSnapshotSyncStatusComplete" s) with ⟨r, s2⟩
    cases r with
    | error err =>
      refine ⟨?_, fun err1 s3 he => ?_, fun u s3 he => ?_⟩
      · simp [taskFailed, TaskCall.isSetStage, TaskCall.isRequest]
      · have he1 : err = err1 := by injection (congrArg Prod.fst he) with h1
        have he2 : s2 = s3 := congrArg Prod.snd he
        subst he1
        subst he2
        exact ⟨by simp [taskFailed, TaskCall.isStageFailed, Err.Error],
          taskFailed_store ops snapshot (.wrap "RequestSyncSnapshotStatus" err) s2⟩
      · exact absurd (congrArg Prod.fst he) (by simp)
    | ok u =>
      refine ⟨?_, fun err1 s3 he => ?_, fun u1 s3 he => ?_⟩
      · simp [TaskCall.isSetStage, TaskCall.isRequest]
      · exact absurd (congrArg Prod.fst he) (by simp)
      · have he2 : s2 = s3 := congrArg Prod.snd he
        subst he2
        exact ⟨by simp [TaskCall.isStageFailed], rfl⟩
  · unfold OnInit
    cases h : ops.GetRegion snapshot s with
    | none => simp [taskFailed]
    | some region =>
      simp only []
      rcases hd : ops.RequestSyncSnapshotStatus region snapshot
          (ops.SetStage "OnSnapshotSyncStatusComplete" s) with ⟨r, s2⟩
      cases r with
      | error err => simp [taskFailed]
      | ok u => simp

/-- Evaluation for C14 on the recorded task state.  Without a region `OnInit`
signals failure once, sets no stage, and the task records the failure.  With a
region and a dispatch that fails, the request is dispatched at the stage
`OnSnapshotSyncStatusComplete` and the failure is recorded after it, with the
wrapped error; with a dispatch that succeeds the request is dispatched at that
stage and no failure is recorded. -/
theorem OnInit_paths_witness :
    ((OnInit (memTaskOps none (.ok ())) scenarioSnapshot freshTask).calls.filter
        TaskCall.isStageFailed =
      [.SetStageFailed "failed to found cloudregion for snapshot snap(s1)"] ∧
      (OnInit (memTaskOps none (.ok ())) scenarioSnapshot freshTask).calls.filter
        TaskCall.isSetStage = [] ∧
      (OnInit (memTaskOps none (.ok ())) scenarioSnapshot freshTask).calls.filter
        TaskCall.isRequest = []) ∧
    (OnInit (memTaskOps none (.ok ())) scenarioSnapshot freshTask).store =
      { status := "unknown"
        statusReason := "failed to found cloudregion for snapshot snap(s1)"
        stage := "on_init"
        failedReason := some "failed to found cloudregion for snapshot snap(s1)"
        completed := false
        events := ["sync_status s1",
          "action sync_status s1 failed to found cloudregion for snapshot snap(s1)"] } ∧
    (OnInit (dispatchTaskOps scenarioRegion (.error (.plain "timeout"))) scenarioSnapshot
        freshTask).store =
      { status := "unknown"
        statusReason := "RequestSyncSnapshotStatus: timeout"
        stage := "OnSnapshotSyncStatusComplete"
        failedReason := some "RequestSyncSnapshotStatus: timeout"
        completed := false
        events := ["request r s1 at stage OnSnapshotSyncStatusComplete", "sync_status s1",
          "action sync_status s1 RequestSyncSnapshotStatus: timeout"] } ∧
    (OnInit (dispatchTaskOps scenarioRegion (.ok ())) scenarioSnapshot freshTask).store =
      { status := "ready"
        statusReason := ""
        stage := "OnSnapshotSyncStatusComplete"
        failedReason := none
        completed := false
        events := ["request r s1 at stage OnSnapshotSyncStatusComplete"] } :=
  ⟨⟨((OnInit_paths (memTaskOps none (.ok ())) scenarioSnapshot freshTask).1 rfl).1,
      ((OnInit_paths (memTaskOps none (.ok ())) scenarioSnapshot freshTask).1 rfl).2.1,
      ((OnInit_paths (memTaskOps none (.ok ())) scenarioSnapshot freshTask).1 rfl).2.2.1⟩,
    ((OnInit_paths (memTaskOps none (.ok ())) scenarioSnapshot freshTask).1 rfl).2.2.2.trans
      (by decide),
    (((OnInit_paths (dispatchTaskOps scenarioRegion (.error (.plain "timeout")))
      scenarioSnapshot freshTask).2.1 scenarioRegion rfl).2.1 _ _ rfl).2.trans (by decide),
    (((OnInit_paths (dispatchTaskOps scenarioRegion (.ok ())) scenarioSnapshot
      freshTask).2.1 scenarioRegion rfl).2.2 _ _ rfl).2.trans (by decide)⟩

theorem fmtDoPrintf_plain (cs : List Char) (fuel : Nat) (h : '%' ∉ cs)
    (hf : cs.length ≤ fuel) : fmtDoPrintf fuel cs = cs := by
  induction cs generalizing fuel with
  | nil => cases fuel <;> rfl
  | cons c rest ih =>
    cases fuel with
    | zero => simp at hf
    | succ n =>
      have hc : c ≠ '%' := fun e => h (by rw [e]; exact List.mem_cons_self _ _)
      have hr : '%' ∉ rest := fun m => h (List.mem_cons_of_mem _ m)
      rw [fmtDoPrintf, if_neg hc, ih n hr (by simpa using hf)]

theorem fmtSprintf_plain (format : String) (h : '%' ∉ format.toList) :
    fmtSprintf format = format := by
  unfold fmtSprintf
  rw [fmtDoPrintf_plain format.toList format.length h (Nat.le_refl _)]
  rfl

/-- C13: `OnSnapshotSyncStatusCompleteFailed` records, on the task and on the
snapshot, the text that package fmt renders for the payload text used as a
format without operands.  That text is the payload verbatim when the payload
holds no `%`; for the payload `{"reason":"disk 100% full"}` it is
`{"reason":"disk 100%!f(MISSING)ull"}`, which is what the task and the snapshot
then record. -/
theorem OnSnapshotSyncStatusCompleteFailed_reason :
    (∀ (σ : Type) (ops : SnapshotTaskOps σ) (snapshot : SSnapshot) (data : String) (s : σ),
      (OnSnapshotSyncStatusCompleteFailed ops snapshot data s).calls =
        [.SetStatus snapshot.Id ops.DISK_UNKNOWN (fmtSprintf data),
         .SetStageFailed (fmtSprintf data), .LogEvent snapshot.Id,
         .AddActionLog snapshot.Id (.plain (fmtSprintf data)) false]) ∧
    (∀ data : String, '%' ∉ data.toList → fmtSprintf data = data) ∧
    fmtSprintf "\x7b\"reason\":\"disk 100% full\"\x7d" =
      "\x7b\"reason\":\"disk 100%!f(MISSING)ull\"\x7d" ∧
    (OnSnapshotSyncStatusCompleteFailed (memTaskOps none (.ok ())) scenarioSnapshot
        "\x7b\"reason\":\"disk 100% full\"\x7d" freshTask).store.failedReason =
      some "\x7b\"reason\":\"disk 100%!f(MISSING)ull\"\x7d" ∧
    (OnSnapshotSyncStatusCompleteFailed (memTaskOps none (.ok ())) scenarioSnapshot
        "\x7b\"reason\":\"disk 100% full\"\x7d" freshTask).store.statusReason =
      "\x7b\"reason\":\"disk 100%!f(MISSING)ull\"\x7d" ∧
    (OnSnapshotSyncStatusCompleteFailed (memTaskOps none (.ok ())) scenarioSnapshot
        "\x7b\"reason\":\"disk 100% full\"\x7d" freshTask).store.failedReason ≠
      some "\x7b\"reason\":\"disk 100% full\"\x7d" := by
  refine ⟨fun σ ops snapshot data s => rfl, fmtSprintf_plain, ?_, ?_, ?_, ?_⟩
  · decide
  · decide
  · decide
  · decide

/-! ### cmp: the lookup by name -/

theorem nameMatch_eq_some_iff {Row : Type} (db : OVNNorthbound Row) (r x : Row) :
    nameMatch db r = some x ↔
      db.FindOneMatchNonZeros r = none ∧
        ∃ name, db.asLogicalSwitchPort r = some name ∧
          db.FindOneMatchNonZeros (db.newLogicalSwitchPort name) = some x := by
  unfold nameMatch
  cases h1 : db.FindOneMatchNonZeros r with
  | some y => simp
  | none =>
    cases h2 : db.asLogicalSwitchPort r with
    | none => simp
    | some name => simp

/-- C19 (as stated) fails: the database holds the port `u1` named `p1`; the
first requested row, a port named `p1` with other addresses, has no exact match
and finds `u1` by name alone; the second requested row matches `u1` exactly.
The row found by name is then marked with the current version, and it is
destroyed twice. -/
theorem cmp_name_match_marked :
    (sampleDb [.LogicalSwitchPort "u1" "p1" "cc:dd"]).FindOneMatchNonZeros
      (.LogicalSwitchPort "" "p1" "aa:bb") = none ∧
    nameMatch (sampleDb [.LogicalSwitchPort "u1" "p1" "cc:dd"])
      (.LogicalSwitchPort "" "p1" "aa:bb") = some (.LogicalSwitchPort "u1" "p1" "cc:dd") ∧
    (cmp (sampleDb [.LogicalSwitchPort "u1" "p1" "cc:dd"]) "v2"
        [.LogicalSwitchPort "" "p1" "aa:bb", .LogicalSwitchPort "" "p1" "cc:dd"]).marks =
      [{ row := .LogicalSwitchPort "u1" "p1" "cc:dd", key := "oc-version", value := "v2" }] ∧
    (cmp (sampleDb [.LogicalSwitchPort "u1" "p1" "cc:dd"]) "v2"
        [.LogicalSwitchPort "" "p1" "aa:bb", .LogicalSwitchPort "" "p1" "cc:dd"]).allFound =
      false ∧
    (cmp (sampleDb [.LogicalSwitchPort "u1" "p1" "cc:dd"]) "v2"
        [.LogicalSwitchPort "" "p1" "aa:bb", .LogicalSwitchPort "" "p1" "cc:dd"]).args =
      ["--", "--if-exists", "destroy", "Logical_Switch_Port", "u1",
       "--", "--if-exists", "destroy", "Logical_Switch_Port", "u1"] := by
  refine ⟨?_, ?_, ?_, ?_, ?_⟩ <;> decide

/-- C19 (amended): the lookup by name in `cmp`.  The queries that `cmp` passes
to `db.FindOneMatchNonZeros` are, for each requested row in order, the row
itself and, when it has no exact match and is a logical switch port, a second
query by its name alone; so a requested row without exact match is looked up a
second time exactly when it is a logical switch port.  When some requested row
has no exact match, `cmp` returns false and its second value is the destroy
arguments of the exactly matched rows followed by those of the rows found by
name; a row is found by name only for a requested logical switch port without
exact match, so requested rows of other kinds add nothing.  The lookup by name
marks nothing: the rows marked with the version are exactly the exact matches
of the requested rows, so a row found by name is marked only when it is also
the exact match of a requested row. -/
theorem cmp_name_fallback {Row : Type} (db : OVNNorthbound Row) (ocver : String)
    (irows : List Row) :
    (cmp db ocver irows).lookups =
      irows.flatMap (fun r =>
        r :: (if (db.FindOneMatchNonZeros r).isNone then
          ((db.asLogicalSwitchPort r).map db.newLogicalSwitchPort).toList else [])) ∧
    (∀ r, db.FindOneMatchNonZeros r = none →
      (∀ name, db.asLogicalSwitchPort r = some name →
        (cmp db ocver [r]).lookups = [r, db.newLogicalSwitchPort name]) ∧
      (db.asLogicalSwitchPort r = none → (cmp db ocver [r]).lookups = [r])) ∧
    (∀ r, (db.FindOneMatchNonZeros r).isSome = true → (cmp db ocver [r]).lookups = [r]) ∧
    ((∃ r ∈ irows, db.FindOneMatchNonZeros r = none) →
      (cmp db ocver irows).allFound = false ∧
      (cmp db ocver irows).args =
        db.OvnNbctlArgsDestroy (irows.filterMap db.FindOneMatchNonZeros) ++
          db.OvnNbctlArgsDestroy (irows.filterMap (nameMatch db))) ∧
    (∀ r x, nameMatch db r = some x ↔
      db.FindOneMatchNonZeros r = none ∧
        ∃ name, db.asLogicalSwitchPort r = some name ∧
          db.FindOneMatchNonZeros (db.newLogicalSwitchPort name) = some x) ∧
    (cmp db ocver irows).marks =
      (irows.filterMap db.FindOneMatchNonZeros).map
        (fun r => { row := r, key := db.externalKeyOcVersion, value := ocver }) ∧
    (∀ x, (∃ m ∈ (cmp db ocver irows).marks, m.row = x) ↔
      ∃ r ∈ irows, db.FindOneMatchNonZeros r = some x) := by
  have hlook : ∀ rows : List Row, (cmp db ocver rows).lookups =
      rows.flatMap (fun r =>
        r :: (if (db.FindOneMatchNonZeros r).isNone then
          ((db.asLogicalSwitchPort r).map db.newLogicalSwitchPort).toList else [])) := by
    intro rows
    unfold cmp
    simp only [cmp_scan_eq]
    by_cases h : (exactMatches db rows).length = rows.length
    · simp only [if_pos h]
    · simp only [if_neg h]
  have hmarks : (cmp db ocver irows).marks =
      (irows.filterMap db.FindOneMatchNonZeros).map
        (fun r => { row := r, key := db.externalKeyOcVersion, value := ocver }) := by
    unfold cmp
    simp only [cmp_scan_eq, cmpMark_foldl, List.nil_append]
    by_cases h : (exactMatches db irows).length = irows.length
    · simp only [if_pos h]; rfl
    · simp only [if_neg h]; rfl
  refine ⟨hlook irows, fun r h => ⟨fun name hn => ?_, fun hn => ?_⟩, fun r h => ?_,
    fun h => ?_, nameMatch_eq_some_iff db, hmarks, fun x => ⟨fun hm => ?_, fun hr => ?_⟩⟩
  · rw [hlook]; simp [h, hn]
  · rw [hlook]; simp [h, hn]
  · rw [hlook]
    cases h1 : db.FindOneMatchNonZeros r with
    | none => rw [h1] at h; simp at h
    | some y => simp [h1]
  · obtain ⟨r, hr, hnone⟩ := h
    have hne : ¬ (exactMatches db irows).length = irows.length := fun he => by
      have := (exactMatches_length_eq_iff db irows).1 he r hr
      rw [hnone] at this
      simp at this
    unfold cmp
    simp only [cmp_scan_eq, if_neg hne]
    refine ⟨?_, ?_⟩ <;> first | rfl | trivial
  · obtain ⟨m, hm1, hm2⟩ := hm
    rw [hmarks] at hm1
    obtain ⟨y, hy, hym⟩ := List.mem_map.1 hm1
    obtain ⟨r, hr, hry⟩ := List.mem_filterMap.1 hy
    exact ⟨r, hr, by rw [hry, ← hm2, ← hym]⟩
  · obtain ⟨r, hr, hrx⟩ := hr
    rw [hmarks]
    exact ⟨_, List.mem_map.2 ⟨x, List.mem_filterMap.2 ⟨r, hr, hrx⟩, rfl⟩, rfl⟩

/-- Evaluation for the amended C19 on the sample database: the requested port
`p1` has no exact match and is looked up a second time by its name alone, the
requested switch without exact match is looked up once; the port found by name
is destroyed and, being the exact match of no requested row, not marked. -/
theorem cmp_name_fallback_witness :
    (cmp (sampleDb [.LogicalSwitchPort "u1" "p1" "cc:dd"]) "v2"
        [.LogicalSwitchPort "" "p1" "aa:bb", .LogicalSwitch "" "sw"]).lookups =
      [.LogicalSwitchPort "" "p1" "aa:bb", .LogicalSwitchPort "" "p1" "",
       .LogicalSwitch "" "sw"] ∧
    (cmp (sampleDb [.LogicalSwitchPort "u1" "p1" "cc:dd"]) "v2"
        [.LogicalSwitchPort "" "p1" "aa:bb", .LogicalSwitch "" "sw"]).args =
      ["--", "--if-exists", "destroy", "Logical_Switch_Port", "u1"] ∧
    (cmp (sampleDb [.LogicalSwitchPort "u1" "p1" "cc:dd"]) "v2"
        [.LogicalSwitchPort "" "p1" "aa:bb", .LogicalSwitch "" "sw"]).marks = [] ∧
    (cmp (sampleDb [.LogicalSwitchPort "u1" "p1" "cc:dd"]) "v2"
        [.LogicalSwitchPort "" "p1" "aa:bb", .LogicalSwitch "" "sw"]).allFound = false :=
  ⟨(cmp_name_fallback (sampleDb [.LogicalSwitchPort "u1" "p1" "cc:dd"]) "v2"
      [.LogicalSwitchPort "" "p1" "aa:bb", .LogicalSwitch "" "sw"]).1.trans (by decide),
    ((cmp_name_fallback (sampleDb [.LogicalSwitchPort "u1" "p1" "cc:dd"]) "v2"
      [.LogicalSwitchPort "" "p1" "aa:bb", .LogicalSwitch "" "sw"]).2.2.2.1
        ⟨_, List.mem_cons_self _ _, by decide⟩).2.trans (by decide),
    (cmp_name_fallback (sampleDb [.LogicalSwitchPort "u1" "p1" "cc:dd"]) "v2"
      [.LogicalSwitchPort "" "p1" "aa:bb", .LogicalSwitch "" "sw"]).2.2.2.2.2.1.trans (by decide),
    ((cmp_name_fallback (sampleDb [.LogicalSwitchPort "u1" "p1" "cc:dd"]) "v2"
      [.LogicalSwitchPort "" "p1" "aa:bb", .LogicalSwitch "" "sw"]).2.2.2.1
        ⟨_, List.mem_cons_self _ _, by decide⟩).1⟩

/-! ### SyncWithCloudVpc -/

/-- C17: `SyncWithCloudVpc` leaves the receiver with the Status, CidrBlock,
IsDefault, ExternalId and IsEmulated reported by the external VPC and with its
other columns (Name, Id, CloudregionId, ManagerId, GlobalvpcId, Enabled) as they
were.  It succeeds exactly when `db.UpdateWithLock` does, and then logs the
sync update with the diff of the update; when the update fails it returns that
error and the store is the one the update left, with no `LogSyncUpdate` call
(with the in-memory log: no entry is added). -/
theorem SyncWithCloudVpc_frame {σ : Type} (ops : VpcOps σ) (self : SVpc) (extVPC : ICloudVpc)
    (s : σ) :
    ((self.SyncWithCloudVpc ops extVPC s).2.1.Status = extVPC.Status ∧
      (self.SyncWithCloudVpc ops extVPC s).2.1.CidrBlock = extVPC.CidrBlock ∧
      (self.SyncWithCloudVpc ops extVPC s).2.1.IsDefault = extVPC.IsDefault ∧
      (self.SyncWithCloudVpc ops extVPC s).2.1.ExternalId = extVPC.GlobalId ∧
      (self.SyncWithCloudVpc ops extVPC s).2.1.IsEmulated = extVPC.IsEmulated) ∧
    ((self.SyncWithCloudVpc ops extVPC s).2.1.Name = self.Name ∧
      (self.SyncWithCloudVpc ops extVPC s).2.1.Id = self.Id ∧
      (self.SyncWithCloudVpc ops extVPC s).2.1.CloudregionId = self.CloudregionId ∧
      (self.SyncWithCloudVpc ops extVPC s).2.1.ManagerId = self.ManagerId ∧
      (self.SyncWithCloudVpc ops extVPC s).2.1.GlobalvpcId = self.GlobalvpcId ∧
      (self.SyncWithCloudVpc ops extVPC s).2.1.Enabled = self.Enabled) ∧
    (∀ diff s1,
      ops.UpdateWithLock self (self.SyncWithCloudVpc ops extVPC s).2.1 s = (.ok diff, s1) →
      (self.SyncWithCloudVpc ops extVPC s).1 = .ok () ∧
      (self.SyncWithCloudVpc ops extVPC s).2.2 =
        ops.LogSyncUpdate (self.SyncWithCloudVpc ops extVPC s).2.1 diff s1) ∧
    (∀ err s1,
      ops.UpdateWithLock self (self.SyncWithCloudVpc ops extVPC s).2.1 s = (.error err, s1) →
      (self.SyncWithCloudVpc ops extVPC s).1 = .error err ∧
      (self.SyncWithCloudVpc ops extVPC s).2.2 = s1) ∧
    (∀ st : Store,
      (self.SyncWithCloudVpc failingUpdateOps extVPC st).1 = .error (.plain "update failed") ∧
      (self.SyncWithCloudVpc failingUpdateOps extVPC st).2.2.opslogs = st.opslogs) := by
  have hself : (self.SyncWithCloudVpc ops extVPC s).2.1 =
      { self with
        Status := extVPC.Status, CidrBlock := extVPC.CidrBlock, IsDefault := extVPC.IsDefault,
        ExternalId := extVPC.GlobalId, IsEmulated := extVPC.IsEmulated } := by
    unfold SVpc.SyncWithCloudVpc
    simp only []
    rcases ops.UpdateWithLock self _ s with ⟨r, s1⟩
    cases r <;> rfl
  refine ⟨?_, ?_, ?_, ?_, ?_⟩
  · rw [hself]; exact ⟨rfl, rfl, rfl, rfl, rfl⟩
  · rw [hself]; exact ⟨rfl, rfl, rfl, rfl, rfl, rfl⟩
  · intro diff s1 h
    rw [hself] at h ⊢
    unfold SVpc.SyncWithCloudVpc
    simp only [h]
    refine ⟨?_, ?_⟩ <;> first | rfl | trivial
  · intro err s1 h
    rw [hself] at h
    unfold SVpc.SyncWithCloudVpc
    simp only [h]
    refine ⟨?_, ?_⟩ <;> first | rfl | trivial
  · intro st
    exact ⟨rfl, rfl⟩

/-- Evaluation for C17 on the in-memory store: VPC `X` synchronised with an
observation of `e1` takes its status and keeps its name and identifiers; with an
update that fails the error is returned and the log is left as it was. -/
theorem SyncWithCloudVpc_frame_witness :
    ((scenarioX.SyncWithCloudVpc memOps { observed "e1" "renamed" with Status := "pending" }
        (storeOf [scenarioX])).2.1.Status = "pending" ∧
      (scenarioX.SyncWithCloudVpc memOps { observed "e1" "renamed" with Status := "pending" }
        (storeOf [scenarioX])).2.1.Name = "X") ∧
    (scenarioX.SyncWithCloudVpc failingUpdateOps
        { observed "e1" "renamed" with Status := "pending" } (storeOf [scenarioX])).1 =
      .error (.plain "update failed") ∧
    (scenarioX.SyncWithCloudVpc failingUpdateOps
        { observed "e1" "renamed" with Status := "pending" } (storeOf [scenarioX])).2.2.opslogs =
      [] :=
  ⟨⟨(SyncWithCloudVpc_frame memOps scenarioX { observed "e1" "renamed" with Status := "pending" }
        (storeOf [scenarioX])).1.1,
      (SyncWithCloudVpc_frame memOps scenarioX { observed "e1" "renamed" with Status := "pending" }
        (storeOf [scenarioX])).2.1.1⟩,
    ((SyncWithCloudVpc_frame memOps scenarioX { observed "e1" "renamed" with Status := "pending" }
      (storeOf [scenarioX])).2.2.2.2 (storeOf [scenarioX])).1,
    ((SyncWithCloudVpc_frame memOps scenarioX { observed "e1" "renamed" with Status := "pending" }
      (storeOf [scenarioX])).2.2.2.2 (storeOf [scenarioX])).2⟩

/-! ### The VPC emulated for a classic network -/

theorem FetchByExternalId_mem (externalId : String) (st : Store) :
    memOps.FetchByExternalId externalId st =
      match st.vpcs.filter (fun row => decide (row.ExternalId = externalId)) with
      | [] => .error ErrNoRows
      | [row] => .ok row
      | _ :: _ :: _ => .error (.plain "duplicate entry") := rfl

theorem NewVpcForClassicNetwork_mem_found (host : SHost) (st : Store) (x : SVpc)
    (h : st.vpcs.filter (fun row => decide (row.ExternalId =
      getVpcExternalIdForClassicNetwork host.region.Id host.cloudprovider.Id)) = [x]) :
    NewVpcForClassicNetwork memOps host st = { result := .ok x, store := st, inserts := [] } := by
  unfold NewVpcForClassicNetwork
  rw [FetchByExternalId_mem, h]

theorem NewVpcForClassicNetwork_mem_none (host : SHost) (st : Store)
    (h : st.vpcs.filter (fun row => decide (row.ExternalId =
      getVpcExternalIdForClassicNetwork host.region.Id host.cloudprovider.Id)) = []) :
    NewVpcForClassicNetwork memOps host st =
      { result := .ok { classicNetworkVpc memOps host with
                        Id := freshId (st.vpcs.map (fun v => v.Id)) }
        store := { st with vpcs := st.vpcs ++ [{ classicNetworkVpc memOps host with
                        Id := freshId (st.vpcs.map (fun v => v.Id)) }] }
        inserts := [classicNetworkVpc memOps host] } := by
  unfold NewVpcForClassicNetwork
  rw [FetchByExternalId_mem, h]
  have hc : ¬ (ErrNoRows.Cause ≠ ErrNoRows) := by decide
  simp only [if_neg hc]
  rfl

theorem NewVpcForClassicNetwork_mem_many (host : SHost) (st : Store) (x y : SVpc)
    (rest : List SVpc)
    (h : st.vpcs.filter (fun row => decide (row.ExternalId =
      getVpcExternalIdForClassicNetwork host.region.Id host.cloudprovider.Id)) = x :: y :: rest) :
    NewVpcForClassicNetwork memOps host st =
      { result := .error (.wrap "db.FetchByExternalId" (.plain "duplicate entry")), store := st,
        inserts := [] } := by
  unfold NewVpcForClassicNetwork
  rw [FetchByExternalId_mem, h]
  have hc : (Err.plain "duplicate entry").Cause ≠ ErrNoRows := by decide
  simp only [if_pos hc]

/-- C15 (as stated) fails: with a lookup by external id that fails for another
reason than a missing row, no VPC with the external id `r-m` of the host exists
in the store, yet `NewVpcForClassicNetwork` inserts nothing and returns the
wrapped error. -/
theorem NewVpcForClassicNetwork_lookup_error :
    (∀ v ∈ (storeOf []).vpcs, v.ExternalId ≠
      getVpcExternalIdForClassicNetwork scenarioHost.region.Id scenarioHost.cloudprovider.Id) ∧
    (NewVpcForClassicNetwork failingLookupOps scenarioHost (storeOf [])).inserts = [] ∧
    (NewVpcForClassicNetwork failingLookupOps scenarioHost (storeOf [])).result =
      .error (.wrap "db.FetchByExternalId" (.plain "driver: bad connection")) ∧
    (NewVpcForClassicNetwork failingLookupOps scenarioHost (storeOf [])).store = storeOf [] := by
  refine ⟨?_, ?_, ?_, ?_⟩
  · intro v hv; simp [storeOf] at hv
  · decide
  · rfl
  · decide

/-- C15 (amended): `NewVpcForClassicNetwork` looks up the external id
`<region id>-<cloud provider id>`.  When the lookup finds a VPC, that VPC is
returned and nothing is inserted.  When the lookup reports no rows, exactly one
VPC is passed to `Insert`, with that external id, emulated, disabled, with
status `VPC_STATUS_UNAVAILABLE` and not default, and the call returns the
inserted VPC, or the wrapped error when the insert fails.  When the lookup fails
for another reason, the wrapped error is returned and nothing is inserted.  On
the in-memory store, when at most one VPC holds that external id, two calls in
a row for the same host return the same VPC, which holds that external id; the
second call inserts nothing and changes nothing, the first inserts one VPC
exactly when none held the external id, and exactly one VPC holds it
afterwards. -/
theorem NewVpcForClassicNetwork_spec {σ : Type} (ops : VpcOps σ) (host : SHost) (s : σ) :
    (∀ v, ops.FetchByExternalId
        (getVpcExternalIdForClassicNetwork host.region.Id host.cloudprovider.Id) s = .ok v →
      (NewVpcForClassicNetwork ops host s).result = .ok v ∧
      (NewVpcForClassicNetwork ops host s).store = s ∧
      (NewVpcForClassicNetwork ops host s).inserts = []) ∧
    (∀ e, ops.FetchByExternalId
        (getVpcExternalIdForClassicNetwork host.region.Id host.cloudprovider.Id) s = .error e →
      e.Cause = ErrNoRows →
      (NewVpcForClassicNetwork ops host s).inserts = [classicNetworkVpc ops host] ∧
      ((classicNetworkVpc ops host).ExternalId =
          getVpcExternalIdForClassicNetwork host.region.Id host.cloudprovider.Id ∧
        (classicNetworkVpc ops host).IsEmulated = true ∧
        (classicNetworkVpc ops host).Enabled = false ∧
        (classicNetworkVpc ops host).Status = ops.VPC_STATUS_UNAVAILABLE ∧
        (classicNetworkVpc ops host).IsDefault = false) ∧
      (∀ v s1, ops.Insert (classicNetworkVpc ops host) s = (.ok v, s1) →
        (NewVpcForClassicNetwork ops host s).result = .ok v ∧
        (NewVpcForClassicNetwork ops host s).store = s1) ∧
      (∀ e1 s1, ops.Insert (classicNetworkVpc ops host) s = (.error e1, s1) →
        (NewVpcForClassicNetwork ops host s).result =
          .error (.wrap "Insert vpc for classic network" e1) ∧
        (NewVpcForClassicNetwork ops host s).store = s1)) ∧
    (∀ e, ops.FetchByExternalId
        (getVpcExternalIdForClassicNetwork host.region.Id host.cloudprovider.Id) s = .error e →
      e.Cause ≠ ErrNoRows →
      (NewVpcForClassicNetwork ops host s).result = .error (.wrap "db.FetchByExternalId" e) ∧
      (NewVpcForClassicNetwork ops host s).store = s ∧
      (NewVpcForClassicNetwork ops host s).inserts = []) ∧
    (∀ st : Store,
      (st.vpcs.filter (fun row => decide (row.ExternalId =
        getVpcExternalIdForClassicNetwork host.region.Id host.cloudprovider.Id))).length ≤ 1 →
      (∃ v, (NewVpcForClassicNetwork memOps host st).result = .ok v ∧
        (NewVpcForClassicNetwork memOps host
          (NewVpcForClassicNetwork memOps host st).store).result = .ok v ∧
        v.ExternalId =
          getVpcExternalIdForClassicNetwork host.region.Id host.cloudprovider.Id) ∧
      (NewVpcForClassicNetwork memOps host
        (NewVpcForClassicNetwork memOps host st).store).inserts = [] ∧
      (NewVpcForClassicNetwork memOps host
        (NewVpcForClassicNetwork memOps host st).store).store =
          (NewVpcForClassicNetwork memOps host st).store ∧
      ((NewVpcForClassicNetwork memOps host st).inserts.length = 1 ↔
        ∀ row ∈ st.vpcs, row.ExternalId ≠
          getVpcExternalIdForClassicNetwork host.region.Id host.cloudprovider.Id) ∧
      (NewVpcForClassicNetwork memOps host st).inserts.length ≤ 1 ∧
      ((NewVpcForClassicNetwork memOps host st).store.vpcs.filter
        (fun row => decide (row.ExternalId =
          getVpcExternalIdForClassicNetwork host.region.Id host.cloudprovider.Id))).length
        = 1) := by
  refine ⟨fun v h => ?_, fun e h hc => ?_, fun e h hc => ?_, fun st hle => ?_⟩
  · unfold NewVpcForClassicNetwork
    rw [h]
    exact ⟨rfl, rfl, rfl⟩
  · have hc2 : ¬ (e.Cause ≠ ErrNoRows) := fun hn => hn hc
    refine ⟨?_, ⟨rfl, rfl, rfl, rfl, rfl⟩, fun v s1 hi => ?_, fun e1 s1 hi => ?_⟩
    · unfold NewVpcForClassicNetwork
      rw [h]
      simp only [if_neg hc2]
      rcases ops.Insert (classicNetworkVpc ops host) s with ⟨r, s1⟩
      cases r <;> rfl
    · unfold NewVpcForClassicNetwork
      rw [h]
      simp only [if_neg hc2, hi]
      refine ⟨?_, ?_⟩ <;> first | rfl | trivial
    · unfold NewVpcForClassicNetwork
      rw [h]
      simp only [if_neg hc2, hi]
      refine ⟨?_, ?_⟩ <;> first | rfl | trivial
  · unfold NewVpcForClassicNetwork
    rw [h]
    simp only [if_pos hc]
    refine ⟨?_, ?_, ?_⟩ <;> first | rfl | trivial
  · cases hF : st.vpcs.filter (fun row => decide (row.ExternalId =
        getVpcExternalIdForClassicNetwork host.region.Id host.cloudprovider.Id)) with
    | nil =>
      have h2 : ({ st with vpcs := st.vpcs ++ [{ classicNetworkVpc memOps host with
            Id := freshId (st.vpcs.map (fun v => v.Id)) }] } : Store).vpcs.filter
          (fun row => decide (row.ExternalId =
            getVpcExternalIdForClassicNetwork host.region.Id host.cloudprovider.Id)) =
          [{ classicNetworkVpc memOps host with
            Id := freshId (st.vpcs.map (fun v => v.Id)) }] := by
        show List.filter _ (st.vpcs ++ [_]) = _
        rw [List.filter_append, hF]
        simp [classicNetworkVpc]
      rw [NewVpcForClassicNetwork_mem_none host st hF]
      simp only []
      rw [NewVpcForClassicNetwork_mem_found host _ _ h2]
      refine ⟨⟨_, rfl, rfl, rfl⟩, rfl, rfl, ?_, by simp, ?_⟩
      · simp only [List.length_singleton, true_iff]
        intro row hrow heq
        have : row ∈ st.vpcs.filter (fun row => decide (row.ExternalId =
            getVpcExternalIdForClassicNetwork host.region.Id host.cloudprovider.Id)) :=
          List.mem_filter.2 ⟨hrow, by simpa using heq⟩
        rw [hF] at this
        exact absurd this (List.not_mem_nil _)
      · rw [h2]; rfl
    | cons x rest =>
      have hrest : rest = [] := by
        rw [hF] at hle
        cases rest with
        | nil => rfl
        | cons y r => simp at hle
      rw [hrest] at hF
      have hx : x ∈ st.vpcs.filter (fun row => decide (row.ExternalId =
          getVpcExternalIdForClassicNetwork host.region.Id host.cloudprovider.Id)) := by
        rw [hF]; exact List.mem_singleton_self x
      have hx2 := List.mem_filter.1 hx
      have hxe : x.ExternalId =
          getVpcExternalIdForClassicNetwork host.region.Id host.cloudprovider.Id := by
        simpa using hx2.2
      rw [NewVpcForClassicNetwork_mem_found host st x hF]
      simp only []
      rw [NewVpcForClassicNetwork_mem_found host st x hF]
      refine ⟨⟨x, rfl, rfl, hxe⟩, rfl, rfl, ?_, by simp, ?_⟩
      · simp only [List.length_nil, Nat.zero_ne_one, false_iff, not_forall]
        exact ⟨x, hx2.1, fun hn => hn hxe⟩
      · rw [hF]; rfl

/-- Witness for the amended C15 on the in-memory store: on an empty table, two
calls in a row for the scenario host return the same VPC with the external id
`r-m`, and one VPC is inserted in all. -/
theorem NewVpcForClassicNetwork_spec_witness :
    (∃ v, (NewVpcForClassicNetwork memOps scenarioHost (storeOf [])).result = .ok v ∧
      (NewVpcForClassicNetwork memOps scenarioHost
        (NewVpcForClassicNetwork memOps scenarioHost (storeOf [])).store).result = .ok v ∧
      v.ExternalId = getVpcExternalIdForClassicNetwork scenarioHost.region.Id
        scenarioHost.cloudprovider.Id) ∧
    (NewVpcForClassicNetwork memOps scenarioHost (storeOf [])).inserts.length = 1 ∧
    (NewVpcForClassicNetwork memOps scenarioHost
      (NewVpcForClassicNetwork memOps scenarioHost (storeOf [])).store).inserts = [] :=
  ⟨((NewVpcForClassicNetwork_spec memOps scenarioHost (storeOf [])).2.2.2 (storeOf [])
      (by decide)).1,
    (((NewVpcForClassicNetwork_spec memOps scenarioHost (storeOf [])).2.2.2 (storeOf [])
      (by decide)).2.2.2.1).2 (by decide),
    ((NewVpcForClassicNetwork_spec memOps scenarioHost (storeOf [])).2.2.2 (storeOf [])
      (by decide)).2.1⟩

/-- C20: `syncRemoveCloudVpc` keeps the VPC emulated for a classic network.
For every VPC whose ExternalId equals `<CloudregionId>-<ManagerId>` it returns
nil, leaves the store as it was and makes none of the calls
`ValidateDeleteCondition`, `markAllNetworksUnknown`, `PerformDisable`,
`SetStatus`, `RealDelete`; the loop of `SyncVPCs` over the removed VPCs then
leaves the store unchanged and counts no delete error.  When the ManagerId of a
host equals the id of its cloud provider, the VPC that
`NewVpcForClassicNetwork` inserts for the host is such a VPC, and so is every
row that agrees with it on ExternalId, CloudregionId and ManagerId; on the
in-memory store the VPC returned by an inserting call is in the table and
`syncRemoveCloudVpc` keeps it in every later store. -/
theorem syncRemoveCloudVpc_keeps_classic {σ : Type} (ops : VpcOps σ) :
    (∀ (self : SVpc) (s : σ),
      getVpcExternalIdForClassicNetwork self.CloudregionId self.ManagerId = self.ExternalId →
      self.syncRemoveCloudVpc ops s = (.ok (), s, [])) ∧
    (∀ (self : SVpc) (st : SyncState σ),
      getVpcExternalIdForClassicNetwork self.CloudregionId self.ManagerId = self.ExternalId →
      (removeStep ops st self).store = st.store ∧
      (removeStep ops st self).syncResult = st.syncResult.Delete) ∧
    (∀ (host : SHost) (s0 : σ), host.ManagerId = host.cloudprovider.Id →
      ∀ v ∈ (NewVpcForClassicNetwork ops host s0).inserts, ∀ row : SVpc,
        row.ExternalId = v.ExternalId → row.CloudregionId = v.CloudregionId →
        row.ManagerId = v.ManagerId →
        ∀ s : σ, row.syncRemoveCloudVpc ops s = (.ok (), s, [])) ∧
    (∀ (host : SHost) (st : Store) (v : SVpc), host.ManagerId = host.cloudprovider.Id →
      (NewVpcForClassicNetwork memOps host st).inserts ≠ [] →
      (NewVpcForClassicNetwork memOps host st).result = .ok v →
      v ∈ (NewVpcForClassicNetwork memOps host st).store.vpcs ∧
      ∀ s2 : Store, v.syncRemoveCloudVpc memOps s2 = (.ok (), s2, [])) := by
  have hkeep : ∀ {τ : Type} (o : VpcOps τ) (self : SVpc) (s : τ),
      getVpcExternalIdForClassicNetwork self.CloudregionId self.ManagerId = self.ExternalId →
      self.syncRemoveCloudVpc o s = (.ok (), s, []) := by
    intro τ o self s h
    unfold SVpc.syncRemoveCloudVpc
    rw [if_pos h]
  have hins : ∀ {τ : Type} (o : VpcOps τ) (host : SHost) (s0 : τ),
      ∀ v ∈ (NewVpcForClassicNetwork o host s0).inserts, v = classicNetworkVpc o host := by
    intro τ o host s0 v hv
    unfold NewVpcForClassicNetwork at hv
    cases hl : o.FetchByExternalId
        (getVpcExternalIdForClassicNetwork host.region.Id host.cloudprovider.Id) s0 with
    | ok x => rw [hl] at hv; simp at hv
    | error e =>
      rw [hl] at hv
      by_cases hc : e.Cause ≠ ErrNoRows
      · simp only [if_pos hc] at hv; simp at hv
      · simp only [if_neg hc] at hv
        rcases hi : o.Insert (classicNetworkVpc o host) s0 with ⟨r, s1⟩
        rw [hi] at hv
        cases r with
        | error e1 => simpa using hv
        | ok x => simpa using hv
  refine ⟨hkeep ops, fun self st h => ?_, fun host s0 hm v hv row h1 h2 h3 s => ?_,
    fun host st v hm hne hres => ?_⟩
  · unfold removeStep
    rw [hkeep ops self st.store h]
    exact ⟨rfl, rfl⟩
  · apply hkeep
    rw [hins ops host s0 v hv] at h1 h2 h3
    rw [h1, h2, h3]
    show getVpcExternalIdForClassicNetwork host.region.Id host.ManagerId =
      getVpcExternalIdForClassicNetwork host.region.Id host.cloudprovider.Id
    rw [hm]
  · cases hF : st.vpcs.filter (fun row => decide (row.ExternalId =
        getVpcExternalIdForClassicNetwork host.region.Id host.cloudprovider.Id)) with
    | nil =>
      rw [NewVpcForClassicNetwork_mem_none host st hF] at hres ⊢
      simp only [Except.ok.injEq] at hres
      subst hres
      refine ⟨by simp, fun s2 => hkeep memOps _ s2 ?_⟩
      show getVpcExternalIdForClassicNetwork host.region.Id host.ManagerId =
        getVpcExternalIdForClassicNetwork host.region.Id host.cloudprovider.Id
      rw [hm]
    | cons x rest =>
      cases rest with
      | nil =>
        rw [NewVpcForClassicNetwork_mem_found host st x hF] at hne
        exact absurd rfl hne
      | cons y r =>
        rw [NewVpcForClassicNetwork_mem_many host st x y r hF] at hne
        exact absurd rfl hne

/-- Witness for C20 on the in-memory store: the VPC created for the scenario
host, whose ManagerId is the id of its cloud provider, is kept by
`syncRemoveCloudVpc` in the store the creation left. -/
theorem syncRemoveCloudVpc_keeps_classic_witness :
    ∃ v, (NewVpcForClassicNetwork memOps scenarioHost (storeOf [])).result = .ok v ∧
      v ∈ (NewVpcForClassicNetwork memOps scenarioHost (storeOf [])).store.vpcs ∧
      v.syncRemoveCloudVpc memOps (NewVpcForClassicNetwork memOps scenarioHost (storeOf [])).store
        = (.ok (), (NewVpcForClassicNetwork memOps scenarioHost (storeOf [])).store, []) :=
  ⟨{ classicNetworkVpc memOps scenarioHost with Id := "i" }, rfl,
    ((syncRemoveCloudVpc_keeps_classic memOps).2.2.2 scenarioHost (storeOf []) _ rfl
      (by decide) rfl).1,
    ((syncRemoveCloudVpc_keeps_classic memOps).2.2.2 scenarioHost (storeOf []) _ rfl
      (by decide) rfl).2 _⟩

/-! ### Proxy settings: the DIRECT placeholder -/

theorem FetchById_mem (idStr : String) (rows : List SProxySetting) :
    memProxyOps.FetchById idStr rows =
      match rows.filter (fun row => decide (row.Id = idStr)) with
      | [] => .error ErrNoRows
      | [row] => .ok row
      | _ :: _ :: _ => .error (.plain "duplicate entry") := rfl

theorem InitializeData_mem_found (d : String) (rows : List SProxySetting) (x : SProxySetting)
    (h : rows.filter (fun row => decide (row.Id = d)) = [x]) :
    InitializeData d memProxyOps rows = { err := .ok (), store := rows, inserts := [] } := by
  unfold InitializeData
  rw [FetchById_mem, h]

theorem InitializeData_mem_none (d : String) (rows : List SProxySetting)
    (h : rows.filter (fun row => decide (row.Id = d)) = []) :
    InitializeData d memProxyOps rows =
      { err := .ok ()
        store := rows ++ [{ Id := d, Name := d, Description := "Connect directly", DomainId := "",
                            HTTPProxy := "", HTTPSProxy := "", NoProxy := "" }]
        inserts := [{ Id := d, Name := d, Description := "Connect directly", DomainId := "",
                      HTTPProxy := "", HTTPSProxy := "", NoProxy := "" }] } := by
  have hnot : d ∉ rows.map (fun row => row.Id) := by
    intro hm
    obtain ⟨row, hrow, hid⟩ := List.mem_map.1 hm
    have : row ∈ rows.filter (fun row => decide (row.Id = d)) :=
      List.mem_filter.2 ⟨hrow, by simpa using hid⟩
    rw [h] at this
    exact absurd this (List.not_mem_nil _)
  unfold InitializeData
  rw [FetchById_mem, h]
  have hc : ¬ (ErrNoRows ≠ ErrNoRows) := fun hn => hn rfl
  simp only [if_neg hc]
  simp only [memProxyOps, if_neg hnot]

theorem InitializeData_mem_many (d : String) (rows : List SProxySetting)
    (x y : SProxySetting) (rest : List SProxySetting)
    (h : rows.filter (fun row => decide (row.Id = d)) = x :: y :: rest) :
    InitializeData d memProxyOps rows =
      { err := .error (.plain "duplicate entry"), store := rows, inserts := [] } := by
  unfold InitializeData
  rw [FetchById_mem, h]
  have hc : Err.plain "duplicate entry" ≠ ErrNoRows := by decide
  simp only [if_pos hc]

/-- C16 (as stated) fails: on an empty table the lookup of the DIRECT setting
reports no rows; when `db.NewModelObject` then fails, `InitializeData` returns
that error and inserts nothing. -/
theorem InitializeData_no_rows_no_insert :
    failingNewModelOps.FetchById "DIRECT" [] = .error ErrNoRows ∧
    (InitializeData "DIRECT" failingNewModelOps []).inserts = [] ∧
    (InitializeData "DIRECT" failingNewModelOps []).store = [] ∧
    (InitializeData "DIRECT" failingNewModelOps []).err =
      .error (.plain "inconsistent data type") := by
  refine ⟨rfl, ?_, ?_, rfl⟩ <;> decide

/-- C16 (amended): `InitializeData` ensures that the DIRECT placeholder exists.
When the lookup of `ProxySettingId_DIRECT` finds a setting, it inserts nothing
and returns nil.  When the lookup reports no rows and `db.NewModelObject`
yields an object, it passes exactly one setting to `Insert`, whose Id and Name
are both `ProxySettingId_DIRECT`, and returns what the insert returns; when
`db.NewModelObject` fails, it returns that error and inserts nothing.  When the
lookup fails with any other error, it returns that error and inserts nothing.
On the in-memory table, after a run that returned nil exactly one setting has
the Id `ProxySettingId_DIRECT`, and a second run returns nil, inserts nothing
and leaves the table as it is. -/
theorem InitializeData_spec {σ : Type} (d : String) (ops : ProxySettingOps σ) (s : σ) :
    (∀ ps, ops.FetchById d s = .ok ps →
      (InitializeData d ops s).err = .ok () ∧ (InitializeData d ops s).store = s ∧
      (InitializeData d ops s).inserts = []) ∧
    (ops.FetchById d s = .error ErrNoRows →
      (∀ m, ops.NewModelObject s = .ok m →
        (InitializeData d ops s).inserts =
          [{ m with Id := d, Name := d, Description := "Connect directly" }] ∧
        (InitializeData d ops s).err =
          (ops.Insert { m with Id := d, Name := d, Description := "Connect directly" } s).1 ∧
        (InitializeData d ops s).store =
          (ops.Insert { m with Id := d, Name := d, Description := "Connect directly" } s).2) ∧
      (∀ e, ops.NewModelObject s = .error e →
        (InitializeData d ops s).err = .error e ∧ (InitializeData d ops s).store = s ∧
        (InitializeData d ops s).inserts = [])) ∧
    (∀ e, ops.FetchById d s = .error e → e ≠ ErrNoRows →
      (InitializeData d ops s).err = .error e ∧ (InitializeData d ops s).store = s ∧
      (InitializeData d ops s).inserts = []) ∧
    (∀ rows : List SProxySetting, (InitializeData d memProxyOps rows).err = .ok () →
      ((InitializeData d memProxyOps rows).store.filter
        (fun row => decide (row.Id = d))).length = 1 ∧
      (∀ row ∈ (InitializeData d memProxyOps rows).inserts, row.Id = d ∧ row.Name = d) ∧
      (InitializeData d memProxyOps rows).inserts.length ≤ 1 ∧
      (InitializeData d memProxyOps (InitializeData d memProxyOps rows).store).err = .ok () ∧
      (InitializeData d memProxyOps (InitializeData d memProxyOps rows).store).inserts = [] ∧
      (InitializeData d memProxyOps (InitializeData d memProxyOps rows).store).store =
        (InitializeData d memProxyOps rows).store) := by
  refine ⟨fun ps h => ?_, fun h => ⟨fun m hm => ?_, fun e hm => ?_⟩, fun e h hne => ?_,
    fun rows hok => ?_⟩
  · unfold InitializeData
    rw [h]
    exact ⟨rfl, rfl, rfl⟩
  · have hc : ¬ (ErrNoRows ≠ ErrNoRows) := fun hn => hn rfl
    unfold InitializeData
    rw [h]
    simp only [if_neg hc, hm]
    rcases hi : ops.Insert { m with Id := d, Name := d, Description := "Connect directly" } s
      with ⟨r, s1⟩
    cases r with
    | error e2 => exact ⟨rfl, rfl, rfl⟩
    | ok u => exact ⟨rfl, rfl, rfl⟩
  · have hc : ¬ (ErrNoRows ≠ ErrNoRows) := fun hn => hn rfl
    unfold InitializeData
    rw [h]
    simp only [if_neg hc, hm]
    refine ⟨?_, ?_, ?_⟩ <;> first | rfl | trivial
  · unfold InitializeData
    rw [h]
    simp only [if_pos hne]
    refine ⟨?_, ?_, ?_⟩ <;> first | rfl | trivial
  · cases hF : rows.filter (fun row => decide (row.Id = d)) with
    | nil =>
      have h2 : ∀ p : SProxySetting, p.Id = d →
          (rows ++ [p]).filter (fun row => decide (row.Id = d)) = [p] := by
        intro p hp
        rw [List.filter_append, hF]
        simp [hp]
      rw [InitializeData_mem_none d rows hF]
      simp only []
      rw [InitializeData_mem_found d _ _ (h2 _ rfl)]
      refine ⟨by rw [h2 _ rfl]; rfl, ?_, by simp, rfl, rfl, rfl⟩
      intro row hrow
      simp only [List.mem_singleton] at hrow
      rw [hrow]
      exact ⟨rfl, rfl⟩
    | cons x rest =>
      cases rest with
      | nil =>
        rw [InitializeData_mem_found d rows x hF]
        simp only []
        rw [InitializeData_mem_found d rows x hF]
        refine ⟨by rw [hF]; rfl, ?_, by simp, rfl, rfl, rfl⟩
        intro row hrow
        simp at hrow
      | cons y r =>
        rw [InitializeData_mem_many d rows x y r hF] at hok
        simp at hok

/-- Witness for the amended C16 on the in-memory table: a run on the empty
table returns nil, after it one setting has the Id `DIRECT`, and a second run
inserts nothing and leaves the table as it is. -/
theorem InitializeData_spec_witness :
    (InitializeData "DIRECT" memProxyOps []).err = .ok () ∧
    ((InitializeData "DIRECT" memProxyOps []).store.filter
      (fun row => decide (row.Id = "DIRECT"))).length = 1 ∧
    (InitializeData "DIRECT" memProxyOps (InitializeData "DIRECT" memProxyOps []).store).inserts
      = [] ∧
    (InitializeData "DIRECT" memProxyOps (InitializeData "DIRECT" memProxyOps []).store).store =
      (InitializeData "DIRECT" memProxyOps []).store :=
  ⟨rfl, ((InitializeData_spec "DIRECT" memProxyOps []).2.2.2 [] rfl).1,
    ((InitializeData_spec "DIRECT" memProxyOps []).2.2.2 [] rfl).2.2.2.2.1,
    ((InitializeData_spec "DIRECT" memProxyOps []).2.2.2 [] rfl).2.2.2.2.2⟩

/-! ### SyncVPCs: early failures and the returned lists -/

/-- C21: the early failures of `SyncVPCs`.  When fetching the local VPCs of the
scope fails, when one of them is in a task, or when the set comparison fails,
both returned lists are nil, the returned `SyncResult` is the zero value with
the error recorded (the error of the fetch, `object in task`, or the error of
the comparison), no callback is invoked and the store is left as it was. -/
theorem SyncVPCs_early_failure {σ : Type} (ops : VpcOps σ) (provider : SCloudprovider)
    (region : SCloudregion) (vpcs : List ICloudVpc) (s : σ) :
    (∀ err, getVpcsByRegion ops region (some provider) s = .error err →
      (SyncVPCs ops provider region vpcs s).localVPCs = [] ∧
      (SyncVPCs ops provider region vpcs s).remoteVPCs = [] ∧
      (SyncVPCs ops provider region vpcs s).syncResult = SyncResult.zero.Error err ∧
      (SyncVPCs ops provider region vpcs s).calls = [] ∧
      (SyncVPCs ops provider region vpcs s).store = s) ∧
    (∀ dbVPCs, getVpcsByRegion ops region (some provider) s = .ok dbVPCs →
      (∃ v ∈ dbVPCs, ops.IsInTask v s = true) →
      (SyncVPCs ops provider region vpcs s).localVPCs = [] ∧
      (SyncVPCs ops provider region vpcs s).remoteVPCs = [] ∧
      (SyncVPCs ops provider region vpcs s).syncResult =
        SyncResult.zero.Error (.plain "object in task") ∧
      (SyncVPCs ops provider region vpcs s).calls = [] ∧
      (SyncVPCs ops provider region vpcs s).store = s) ∧
    (∀ dbVPCs err, getVpcsByRegion ops region (some provider) s = .ok dbVPCs →
      (∀ v ∈ dbVPCs, ops.IsInTask v s = false) →
      ops.CompareSets dbVPCs vpcs = .error err →
      (SyncVPCs ops provider region vpcs s).localVPCs = [] ∧
      (SyncVPCs ops provider region vpcs s).remoteVPCs = [] ∧
      (SyncVPCs ops provider region vpcs s).syncResult = SyncResult.zero.Error err ∧
      (SyncVPCs ops provider region vpcs s).calls = [] ∧
      (SyncVPCs ops provider region vpcs s).store = s) ∧
    (∀ err, (SyncResult.zero.Error err).errors = [err] ∧
      (SyncResult.zero.Error err).AddCnt = 0 ∧ (SyncResult.zero.Error err).UpdateCnt = 0 ∧
      (SyncResult.zero.Error err).DelCnt = 0) := by
  refine ⟨fun err h => ?_, fun dbVPCs h ht => ?_, fun dbVPCs err h ht hc => ?_,
    fun err => ⟨rfl, rfl, rfl, rfl⟩⟩
  · unfold SyncVPCs
    rw [h]
    exact ⟨rfl, rfl, rfl, rfl, rfl⟩
  · have hany : dbVPCs.any (fun v => ops.IsInTask v s) = true := by
      obtain ⟨v, hv, hvt⟩ := ht
      exact List.any_eq_true.2 ⟨v, hv, hvt⟩
    unfold SyncVPCs
    rw [h]
    simp only [hany, if_true]
    refine ⟨?_, ?_, ?_, ?_, ?_⟩ <;> first | rfl | trivial
  · have hany : dbVPCs.any (fun v => ops.IsInTask v s) = false := by
      rw [List.any_eq_false]
      intro v hv
      rw [ht v hv]
      exact Bool.false_ne_true
    unfold SyncVPCs
    rw [h]
    simp only [hany, hc, Bool.false_eq_true, if_false]
    refine ⟨?_, ?_, ?_, ?_, ?_⟩ <;> first | rfl | trivial

/-- Witness for C21 on the in-memory store: VPC `X` of the scope is in a task,
so `SyncVPCs` invokes no callback, leaves the store as it was and records
`object in task`. -/
theorem SyncVPCs_early_failure_witness :
    (SyncVPCs memOps scenarioProvider scenarioRegion [observed "e1" "X", observed "e3" "Z"]
        { storeOf [scenarioX, scenarioY] with tasks := ["x"] }).calls = [] ∧
    (SyncVPCs memOps scenarioProvider scenarioRegion [observed "e1" "X", observed "e3" "Z"]
        { storeOf [scenarioX, scenarioY] with tasks := ["x"] }).store =
      { storeOf [scenarioX, scenarioY] with tasks := ["x"] } ∧
    (SyncVPCs memOps scenarioProvider scenarioRegion [observed "e1" "X", observed "e3" "Z"]
        { storeOf [scenarioX, scenarioY] with tasks := ["x"] }).localVPCs = [] ∧
    (SyncVPCs memOps scenarioProvider scenarioRegion [observed "e1" "X", observed "e3" "Z"]
        { storeOf [scenarioX, scenarioY] with tasks := ["x"] }).syncResult =
      SyncResult.zero.Error (.plain "object in task") :=
  ⟨((SyncVPCs_early_failure memOps scenarioProvider scenarioRegion
      [observed "e1" "X", observed "e3" "Z"]
      { storeOf [scenarioX, scenarioY] with tasks := ["x"] }).2.1 [scenarioX, scenarioY] rfl
      ⟨scenarioX, List.mem_cons_self _ _, rfl⟩).2.2.2.1,
    ((SyncVPCs_early_failure memOps scenarioProvider scenarioRegion
      [observed "e1" "X", observed "e3" "Z"]
      { storeOf [scenarioX, scenarioY] with tasks := ["x"] }).2.1 [scenarioX, scenarioY] rfl
      ⟨scenarioX, List.mem_cons_self _ _, rfl⟩).2.2.2.2,
    ((SyncVPCs_early_failure memOps scenarioProvider scenarioRegion
      [observed "e1" "X", observed "e3" "Z"]
      { storeOf [scenarioX, scenarioY] with tasks := ["x"] }).2.1 [scenarioX, scenarioY] rfl
      ⟨scenarioX, List.mem_cons_self _ _, rfl⟩).1,
    ((SyncVPCs_early_failure memOps scenarioProvider scenarioRegion
      [observed "e1" "X", observed "e3" "Z"]
      { storeOf [scenarioX, scenarioY] with tasks := ["x"] }).2.1 [scenarioX, scenarioY] rfl
      ⟨scenarioX, List.mem_cons_self _ _, rfl⟩).2.2.1⟩

theorem SyncWithCloudVpc_receiver {σ : Type} (ops : VpcOps σ) (self : SVpc)
    (extVPC : ICloudVpc) (s : σ) :
    (self.SyncWithCloudVpc ops extVPC s).2.1 = syncFields self extVPC := by
  unfold SVpc.SyncWithCloudVpc syncFields
  simp only []
  rcases ops.UpdateWithLock self _ s with ⟨r, s1⟩
  cases r <;> rfl

theorem remove_foldl_lists {σ : Type} (ops : VpcOps σ) (removed : List SVpc)
    (st : SyncState σ) :
    (removed.foldl (removeStep ops) st).localVPCs = st.localVPCs ∧
    (removed.foldl (removeStep ops) st).remoteVPCs = st.remoteVPCs ∧
    (removed.foldl (removeStep ops) st).syncResult.UpdateCnt = st.syncResult.UpdateCnt ∧
    (removed.foldl (removeStep ops) st).syncResult.AddCnt = st.syncResult.AddCnt := by
  induction removed generalizing st with
  | nil => exact ⟨rfl, rfl, rfl, rfl⟩
  | cons v rest ih =>
    rw [List.foldl_cons]
    obtain ⟨h1, h2, h3, h4⟩ := ih (removeStep ops st v)
    have hs : (removeStep ops st v).localVPCs = st.localVPCs ∧
        (removeStep ops st v).remoteVPCs = st.remoteVPCs ∧
        (removeStep ops st v).syncResult.UpdateCnt = st.syncResult.UpdateCnt ∧
        (removeStep ops st v).syncResult.AddCnt = st.syncResult.AddCnt := by
      unfold removeStep
      rcases v.syncRemoveCloudVpc ops st.store with ⟨r, s1, cs⟩
      cases r <;> exact ⟨rfl, rfl, rfl, rfl⟩
    exact ⟨h1.trans hs.1, h2.trans hs.2.1, h3.trans hs.2.2.1, h4.trans hs.2.2.2⟩

theorem update_foldl_lists {σ : Type} (ops : VpcOps σ) (common : List (SVpc × ICloudVpc))
    (st : SyncState σ) :
    (common.foldl (updateStep ops) st).localVPCs =
      st.localVPCs ++ (syncedPairs ops common st).map Prod.fst ∧
    (common.foldl (updateStep ops) st).remoteVPCs =
      st.remoteVPCs ++ (syncedPairs ops common st).map Prod.snd ∧
    (common.foldl (updateStep ops) st).syncResult.UpdateCnt =
      st.syncResult.UpdateCnt + (syncedPairs ops common st).length ∧
    (common.foldl (updateStep ops) st).syncResult.AddCnt = st.syncResult.AddCnt := by
  induction common generalizing st with
  | nil => simp [syncedPairs]
  | cons pair rest ih =>
    rw [List.foldl_cons]
    obtain ⟨h1, h2, h3, h4⟩ := ih (updateStep ops st pair)
    rw [h1, h2, h3, h4]
    rw [syncedPairs]
    unfold updateStep
    rcases pair.1.SyncWithCloudVpc ops pair.2 st.store with ⟨r, v1, s1⟩
    cases r with
    | error err =>
      simp only [SyncResult.UpdateError]
      refine ⟨?_, ?_, ?_, ?_⟩ <;> first | rfl | trivial
    | ok u =>
      simp only [SyncResult.Update, List.map_cons, List.length_cons, List.append_assoc,
        List.singleton_append]
      refine ⟨?_, ?_, ?_, ?_⟩ <;> first | rfl | trivial | omega

theorem add_foldl_lists {σ : Type} (ops : VpcOps σ) (provider : SCloudprovider)
    (region : SCloudregion) (added : List ICloudVpc) (st : SyncState σ) :
    (added.foldl (addStep ops provider region) st).localVPCs =
      st.localVPCs ++ (createdPairs ops provider region added st).map Prod.fst ∧
    (added.foldl (addStep ops provider region) st).remoteVPCs =
      st.remoteVPCs ++ (createdPairs ops provider region added st).map Prod.snd ∧
    (added.foldl (addStep ops provider region) st).syncResult.AddCnt =
      st.syncResult.AddCnt + (createdPairs ops provider region added st).length ∧
    (added.foldl (addStep ops provider region) st).syncResult.UpdateCnt =
      st.syncResult.UpdateCnt := by
  induction added generalizing st with
  | nil => simp [createdPairs]
  | cons ext rest ih =>
    rw [List.foldl_cons]
    obtain ⟨h1, h2, h3, h4⟩ := ih (addStep ops provider region st ext)
    rw [h1, h2, h3, h4]
    rw [createdPairs]
    unfold addStep
    rcases newFromCloudVpc ops ext provider region st.store with ⟨r, s1⟩
    cases r with
    | error err =>
      simp only [SyncResult.AddError]
      refine ⟨?_, ?_, ?_, ?_⟩ <;> first | rfl | trivial
    | ok v =>
      simp only [SyncResult.Add, List.map_cons, List.length_cons, List.append_assoc,
        List.singleton_append]
      refine ⟨?_, ?_, ?_, ?_⟩ <;> first | rfl | trivial | omega

theorem syncedPairs_sublist {σ : Type} (ops : VpcOps σ) (common : List (SVpc × ICloudVpc))
    (st : SyncState σ) :
    (syncedPairs ops common st).Sublist
      (common.map (fun pr => (syncFields pr.1 pr.2, pr.2))) := by
  induction common generalizing st with
  | nil => simp [syncedPairs]
  | cons pair rest ih =>
    rw [syncedPairs, List.map_cons]
    have hv := SyncWithCloudVpc_receiver ops pair.1 pair.2 st.store
    rcases hsw : pair.1.SyncWithCloudVpc ops pair.2 st.store with ⟨r, v1, s1⟩
    rw [hsw] at hv
    cases r with
    | error err => exact List.Sublist.cons _ (ih _)
    | ok u =>
      simp only [] at hv
      rw [hv]
      exact List.Sublist.cons₂ _ (ih _)

theorem createdPairs_sublist {σ : Type} (ops : VpcOps σ) (provider : SCloudprovider)
    (region : SCloudregion) (added : List ICloudVpc) (st : SyncState σ) :
    ((createdPairs ops provider region added st).map Prod.snd).Sublist added := by
  induction added generalizing st with
  | nil => simp [createdPairs]
  | cons ext rest ih =>
    rw [createdPairs]
    rcases newFromCloudVpc ops ext provider region st.store with ⟨r, s1⟩
    cases r with
    | error err => exact List.Sublist.cons _ (ih _)
    | ok v => exact List.Sublist.cons₂ _ (ih _)

/-- C22: the lists returned by a completed `SyncVPCs`.  When the local VPCs are
fetched, none is in a task and the comparison yields the partition `p`, the
returned lists are the two components of one list of pairs: first, in
partition order, the common pairs whose `SyncWithCloudVpc` returned nil (the
local VPC with the mirrored columns and its external VPC), then, in partition
order, the added VPCs whose `newFromCloudVpc` returned nil (the new local VPC
and its external VPC).  So both lists have the same length, which is the number
of successful updates plus the number of successful adds of the returned
`SyncResult`; the loop over the removed VPCs appends nothing, and a pair whose
callback returned an error is skipped. -/
theorem SyncVPCs_lists_aligned {σ : Type} (ops : VpcOps σ) (provider : SCloudprovider)
    (region : SCloudregion) (vpcs : List ICloudVpc) (s : σ) (dbVPCs : List SVpc)
    (p : Partition)
    (hfetch : getVpcsByRegion ops region (some provider) s = .ok dbVPCs)
    (htask : dbVPCs.any (fun v => ops.IsInTask v s) = false)
    (hcmp : ops.CompareSets dbVPCs vpcs = .ok p) :
    (SyncVPCs ops provider region vpcs s).localVPCs =
      (syncedPairs ops p.common (p.removed.foldl (removeStep ops) (startState s)) ++
        createdPairs ops provider region p.added
          (p.common.foldl (updateStep ops)
            (p.removed.foldl (removeStep ops) (startState s)))).map Prod.fst ∧
    (SyncVPCs ops provider region vpcs s).remoteVPCs =
      (syncedPairs ops p.common (p.removed.foldl (removeStep ops) (startState s)) ++
        createdPairs ops provider region p.added
          (p.common.foldl (updateStep ops)
            (p.removed.foldl (removeStep ops) (startState s)))).map Prod.snd ∧
    (SyncVPCs ops provider region vpcs s).localVPCs.length =
      (SyncVPCs ops provider region vpcs s).remoteVPCs.length ∧
    (SyncVPCs ops provider region vpcs s).localVPCs.length =
      (SyncVPCs ops provider region vpcs s).syncResult.UpdateCnt +
        (SyncVPCs ops provider region vpcs s).syncResult.AddCnt ∧
    (syncedPairs ops p.common (p.removed.foldl (removeStep ops) (startState s))).length =
      (SyncVPCs ops provider region vpcs s).syncResult.UpdateCnt ∧
    (createdPairs ops provider region p.added
      (p.common.foldl (updateStep ops)
        (p.removed.foldl (removeStep ops) (startState s)))).length =
      (SyncVPCs ops provider region vpcs s).syncResult.AddCnt ∧
    (syncedPairs ops p.common (p.removed.foldl (removeStep ops) (startState s))).Sublist
      (p.common.map (fun pr => (syncFields pr.1 pr.2, pr.2))) ∧
    ((createdPairs ops provider region p.added
      (p.common.foldl (updateStep ops)
        (p.removed.foldl (removeStep ops) (startState s)))).map Prod.snd).Sublist p.added ∧
    ((p.removed.foldl (removeStep ops) (startState s)).localVPCs = [] ∧
      (p.removed.foldl (removeStep ops) (startState s)).remoteVPCs = []) := by
  have hrun : SyncVPCs ops provider region vpcs s =
      p.added.foldl (addStep ops provider region)
        (p.common.foldl (updateStep ops)
          (p.removed.foldl (removeStep ops) (startState s))) := by
    unfold SyncVPCs
    simp only [hfetch, htask, hcmp, Bool.false_eq_true, if_false]
    rfl
  obtain ⟨r1, r2, r3, r4⟩ := remove_foldl_lists ops p.removed (startState s)
  obtain ⟨u1, u2, u3, u4⟩ := update_foldl_lists ops p.common
    (p.removed.foldl (removeStep ops) (startState s))
  obtain ⟨a1, a2, a3, a4⟩ := add_foldl_lists ops provider region p.added
    (p.common.foldl (updateStep ops) (p.removed.foldl (removeStep ops) (startState s)))
  have hz1 : (startState s).localVPCs = [] := rfl
  have hz2 : (startState s).remoteVPCs = [] := rfl
  have hz3 : (startState s).syncResult.UpdateCnt = 0 := rfl
  have hz4 : (startState s).syncResult.AddCnt = 0 := rfl
  have hl : (SyncVPCs ops provider region vpcs s).localVPCs =
      (syncedPairs ops p.common (p.removed.foldl (removeStep ops) (startState s)) ++
        createdPairs ops provider region p.added
          (p.common.foldl (updateStep ops)
            (p.removed.foldl (removeStep ops) (startState s)))).map Prod.fst := by
    rw [hrun, a1, u1, r1, hz1, List.nil_append, List.map_append]
  have hr : (SyncVPCs ops provider region vpcs s).remoteVPCs =
      (syncedPairs ops p.common (p.removed.foldl (removeStep ops) (startState s)) ++
        createdPairs ops provider region p.added
          (p.common.foldl (updateStep ops)
            (p.removed.foldl (removeStep ops) (startState s)))).map Prod.snd := by
    rw [hrun, a2, u2, r2, hz2, List.nil_append, List.map_append]
  have hu : (SyncVPCs ops provider region vpcs s).syncResult.UpdateCnt =
      (syncedPairs ops p.common (p.removed.foldl (removeStep ops) (startState s))).length := by
    rw [hrun, a4, u3, r3, hz3, Nat.zero_add]
  have ha : (SyncVPCs ops provider region vpcs s).syncResult.AddCnt =
      (createdPairs ops provider region p.added
        (p.common.foldl (updateStep ops)
          (p.removed.foldl (removeStep ops) (startState s)))).length := by
    rw [hrun, a3, u4, r4, hz4, Nat.zero_add]
  refine ⟨hl, hr, ?_, ?_, hu.symm, ha.symm, syncedPairs_sublist ops _ _,
    createdPairs_sublist ops provider region _ _, ⟨r1.trans hz1, r2.trans hz2⟩⟩
  · rw [hl, hr, List.length_map, List.length_map]
  · rw [hl, hu, ha, List.length_map, List.length_append]

/-- Witness for C22 on the in-memory store of Scenario A with a failing
insert: the common pair of `X` is returned, the added VPC whose creation failed
and the removed VPC `Y` are not, and the lists have the length of the one
successful update. -/
theorem SyncVPCs_lists_aligned_witness :
    (SyncVPCs failingInsertOps scenarioProvider scenarioRegion
        [observed "e1" "X", observed "e3" "Z"] (storeOf [scenarioX, scenarioY])).localVPCs =
      [syncFields scenarioX (observed "e1" "X")] ∧
    (SyncVPCs failingInsertOps scenarioProvider scenarioRegion
        [observed "e1" "X", observed "e3" "Z"] (storeOf [scenarioX, scenarioY])).remoteVPCs =
      [observed "e1" "X"] ∧
    (SyncVPCs failingInsertOps scenarioProvider scenarioRegion
        [observed "e1" "X", observed "e3" "Z"] (storeOf [scenarioX, scenarioY])).localVPCs.length =
      (SyncVPCs failingInsertOps scenarioProvider scenarioRegion
        [observed "e1" "X", observed "e3" "Z"] (storeOf [scenarioX, scenarioY])).syncResult.UpdateCnt +
      (SyncVPCs failingInsertOps scenarioProvider scenarioRegion
        [observed "e1" "X", observed "e3" "Z"] (storeOf [scenarioX, scenarioY])).syncResult.AddCnt :=
  ⟨(SyncVPCs_lists_aligned failingInsertOps scenarioProvider scenarioRegion
      [observed "e1" "X", observed "e3" "Z"] (storeOf [scenarioX, scenarioY])
      [scenarioX, scenarioY]
      { removed := [scenarioY], common := [(scenarioX, observed "e1" "X")],
        added := [observed "e3" "Z"] } rfl rfl rfl).1.trans rfl,
    (SyncVPCs_lists_aligned failingInsertOps scenarioProvider scenarioRegion
      [observed "e1" "X", observed "e3" "Z"] (storeOf [scenarioX, scenarioY])
      [scenarioX, scenarioY]
      { removed := [scenarioY], common := [(scenarioX, observed "e1" "X")],
        added := [observed "e3" "Z"] } rfl rfl rfl).2.1.trans rfl,
    (SyncVPCs_lists_aligned failingInsertOps scenarioProvider scenarioRegion
      [observed "e1" "X", observed "e3" "Z"] (storeOf [scenarioX, scenarioY])
      [scenarioX, scenarioY]
      { removed := [scenarioY], common := [(scenarioX, observed "e1" "X")],
        added := [observed "e3" "Z"] } rfl rfl rfl).2.2.2.1⟩

/-! ### ValidateDiskSize: the accepted sizes -/

theorem ValidateDiskSize_range (c : StorageTypes) (storage : SStorage) :
    ∃ lo hi : Int, 1 ≤ lo ∧ hi ≤ 16384 ∧
      ∀ n : Int, ValidateDiskSize c storage n = .ok () ↔ lo ≤ n ∧ n ≤ hi := by
  have key : ∀ (lo hi n : Int) (msg : String),
      ((if n < lo ∨ n > hi then (Except.error msg : Except String Unit) else .ok ()) = .ok ()) ↔
        lo ≤ n ∧ n ≤ hi := by
    intro lo hi n msg
    by_cases h : n < lo ∨ n > hi
    · rw [if_pos h]
      constructor
      · intro he; cases he
      · intro hb; omega
    · rw [if_neg h]
      constructor
      · intro _; omega
      · intro _; rfl
  unfold ValidateDiskSize
  by_cases h1 : storage.StorageType = c.STORAGE_GP2_SSD
  · refine ⟨1, 16384, by omega, by omega, fun n => ?_⟩
    rw [if_pos h1]
    exact key 1 16384 n _
  · by_cases h2 : storage.StorageType = c.STORAGE_IO1_SSD
    · refine ⟨4, 16384, by omega, by omega, fun n => ?_⟩
      rw [if_neg h1, if_pos h2]
      exact key 4 16384 n _
    · by_cases h3 : IsInStringArray storage.StorageType
          [c.STORAGE_ST1_HDD, c.STORAGE_SC1_SSD] = true
      · refine ⟨500, 16384, by omega, by omega, fun n => ?_⟩
        rw [if_neg h1, if_neg h2, if_pos h3]
        exact key 500 16384 n _
      · by_cases h4 : storage.StorageType = c.STORAGE_STANDARD_SSD
        · refine ⟨1, 1024, by omega, by omega, fun n => ?_⟩
          rw [if_neg h1, if_neg h2, if_neg h3, if_pos h4]
          exact key 1 1024 n _
        · refine ⟨2, 1, by omega, by omega, fun n => ?_⟩
          rw [if_neg h1, if_neg h2, if_neg h3, if_neg h4]
          constructor
          · intro he; cases he
          · intro hb; omega

/-- C23: for every storage type (and every value of the storage-type
constants), the integer sizes that `ValidateDiskSize` accepts form an interval
within 1 and 16384: an accepted size is at least 1 and at most 16384, and every
size between two accepted sizes is accepted; the accepted sizes are exactly
those between two bounds `lo` and `hi` with `1 ≤ lo` and `hi ≤ 16384` (none
when the storage type is not supported). -/
theorem ValidateDiskSize_interval (c : StorageTypes) (storage : SStorage) :
    (∀ n : Int, ValidateDiskSize c storage n = .ok () → 1 ≤ n ∧ n ≤ 16384) ∧
    (∀ a b n : Int, ValidateDiskSize c storage a = .ok () →
      ValidateDiskSize c storage b = .ok () → a ≤ n → n ≤ b →
      ValidateDiskSize c storage n = .ok ()) ∧
    (∃ lo hi : Int, 1 ≤ lo ∧ hi ≤ 16384 ∧
      ∀ n : Int, ValidateDiskSize c storage n = .ok () ↔ lo ≤ n ∧ n ≤ hi) := by
  obtain ⟨lo, hi, hlo, hhi, hiff⟩ := ValidateDiskSize_range c storage
  refine ⟨fun n hn => ?_, fun a b n ha hb han hnb => ?_, ⟨lo, hi, hlo, hhi, hiff⟩⟩
  · have := (hiff n).1 hn
    omega
  · have h1 := (hiff a).1 ha
    have h2 := (hiff b).1 hb
    exact (hiff n).2 (by omega)

/-- Witness for C23 with the AWS storage types: `io1` accepts 4 and 16384,
hence 100 between them, and it accepts neither 0 nor 16385. -/
theorem ValidateDiskSize_interval_witness :
    ValidateDiskSize awsStorageTypes ⟨"io1"⟩ 100 = .ok () ∧
    ValidateDiskSize awsStorageTypes ⟨"io1"⟩ 0 ≠ .ok () ∧
    ValidateDiskSize awsStorageTypes ⟨"io1"⟩ 16385 ≠ .ok () :=
  ⟨(ValidateDiskSize_interval awsStorageTypes ⟨"io1"⟩).2.1 4 16384 100 rfl rfl
      (by decide) (by decide),
    fun h => absurd ((ValidateDiskSize_interval awsStorageTypes ⟨"io1"⟩).1 0 h).1 (by decide),
    fun h => absurd ((ValidateDiskSize_interval awsStorageTypes ⟨"io1"⟩).1 16385 h).2
      (by decide)⟩

end Onecloud
